import Mathlib

/-!
# Verification of the Dolby Vision extension-metadata core (dovi_tool fork)

Shallow embedding of the extension-metadata block codecs, the CM v2.9 / CM v4.0
envelope parse/write routines, the block set operations, the ST.2094-10 payload
bridge, and the XML L5 aspect-ratio derivation of this repository, together
with theorems settling the frozen claims about them.

Bit streams are embedded as `List Bool` (MSB-first); machine integers as `Nat`
(parsers only ever produce values below the field's width bound, and writers
truncate to the field width exactly as the bit writer of the source does).
The bit reader of the `bitvec_helpers` collaborator crate is modelled from the
spec (section 4.1): big-endian fields, unsigned Exp-Golomb, alignment queries
against the absolute bit position, reads past the end fail.  Fallible
operations return `Except RpuError`; a Rust `panic` (`unwrap` on `None`) is
modelled as the distinguished error `RpuError.noneUnwrap`.
-/

/-- Bit strings, most significant bit first. -/
abbrev Bits := List Bool

/-- Error kinds of the core (section 7 of the spec collapses the `anyhow`
string errors of the source into these kinds). -/
inductive RpuError where
  | truncated
  | dmAlignmentNonZero
  | invalidBlockLength
  | blockLevelNotAllowed
  | extPaddingNonZero
  | valueOutOfRange
  | noneUnwrap
  | missingCanvasDimensions
  deriving DecidableEq, Repr

/-- Big-endian interpretation of a bit string as a natural number. -/
def natFromBits (l : Bits) : Nat :=
  l.foldl (fun acc b => 2 * acc + (cond b 1 0)) 0

/-- The `w`-bit big-endian encoding of `v` (the low `w` bits of `v`,
most significant first) — what `write_n` of the bit writer emits. -/
def bitsOfNat : Nat → Nat → Bits
  | 0, _ => []
  | w + 1, v => bitsOfNat w (v / 2) ++ [decide (v % 2 = 1)]

/-- Number of leading `false` bits. -/
def leadingZeros : Bits → Nat
  | [] => 0
  | true :: _ => 0
  | false :: t => leadingZeros t + 1

/-- The unsigned Exp-Golomb encoding of `v`, as emitted by `write_ue`:
`k` zero bits followed by the `k+1`-bit encoding of `v + 1`,
where `k = log2 (v + 1)`. -/
def ueBits (v : Nat) : Bits :=
  List.replicate (Nat.log2 (v + 1)) false ++
    bitsOfNat (Nat.log2 (v + 1) + 1) (v + 1)

/-- The forward bit reader (`BitVecReader`): remaining bits plus the absolute
bit position inside the carrying stream (alignment is a property of the
absolute position). -/
structure BitReader where
  pos : Nat
  bits : Bits
  deriving DecidableEq, Repr

/-- `get`: read one bit. -/
def BitReader.get : BitReader → Except RpuError (Bool × BitReader)
  | ⟨_, []⟩ => .error .truncated
  | ⟨p, b :: t⟩ => .ok (b, ⟨p + 1, t⟩)

/-- Accumulator loop of `get_n`. -/
def BitReader.getNGo : Nat → Nat → BitReader → Except RpuError (Nat × BitReader)
  | 0, acc, r => .ok (acc, r)
  | _ + 1, _, ⟨_, []⟩ => .error .truncated
  | n + 1, acc, ⟨p, b :: t⟩ => BitReader.getNGo n (2 * acc + (cond b 1 0)) ⟨p + 1, t⟩

/-- `get_n(n)`: read an `n`-bit big-endian unsigned field. -/
def BitReader.getN (n : Nat) (r : BitReader) : Except RpuError (Nat × BitReader) :=
  BitReader.getNGo n 0 r

/-- `get_ue()`: unsigned Exp-Golomb — count leading zero bits `k`, read `k + 1`
more bits, return that value minus 1 (spec section 4.1). -/
def BitReader.getUe (r : BitReader) : Except RpuError (Nat × BitReader) := do
  let k := leadingZeros r.bits
  let (v, r1) ← BitReader.getN (k + 1) ⟨r.pos + k, r.bits.drop k⟩
  .ok (v - 1, r1)

/-- Read `n` bits each of which must be zero, failing with `e` on a set bit
(the `dm_alignment_zero_bit` / `ext_dm_alignment_zero_bit` loops). -/
def BitReader.readZeros : Nat → RpuError → BitReader → Except RpuError BitReader
  | 0, _, r => .ok r
  | _ + 1, _, ⟨_, []⟩ => .error .truncated
  | n + 1, e, ⟨p, b :: t⟩ =>
    if b then .error e else BitReader.readZeros n e ⟨p + 1, t⟩

/-- Read `n` raw bits as a bit string (the reserved-block payload read). -/
def BitReader.getBits : Nat → BitReader → Except RpuError (Bits × BitReader)
  | 0, r => .ok ([], r)
  | _ + 1, ⟨_, []⟩ => .error .truncated
  | n + 1, ⟨p, b :: t⟩ => do
    let (l, r1) ← BitReader.getBits n ⟨p + 1, t⟩
    .ok (b :: l, r1)

/-- Number of zero bits the alignment loop at absolute position `p` runs
through (`while !is_aligned()`). -/
def alignCount (p : Nat) : Nat := (8 - p % 8) % 8

/-! ## Arithmetic facts about the bit encodings -/

theorem natFromBits_append_go (l : Bits) :
    ∀ acc : Nat,
      l.foldl (fun a b => 2 * a + (cond b 1 0)) acc =
        acc * 2 ^ l.length + natFromBits l := by
  induction l with
  | nil => intro acc; simp [natFromBits]
  | cons b t ih =>
      intro acc
      simp only [List.foldl_cons, List.length_cons, natFromBits]
      rw [ih, ih (2 * 0 + (cond b 1 0))]
      ring

theorem natFromBits_cons (b : Bool) (t : Bits) :
    natFromBits (b :: t) = (cond b 1 0) * 2 ^ t.length + natFromBits t := by
  have h := natFromBits_append_go (b :: t) 0
  simp only [List.foldl_nil, List.foldl_cons, List.length_cons] at h ⊢
  rw [show natFromBits (b :: t) =
      (t.foldl (fun a b => 2 * a + (cond b 1 0)) (2 * 0 + (cond b 1 0))) from rfl,
    natFromBits_append_go]
  ring

theorem natFromBits_lt (l : Bits) : natFromBits l < 2 ^ l.length := by
  induction l with
  | nil => simp [natFromBits]
  | cons b t ih =>
      rw [natFromBits_cons]
      cases b <;> simp only [cond] <;> simp [List.length_cons, pow_succ] <;> omega

theorem natFromBits_concat (l : Bits) (b : Bool) :
    natFromBits (l ++ [b]) = 2 * natFromBits l + (cond b 1 0) := by
  simp [natFromBits, List.foldl_append]

theorem bitsOfNat_length (w v : Nat) : (bitsOfNat w v).length = w := by
  induction w generalizing v with
  | zero => simp [bitsOfNat]
  | succ n ih => simp [bitsOfNat, ih]

theorem bitsOfNat_natFromBits (l : Bits) :
    bitsOfNat l.length (natFromBits l) = l := by
  induction l using List.reverseRecOn with
  | nil => simp [natFromBits, bitsOfNat]
  | append_singleton t b ih =>
      rw [natFromBits_concat]
      simp only [List.length_append, List.length_singleton]
      show bitsOfNat t.length ((2 * natFromBits t + (cond b 1 0)) / 2) ++
          [decide ((2 * natFromBits t + (cond b 1 0)) % 2 = 1)] = t ++ [b]
      cases b
      · rw [show (2 * natFromBits t + (cond false 1 0)) / 2 = natFromBits t by
          simp only [cond]; omega]
        rw [ih]
        simp [Nat.mul_add_mod]
      · rw [show (2 * natFromBits t + (cond true 1 0)) / 2 = natFromBits t by
          simp only [cond]; omega]
        rw [ih]
        simp [Nat.mul_add_mod]

theorem natFromBits_true_cons (t : Bits) :
    2 ^ t.length ≤ natFromBits (true :: t) := by
  rw [natFromBits_cons]; simp

/-! ## Inversion lemmas for the reader primitives

Each lemma says: a successful read consumed exactly the canonical encoding of
the value it returned and advanced the absolute position by its length. -/

theorem BitReader.get_ok {r r' : BitReader} {b : Bool}
    (h : BitReader.get r = .ok (b, r')) :
    r.bits = b :: r'.bits ∧ r'.pos = r.pos + 1 := by
  obtain ⟨p, bits⟩ := r
  cases bits with
  | nil => simp [BitReader.get] at h
  | cons x t =>
      simp only [BitReader.get, Except.ok.injEq, Prod.mk.injEq] at h
      obtain ⟨hb, hr⟩ := h
      subst hb; subst hr; simp

theorem BitReader.getNGo_ok {n acc v : Nat} {r r' : BitReader}
    (h : BitReader.getNGo n acc r = .ok (v, r')) :
    ∃ l : Bits, l.length = n ∧ r.bits = l ++ r'.bits ∧
      v = acc * 2 ^ n + natFromBits l ∧ r'.pos = r.pos + n := by
  induction n generalizing acc r with
  | zero =>
      simp only [BitReader.getNGo, Except.ok.injEq, Prod.mk.injEq] at h
      exact ⟨[], by simp [natFromBits, h.1, ← h.2]⟩
  | succ n ih =>
      obtain ⟨p, bits⟩ := r
      cases bits with
      | nil => simp [BitReader.getNGo] at h
      | cons b t =>
          obtain ⟨l, hlen, hbits, hv, hpos⟩ := ih h
          refine ⟨b :: l, by simp [hlen], ?_, ?_, ?_⟩
          · show b :: t = b :: l ++ r'.bits
            simp only at hbits
            rw [hbits]
            rfl
          · rw [hv, natFromBits_cons, hlen]
            ring
          · simp only at hpos ⊢
            omega

theorem BitReader.getN_ok {n v : Nat} {r r' : BitReader}
    (h : BitReader.getN n r = .ok (v, r')) :
    r.bits = bitsOfNat n v ++ r'.bits ∧ v < 2 ^ n ∧ r'.pos = r.pos + n := by
  obtain ⟨l, hlen, hbits, hv, hpos⟩ := BitReader.getNGo_ok h
  have hv' : v = natFromBits l := by omega
  subst hv'
  refine ⟨?_, ?_, hpos⟩
  · rw [← hlen, bitsOfNat_natFromBits]; exact hbits
  · rw [← hlen]; exact natFromBits_lt l

theorem leadingZeros_spec (l : Bits) :
    l = List.replicate (leadingZeros l) false ++ l.drop (leadingZeros l) ∧
      (l.drop (leadingZeros l) = [] ∨
        ∃ t, l.drop (leadingZeros l) = true :: t) := by
  induction l with
  | nil => exact ⟨rfl, Or.inl rfl⟩
  | cons b t ih =>
      cases b with
      | true => exact ⟨rfl, Or.inr ⟨t, rfl⟩⟩
      | false =>
          obtain ⟨h1, h2⟩ := ih
          constructor
          · show false :: t =
              List.replicate (leadingZeros t + 1) false ++
                (false :: t).drop (leadingZeros t + 1)
            rw [List.replicate_succ, List.drop_succ_cons]
            rw [List.cons_append]
            exact congrArg (false :: ·) h1
          · show (false :: t).drop (leadingZeros t + 1) = [] ∨
              ∃ t1, (false :: t).drop (leadingZeros t + 1) = true :: t1
            rw [List.drop_succ_cons]
            exact h2

theorem ueBits_length (v : Nat) :
    (ueBits v).length = 2 * Nat.log2 (v + 1) + 1 := by
  simp [ueBits, bitsOfNat_length]; omega

theorem log2_eq_of_bounds {n k : Nat} (h1 : 2 ^ k ≤ n) (h2 : n < 2 ^ (k + 1)) :
    Nat.log2 n = k := by
  rw [Nat.log2_eq_log_two]
  exact Nat.log_eq_of_pow_le_of_lt_pow h1 h2

theorem natFromBits_bitsOfNat {w v : Nat} (h : v < 2 ^ w) :
    natFromBits (bitsOfNat w v) = v := by
  induction w generalizing v with
  | zero => interval_cases v; simp [bitsOfNat, natFromBits]
  | succ n ih =>
      show natFromBits (bitsOfNat n (v / 2) ++ [decide (v % 2 = 1)]) = v
      rw [natFromBits_concat, ih (by rw [pow_succ] at h; omega)]
      rcases Nat.mod_two_eq_zero_or_one v with h2 | h2 <;> simp [h2] <;> omega

theorem BitReader.getUe_ok {v : Nat} {r r' : BitReader}
    (h : BitReader.getUe r = .ok (v, r')) :
    r.bits = ueBits v ++ r'.bits ∧ r'.pos = r.pos + (ueBits v).length := by
  unfold BitReader.getUe at h
  simp only [bind, Except.bind] at h
  cases hN : BitReader.getN (leadingZeros r.bits + 1)
      ⟨r.pos + leadingZeros r.bits, r.bits.drop (leadingZeros r.bits)⟩ with
  | error e => rw [hN] at h; simp at h
  | ok p =>
      obtain ⟨v1, r1⟩ := p
      rw [hN] at h
      simp only [Except.ok.injEq, Prod.mk.injEq] at h
      obtain ⟨hv, hr⟩ := h
      subst hr
      obtain ⟨hbits, hlt, hpos⟩ := BitReader.getN_ok hN
      obtain ⟨hsplit, hhead⟩ := leadingZeros_spec r.bits
      set k := leadingZeros r.bits with hk
      simp only at hbits hpos
      have hlen1 : (bitsOfNat (k + 1) v1).length = k + 1 := bitsOfNat_length _ _
      -- the first of the k+1 consumed bits is a `true`
      have hcons : ∃ t, r.bits.drop k = true :: t := by
        rcases hhead with hnil | ht
        · rw [hnil] at hbits
          have := congrArg List.length hbits
          simp [hlen1] at this
          omega
        · exact ht
      obtain ⟨t, ht⟩ := hcons
      have hge : 2 ^ k ≤ v1 := by
        cases hB : bitsOfNat (k + 1) v1 with
        | nil => rw [hB] at hlen1; simp at hlen1
        | cons hd tl =>
            rw [ht, hB] at hbits
            have hhd : hd = true := by
              have := congrArg (fun l => l.headI) hbits
              simpa using this.symm
            have htl : tl.length = k := by
              rw [hB] at hlen1; simpa using hlen1
            have hval : natFromBits (bitsOfNat (k + 1) v1) = v1 :=
              natFromBits_bitsOfNat hlt
            rw [hB, hhd] at hval
            rw [← hval, ← htl]
            exact natFromBits_true_cons tl
      have hv1pos : 1 ≤ v1 := le_trans (Nat.one_le_two_pow) hge
      have hvv : v1 = v + 1 := by omega
      have hlog : Nat.log2 (v + 1) = k := by
        apply log2_eq_of_bounds <;> omega
      constructor
      · rw [ueBits, hlog, List.append_assoc, ← hvv, ← hbits]
        exact hsplit
      · rw [ueBits_length, hlog]
        omega


theorem BitReader.readZeros_ok {n : Nat} {e : RpuError} {r r' : BitReader}
    (h : BitReader.readZeros n e r = .ok r') :
    r.bits = List.replicate n false ++ r'.bits ∧ r'.pos = r.pos + n := by
  induction n generalizing r with
  | zero =>
      simp only [BitReader.readZeros, Except.ok.injEq] at h
      subst h; simp
  | succ n ih =>
      obtain ⟨p, bits⟩ := r
      cases bits with
      | nil => simp [BitReader.readZeros] at h
      | cons b t =>
          simp only [BitReader.readZeros] at h
          cases b with
          | true => simp at h
          | false =>
              rw [if_neg (Bool.false_ne_true)] at h
              obtain ⟨h1, h2⟩ := ih h
              simp only at h1 h2
              refine ⟨?_, by simp; omega⟩
              rw [List.replicate_succ, List.cons_append]
              exact congrArg (false :: ·) h1

/-- `readZeros` succeeds whenever the stream starts with `n` zero bits:
the converse direction of `readZeros_ok`. -/
theorem BitReader.readZeros_of_replicate (n : Nat) (e : RpuError) (p : Nat) (rest : Bits) :
    BitReader.readZeros n e ⟨p, List.replicate n false ++ rest⟩ =
      .ok ⟨p + n, rest⟩ := by
  induction n generalizing p with
  | zero => simp [BitReader.readZeros]
  | succ n ih =>
      rw [List.replicate_succ, List.cons_append]
      show (if false = true then Except.error e else
        BitReader.readZeros n e ⟨p + 1, List.replicate n false ++ rest⟩) = _
      rw [if_neg (Bool.false_ne_true), ih]
      simp only [Except.ok.injEq, BitReader.mk.injEq]
      exact ⟨by omega, trivial⟩

theorem BitReader.getBits_ok {n : Nat} {l : Bits} {r r' : BitReader}
    (h : BitReader.getBits n r = .ok (l, r')) :
    r.bits = l ++ r'.bits ∧ l.length = n ∧ r'.pos = r.pos + n := by
  induction n generalizing r l with
  | zero =>
      simp only [BitReader.getBits, Except.ok.injEq, Prod.mk.injEq] at h
      obtain ⟨h1, h2⟩ := h
      subst h1; subst h2; simp
  | succ n ih =>
      obtain ⟨p, bits⟩ := r
      cases bits with
      | nil => simp [BitReader.getBits] at h
      | cons b t =>
          simp only [BitReader.getBits, bind, Except.bind] at h
          cases hg : BitReader.getBits n ⟨p + 1, t⟩ with
          | error e => rw [hg] at h; simp at h
          | ok q =>
              obtain ⟨l1, r1⟩ := q
              rw [hg] at h
              simp only [Except.ok.injEq, Prod.mk.injEq] at h
              obtain ⟨h1, h2⟩ := h
              subst h2
              obtain ⟨g1, g2, g3⟩ := ih hg
              simp only at g1 g3
              subst h1
              refine ⟨by rw [List.cons_append]; exact congrArg (b :: ·) g1,
                by simp [g2], by simp; omega⟩

/-! ## Extension metadata blocks

`ExtMetadataBlockLevel8`, `ExtMetadataBlockLevel9` and
`ExtMetadataBlockLevel10` are translated from the source files under
`src/dolby_vision/src/rpu/extension_metadata/blocks/`.  The remaining levels
(1–6, 11, 254, reserved) are not under `src/`; they are modelled from the
spec (sections 3.1, 4.2.2, 4.2.3), see the individual doc comments. -/

/-- `MAX_12_BIT_VALUE` (blocks/mod.rs). -/
def MAX_12_BIT_VALUE : Nat := 4095

/-- Modelled from the spec: `MAX_PQ_LUMINANCE` lives in the missing
`level6.rs`; the spec references it (sections 3.1 and 4.2.2) without giving
its value.  The value used here is the luminance bound 10000 nits; no claim's
outcome depends on the exact value. -/
def MAX_PQ_LUMINANCE : Nat := 10000

/-- `PRESET_TARGET_DISPLAYS` (level10.rs). -/
def PRESET_TARGET_DISPLAYS : List Nat := [1, 16, 18, 21, 27, 28, 37, 38, 42, 48, 49]

/-- Default implementation of `ExtMetadataBlockInfo::possible_bytes_size`
(blocks/mod.rs): `(b + b % 8) >> 3` over the possible required bits. -/
def genericPossibleBytesSize (possibleRequiredBits : List Nat) : List Nat :=
  possibleRequiredBits.map (fun b => (b + b % 8) >>> 3)

/-- Default implementation of `ExtMetadataBlockInfo::required_bits`
(blocks/mod.rs): scan the modified-fields flag from the outermost optional
group inwards; the first set bit selects the corresponding entry of the
possible-required-bits table, otherwise the smallest entry is used. -/
def genericRequiredBits (possibleRequiredBits : List Nat) (fieldsFlag : Nat) : Nat :=
  let count := possibleRequiredBits.length - 1
  let lastFieldFlag := (1 <<< count) >>> 1
  match (List.range count).find? (fun i => fieldsFlag &&& (lastFieldFlag >>> i) != 0) with
  | some i => possibleRequiredBits.getD (count - i) 0
  | none => possibleRequiredBits.headD 0

/-- Default implementation of `ExtMetadataBlockInfo::bytes_size`
(blocks/mod.rs): look the current required bits up in the
possible-required-bits table and return the byte size at the same index. -/
def genericBytesSize (possibleRequiredBits possibleBytesSize : List Nat)
    (requiredBits : Nat) : Nat :=
  possibleBytesSize.getD (possibleRequiredBits.indexOf requiredBits) 0

/-- `ExtMetadataBlockLevel8` (level8.rs): creative intent trim passes.
This fork stores every field directly (no `Option`); presence on the wire is
decided by comparison against the default values. -/
structure ExtMetadataBlockLevel8 where
  target_display_index : Nat
  trim_slope : Nat
  trim_offset : Nat
  trim_power : Nat
  trim_chroma_weight : Nat
  trim_saturation_gain : Nat
  ms_weight : Nat
  target_mid_contrast : Nat
  clip_trim : Nat
  saturation_vector_field0 : Nat
  saturation_vector_field1 : Nat
  saturation_vector_field2 : Nat
  saturation_vector_field3 : Nat
  saturation_vector_field4 : Nat
  saturation_vector_field5 : Nat
  hue_vector_field0 : Nat
  hue_vector_field1 : Nat
  hue_vector_field2 : Nat
  hue_vector_field3 : Nat
  hue_vector_field4 : Nat
  hue_vector_field5 : Nat
  deriving DecidableEq, Repr

/-- `Default for ExtMetadataBlockLevel8` (level8.rs). -/
def ExtMetadataBlockLevel8.default : ExtMetadataBlockLevel8 :=
  { target_display_index := 1
    trim_slope := 2048
    trim_offset := 2048
    trim_power := 2048
    trim_chroma_weight := 2048
    trim_saturation_gain := 2048
    ms_weight := 2048
    target_mid_contrast := 2048
    clip_trim := 2048
    saturation_vector_field0 := 128
    saturation_vector_field1 := 128
    saturation_vector_field2 := 128
    saturation_vector_field3 := 128
    saturation_vector_field4 := 128
    saturation_vector_field5 := 128
    hue_vector_field0 := 128
    hue_vector_field1 := 128
    hue_vector_field2 := 128
    hue_vector_field3 := 128
    hue_vector_field4 := 128
    hue_vector_field5 := 128 }

namespace ExtMetadataBlockLevel8

def possible_required_bits : List Nat := [80, 92, 104, 152, 200]

def possible_bytes_size : List Nat := genericPossibleBytesSize possible_required_bits

def possible_bits_size : List Nat := possible_bytes_size.map (· * 8)

/-- `modified_fields_flag` (level8.rs): bit 3 = hue vector differs from the
defaults, bit 2 = saturation vector, bit 1 = clip_trim, bit 0 =
target_mid_contrast. -/
def modified_fields_flag (b : ExtMetadataBlockLevel8) : Nat :=
  let lastFieldFlag := (1 <<< possible_required_bits.length) >>> 2
  let d := ExtMetadataBlockLevel8.default
  let f0 : Nat := 0
  let f1 := if b.hue_vector_field0 ≠ d.hue_vector_field0
      ∨ b.hue_vector_field1 ≠ d.hue_vector_field1
      ∨ b.hue_vector_field2 ≠ d.hue_vector_field2
      ∨ b.hue_vector_field3 ≠ d.hue_vector_field3
      ∨ b.hue_vector_field4 ≠ d.hue_vector_field4
      ∨ b.hue_vector_field5 ≠ d.hue_vector_field5
    then f0 ||| (lastFieldFlag >>> 0) else f0
  let f2 := if b.saturation_vector_field0 ≠ d.saturation_vector_field0
      ∨ b.saturation_vector_field1 ≠ d.saturation_vector_field1
      ∨ b.saturation_vector_field2 ≠ d.saturation_vector_field2
      ∨ b.saturation_vector_field3 ≠ d.saturation_vector_field3
      ∨ b.saturation_vector_field4 ≠ d.saturation_vector_field4
      ∨ b.saturation_vector_field5 ≠ d.saturation_vector_field5
    then f1 ||| (lastFieldFlag >>> 1) else f1
  let f3 := if b.clip_trim ≠ d.clip_trim then f2 ||| (lastFieldFlag >>> 2) else f2
  if b.target_mid_contrast ≠ d.target_mid_contrast
    then f3 ||| (lastFieldFlag >>> 3) else f3

def required_bits (b : ExtMetadataBlockLevel8) : Nat :=
  genericRequiredBits possible_required_bits b.modified_fields_flag

def bytes_size (b : ExtMetadataBlockLevel8) : Nat :=
  genericBytesSize possible_required_bits possible_bytes_size b.required_bits

def bits_size (b : ExtMetadataBlockLevel8) : Nat := b.bytes_size * 8

def sort_key (b : ExtMetadataBlockLevel8) : Nat × Nat := (8, b.target_display_index)

/-- `ExtMetadataBlockLevel8::parse` (level8.rs): the declared length selects
how many of the trailing field groups are read; unread fields keep their
default values. -/
def parse (ext_block_length : Nat) (r : BitReader) :
    Except RpuError (ExtMetadataBlockLevel8 × BitReader) := do
  let (tdi, r) ← r.getN 8
  let (slope, r) ← r.getN 12
  let (off, r) ← r.getN 12
  let (power, r) ← r.getN 12
  let (chroma, r) ← r.getN 12
  let (satgain, r) ← r.getN 12
  let (msw, r) ← r.getN 12
  let b0 : ExtMetadataBlockLevel8 :=
    { ExtMetadataBlockLevel8.default with
      target_display_index := tdi
      trim_slope := slope
      trim_offset := off
      trim_power := power
      trim_chroma_weight := chroma
      trim_saturation_gain := satgain
      ms_weight := msw }
  let (b1, r) ←
    if ext_block_length > 10 then do
      let (mid, r) ← r.getN 12
      pure ({ b0 with target_mid_contrast := mid }, r)
    else pure (b0, r)
  let (b2, r) ←
    if ext_block_length > 12 then do
      let (clip, r) ← r.getN 12
      pure ({ b1 with clip_trim := clip }, r)
    else pure (b1, r)
  let (b3, r) ←
    if ext_block_length > 13 then do
      let (s0, r) ← r.getN 8
      let (s1, r) ← r.getN 8
      let (s2, r) ← r.getN 8
      let (s3, r) ← r.getN 8
      let (s4, r) ← r.getN 8
      let (s5, r) ← r.getN 8
      pure ({ b2 with
        saturation_vector_field0 := s0
        saturation_vector_field1 := s1
        saturation_vector_field2 := s2
        saturation_vector_field3 := s3
        saturation_vector_field4 := s4
        saturation_vector_field5 := s5 }, r)
    else pure (b2, r)
  let (b4, r) ←
    if ext_block_length > 19 then do
      let (h0, r) ← r.getN 8
      let (h1, r) ← r.getN 8
      let (h2, r) ← r.getN 8
      let (h3, r) ← r.getN 8
      let (h4, r) ← r.getN 8
      let (h5, r) ← r.getN 8
      pure ({ b3 with
        hue_vector_field0 := h0
        hue_vector_field1 := h1
        hue_vector_field2 := h2
        hue_vector_field3 := h3
        hue_vector_field4 := h4
        hue_vector_field5 := h5 }, r)
    else pure (b3, r)
  .ok (b4, r)

/-- `ExtMetadataBlockLevel8::validate` (level8.rs). -/
def validate (b : ExtMetadataBlockLevel8) : Except RpuError Unit :=
  if b.trim_slope ≤ MAX_12_BIT_VALUE ∧ b.trim_offset ≤ MAX_12_BIT_VALUE ∧
      b.trim_power ≤ MAX_12_BIT_VALUE ∧ b.trim_chroma_weight ≤ MAX_12_BIT_VALUE ∧
      b.trim_saturation_gain ≤ MAX_12_BIT_VALUE ∧ b.ms_weight ≤ MAX_12_BIT_VALUE ∧
      b.target_mid_contrast ≤ MAX_12_BIT_VALUE ∧ b.clip_trim ≤ MAX_12_BIT_VALUE
  then .ok () else .error .valueOutOfRange

/-- `ExtMetadataBlockLevel8::write` (level8.rs): validate, then emit the
field groups selected by the current byte size. -/
def write (b : ExtMetadataBlockLevel8) : Except RpuError Bits := do
  let () ← b.validate
  let length := b.bytes_size
  let out := bitsOfNat 8 b.target_display_index ++
    bitsOfNat 12 b.trim_slope ++ bitsOfNat 12 b.trim_offset ++
    bitsOfNat 12 b.trim_power ++ bitsOfNat 12 b.trim_chroma_weight ++
    bitsOfNat 12 b.trim_saturation_gain ++ bitsOfNat 12 b.ms_weight
  let out := if length > 10 then out ++ bitsOfNat 12 b.target_mid_contrast else out
  let out := if length > 12 then out ++ bitsOfNat 12 b.clip_trim else out
  let out := if length > 13 then out ++
    bitsOfNat 8 b.saturation_vector_field0 ++ bitsOfNat 8 b.saturation_vector_field1 ++
    bitsOfNat 8 b.saturation_vector_field2 ++ bitsOfNat 8 b.saturation_vector_field3 ++
    bitsOfNat 8 b.saturation_vector_field4 ++ bitsOfNat 8 b.saturation_vector_field5
    else out
  let out := if length > 19 then out ++
    bitsOfNat 8 b.hue_vector_field0 ++ bitsOfNat 8 b.hue_vector_field1 ++
    bitsOfNat 8 b.hue_vector_field2 ++ bitsOfNat 8 b.hue_vector_field3 ++
    bitsOfNat 8 b.hue_vector_field4 ++ bitsOfNat 8 b.hue_vector_field5
    else out
  .ok out

end ExtMetadataBlockLevel8

/-- `ExtMetadataBlockLevel9` (level9.rs): source color primaries with eight
optional custom primary coordinates. -/
structure ExtMetadataBlockLevel9 where
  source_primary_index : Nat
  source_primary_red_x : Option Nat
  source_primary_red_y : Option Nat
  source_primary_green_x : Option Nat
  source_primary_green_y : Option Nat
  source_primary_blue_x : Option Nat
  source_primary_blue_y : Option Nat
  source_primary_white_x : Option Nat
  source_primary_white_y : Option Nat
  deriving DecidableEq, Repr

/-- `Default for ExtMetadataBlockLevel9` (level9.rs). -/
def ExtMetadataBlockLevel9.default : ExtMetadataBlockLevel9 :=
  { source_primary_index := 0
    source_primary_red_x := none
    source_primary_red_y := none
    source_primary_green_x := none
    source_primary_green_y := none
    source_primary_blue_x := none
    source_primary_blue_y := none
    source_primary_white_x := none
    source_primary_white_y := none }

namespace ExtMetadataBlockLevel9

/-- `required_bits` (level9.rs): 136, minus 128 when any primary is absent. -/
def required_bits (b : ExtMetadataBlockLevel9) : Nat :=
  if b.source_primary_red_x.isNone ∨ b.source_primary_red_y.isNone ∨
      b.source_primary_green_x.isNone ∨ b.source_primary_green_y.isNone ∨
      b.source_primary_blue_x.isNone ∨ b.source_primary_blue_y.isNone ∨
      b.source_primary_white_x.isNone ∨ b.source_primary_white_y.isNone
  then 136 - 128 else 136

/-- `bytes_size` (level9.rs). -/
def bytes_size (b : ExtMetadataBlockLevel9) : Nat :=
  match b.required_bits with
  | 136 => 17
  | _ => 1

def bits_size (b : ExtMetadataBlockLevel9) : Nat := b.bytes_size * 8

def possible_bytes_size : List Nat := [1, 17]

def possible_required_bits : List Nat := [8, 136]

def possible_bits_size : List Nat := [8, 136]

/-- `ExtMetadataBlockLevel9::parse` (level9.rs). -/
def parse (ext_block_length : Nat) (r : BitReader) :
    Except RpuError (ExtMetadataBlockLevel9 × BitReader) := do
  let (idx, r) ← r.getN 8
  let b0 : ExtMetadataBlockLevel9 :=
    { ExtMetadataBlockLevel9.default with source_primary_index := idx }
  if ext_block_length > 1 then do
    let (rx, r) ← r.getN 16
    let (ry, r) ← r.getN 16
    let (gx, r) ← r.getN 16
    let (gy, r) ← r.getN 16
    let (bx, r) ← r.getN 16
    let (by_, r) ← r.getN 16
    let (wx, r) ← r.getN 16
    let (wy, r) ← r.getN 16
    .ok ({ b0 with
      source_primary_red_x := some rx
      source_primary_red_y := some ry
      source_primary_green_x := some gx
      source_primary_green_y := some gy
      source_primary_blue_x := some bx
      source_primary_blue_y := some by_
      source_primary_white_x := some wx
      source_primary_white_y := some wy }, r)
  else
    .ok (b0, r)

/-- Emit the 16-bit field for an optional primary; `unwrap` on `None`
is the panic modelled as `noneUnwrap`. -/
def unwrap16 (o : Option Nat) : Except RpuError Bits :=
  match o with
  | some v => .ok (bitsOfNat 16 v)
  | none => .error .noneUnwrap

/-- `ExtMetadataBlockLevel9::write` (level9.rs): no validation; the eight
primaries are unwrapped whenever the current byte size exceeds 1. -/
def write (b : ExtMetadataBlockLevel9) : Except RpuError Bits := do
  let out := bitsOfNat 8 b.source_primary_index
  if b.bytes_size > 1 then do
    let rx ← unwrap16 b.source_primary_red_x
    let ry ← unwrap16 b.source_primary_red_y
    let gx ← unwrap16 b.source_primary_green_x
    let gy ← unwrap16 b.source_primary_green_y
    let bx ← unwrap16 b.source_primary_blue_x
    let by_ ← unwrap16 b.source_primary_blue_y
    let wx ← unwrap16 b.source_primary_white_x
    let wy ← unwrap16 b.source_primary_white_y
    .ok (out ++ rx ++ ry ++ gx ++ gy ++ bx ++ by_ ++ wx ++ wy)
  else
    .ok out

end ExtMetadataBlockLevel9

/-- `ExtMetadataBlockLevel10` (level10.rs): custom target display
information with eight optional custom primary coordinates. -/
structure ExtMetadataBlockLevel10 where
  target_display_index : Nat
  target_max_pq : Nat
  target_min_pq : Nat
  target_primary_index : Nat
  target_primary_red_x : Option Nat
  target_primary_red_y : Option Nat
  target_primary_green_x : Option Nat
  target_primary_green_y : Option Nat
  target_primary_blue_x : Option Nat
  target_primary_blue_y : Option Nat
  target_primary_white_x : Option Nat
  target_primary_white_y : Option Nat
  deriving DecidableEq, Repr

/-- `Default for ExtMetadataBlockLevel10` (level10.rs): note the default
`target_display_index` is 48. -/
def ExtMetadataBlockLevel10.default : ExtMetadataBlockLevel10 :=
  { target_display_index := 48
    target_max_pq := 3079
    target_min_pq := 0
    target_primary_index := 0
    target_primary_red_x := none
    target_primary_red_y := none
    target_primary_green_x := none
    target_primary_green_y := none
    target_primary_blue_x := none
    target_primary_blue_y := none
    target_primary_white_x := none
    target_primary_white_y := none }

namespace ExtMetadataBlockLevel10

/-- `required_bits` (level10.rs): 168, minus 128 when any primary is absent. -/
def required_bits (b : ExtMetadataBlockLevel10) : Nat :=
  if b.target_primary_red_x.isNone ∨ b.target_primary_red_y.isNone ∨
      b.target_primary_green_x.isNone ∨ b.target_primary_green_y.isNone ∨
      b.target_primary_blue_x.isNone ∨ b.target_primary_blue_y.isNone ∨
      b.target_primary_white_x.isNone ∨ b.target_primary_white_y.isNone
  then 168 - 128 else 168

/-- `bytes_size` (level10.rs). -/
def bytes_size (b : ExtMetadataBlockLevel10) : Nat :=
  match b.required_bits with
  | 168 => 21
  | _ => 5

def bits_size (b : ExtMetadataBlockLevel10) : Nat := b.bytes_size * 8

def possible_bytes_size : List Nat := [5, 21]

def possible_required_bits : List Nat := [40, 168]

def possible_bits_size : List Nat := [40, 168]

/-- `ExtMetadataBlockLevel10::parse` (level10.rs). -/
def parse (ext_block_length : Nat) (r : BitReader) :
    Except RpuError (ExtMetadataBlockLevel10 × BitReader) := do
  let (tdi, r) ← r.getN 8
  let (maxpq, r) ← r.getN 12
  let (minpq, r) ← r.getN 12
  let (tpi, r) ← r.getN 8
  let b0 : ExtMetadataBlockLevel10 :=
    { ExtMetadataBlockLevel10.default with
      target_display_index := tdi
      target_max_pq := maxpq
      target_min_pq := minpq
      target_primary_index := tpi }
  if ext_block_length > 5 then do
    let (rx, r) ← r.getN 16
    let (ry, r) ← r.getN 16
    let (gx, r) ← r.getN 16
    let (gy, r) ← r.getN 16
    let (bx, r) ← r.getN 16
    let (by_, r) ← r.getN 16
    let (wx, r) ← r.getN 16
    let (wy, r) ← r.getN 16
    .ok ({ b0 with
      target_primary_red_x := some rx
      target_primary_red_y := some ry
      target_primary_green_x := some gx
      target_primary_green_y := some gy
      target_primary_blue_x := some bx
      target_primary_blue_y := some by_
      target_primary_white_x := some wx
      target_primary_white_y := some wy }, r)
  else
    .ok (b0, r)

/-- `ExtMetadataBlockLevel10::validate` (level10.rs): the target display
index must not be one of the preset IDs, and both PQ bounds must not exceed
`MAX_PQ_LUMINANCE`.  The three `ensure!` checks run in this order. -/
def validate (b : ExtMetadataBlockLevel10) : Except RpuError Unit :=
  if b.target_display_index ∈ PRESET_TARGET_DISPLAYS then
    .error .valueOutOfRange
  else if ¬ b.target_max_pq ≤ MAX_PQ_LUMINANCE then .error .valueOutOfRange
  else if ¬ b.target_min_pq ≤ MAX_PQ_LUMINANCE then .error .valueOutOfRange
  else .ok ()

/-- `ExtMetadataBlockLevel10::write` (level10.rs): validate, then emit the
fixed fields and, when the byte size exceeds 5, the eight unwrapped custom
primaries. -/
def write (b : ExtMetadataBlockLevel10) : Except RpuError Bits := do
  let () ← b.validate
  let out := bitsOfNat 8 b.target_display_index ++ bitsOfNat 12 b.target_max_pq ++
    bitsOfNat 12 b.target_min_pq ++ bitsOfNat 8 b.target_primary_index
  if b.bytes_size > 5 then do
    let rx ← ExtMetadataBlockLevel9.unwrap16 b.target_primary_red_x
    let ry ← ExtMetadataBlockLevel9.unwrap16 b.target_primary_red_y
    let gx ← ExtMetadataBlockLevel9.unwrap16 b.target_primary_green_x
    let gy ← ExtMetadataBlockLevel9.unwrap16 b.target_primary_green_y
    let bx ← ExtMetadataBlockLevel9.unwrap16 b.target_primary_blue_x
    let by_ ← ExtMetadataBlockLevel9.unwrap16 b.target_primary_blue_y
    let wx ← ExtMetadataBlockLevel9.unwrap16 b.target_primary_white_x
    let wy ← ExtMetadataBlockLevel9.unwrap16 b.target_primary_white_y
    .ok (out ++ rx ++ ry ++ gx ++ gy ++ bx ++ by_ ++ wx ++ wy)
  else
    .ok out

end ExtMetadataBlockLevel10

/-! ## Fixed-length block levels, modelled from the spec

The source files `level1.rs` … `level6.rs`, `level11.rs`, `level254.rs` and
`reserved.rs` are not part of the provided sources; the structures below are
modelled from the spec: the field lists and bit widths of section 3.1, the
codec contract of section 4.2.2 (parse reads each field with its width, write
mirrors, write validates first), and the byte sizes given by the
`possible_bytes_size` formula of the present `blocks/mod.rs`
(`(bits + bits % 8) >> 3`).  Where the spec's summary table disagrees with
its own field lists (L2 84 vs 85 bits, L3 15 vs 36, L4 20 vs 24, L254 32 vs
16), the field lists are followed, since a block must be able to hold its
fields. -/

/-- Modelled from the spec: `ExtMetadataBlockLevel1` — per-shot luminance
statistics, three 12-bit PQ codewords (36 bits, 5 bytes). -/
structure ExtMetadataBlockLevel1 where
  min_pq : Nat
  max_pq : Nat
  avg_pq : Nat
  deriving DecidableEq, Repr

namespace ExtMetadataBlockLevel1

def required_bits : Nat := 36

def bytes_size : Nat := 5

def parse (r : BitReader) : Except RpuError (ExtMetadataBlockLevel1 × BitReader) := do
  let (minv, r) ← r.getN 12
  let (maxv, r) ← r.getN 12
  let (avgv, r) ← r.getN 12
  .ok ({ min_pq := minv, max_pq := maxv, avg_pq := avgv }, r)

def write (b : ExtMetadataBlockLevel1) : Except RpuError Bits :=
  .ok (bitsOfNat 12 b.min_pq ++ bitsOfNat 12 b.max_pq ++ bitsOfNat 12 b.avg_pq)

end ExtMetadataBlockLevel1

/-- Modelled from the spec: `ExtMetadataBlockLevel2` — trim pass per target
display: `target_max_pq` and five trims (12 bits each) plus the 13-bit
`ms_weight` (85 bits, 11 bytes); the 12-bit fields are validated `≤ 4095`
on write (spec section 4.2.2). -/
structure ExtMetadataBlockLevel2 where
  target_max_pq : Nat
  trim_slope : Nat
  trim_offset : Nat
  trim_power : Nat
  trim_chroma_weight : Nat
  trim_saturation_gain : Nat
  ms_weight : Nat
  deriving DecidableEq, Repr

namespace ExtMetadataBlockLevel2

def required_bits : Nat := 85

def bytes_size : Nat := 11

def parse (r : BitReader) : Except RpuError (ExtMetadataBlockLevel2 × BitReader) := do
  let (tmp, r) ← r.getN 12
  let (slope, r) ← r.getN 12
  let (off, r) ← r.getN 12
  let (power, r) ← r.getN 12
  let (chroma, r) ← r.getN 12
  let (satgain, r) ← r.getN 12
  let (msw, r) ← r.getN 13
  .ok ({ target_max_pq := tmp, trim_slope := slope, trim_offset := off,
         trim_power := power, trim_chroma_weight := chroma,
         trim_saturation_gain := satgain, ms_weight := msw }, r)

def validate (b : ExtMetadataBlockLevel2) : Except RpuError Unit :=
  if b.target_max_pq ≤ MAX_12_BIT_VALUE ∧ b.trim_slope ≤ MAX_12_BIT_VALUE ∧
      b.trim_offset ≤ MAX_12_BIT_VALUE ∧ b.trim_power ≤ MAX_12_BIT_VALUE ∧
      b.trim_chroma_weight ≤ MAX_12_BIT_VALUE ∧
      b.trim_saturation_gain ≤ MAX_12_BIT_VALUE
  then .ok () else .error .valueOutOfRange

def write (b : ExtMetadataBlockLevel2) : Except RpuError Bits := do
  let () ← b.validate
  .ok (bitsOfNat 12 b.target_max_pq ++ bitsOfNat 12 b.trim_slope ++
    bitsOfNat 12 b.trim_offset ++ bitsOfNat 12 b.trim_power ++
    bitsOfNat 12 b.trim_chroma_weight ++ bitsOfNat 12 b.trim_saturation_gain ++
    bitsOfNat 13 b.ms_weight)

end ExtMetadataBlockLevel2

/-- Modelled from the spec: `ExtMetadataBlockLevel3` — L1 PQ offsets, three
12-bit fields (36 bits, 5 bytes per the byte-size formula; the summary
table's `{2}/{15}` cannot hold the three listed 12-bit fields). -/
structure ExtMetadataBlockLevel3 where
  min_pq_offset : Nat
  max_pq_offset : Nat
  avg_pq_offset : Nat
  deriving DecidableEq, Repr

namespace ExtMetadataBlockLevel3

def required_bits : Nat := 36

def bytes_size : Nat := 5

def parse (r : BitReader) : Except RpuError (ExtMetadataBlockLevel3 × BitReader) := do
  let (minv, r) ← r.getN 12
  let (maxv, r) ← r.getN 12
  let (avgv, r) ← r.getN 12
  .ok ({ min_pq_offset := minv, max_pq_offset := maxv, avg_pq_offset := avgv }, r)

def write (b : ExtMetadataBlockLevel3) : Except RpuError Bits :=
  .ok (bitsOfNat 12 b.min_pq_offset ++ bitsOfNat 12 b.max_pq_offset ++
    bitsOfNat 12 b.avg_pq_offset)

end ExtMetadataBlockLevel3

/-- Modelled from the spec: `ExtMetadataBlockLevel4` — anchor PQ/power, two
12-bit fields (24 bits, 3 bytes). -/
structure ExtMetadataBlockLevel4 where
  anchor_pq : Nat
  anchor_power : Nat
  deriving DecidableEq, Repr

namespace ExtMetadataBlockLevel4

def required_bits : Nat := 24

def bytes_size : Nat := 3

def parse (r : BitReader) : Except RpuError (ExtMetadataBlockLevel4 × BitReader) := do
  let (pq, r) ← r.getN 12
  let (power, r) ← r.getN 12
  .ok ({ anchor_pq := pq, anchor_power := power }, r)

def write (b : ExtMetadataBlockLevel4) : Except RpuError Bits :=
  .ok (bitsOfNat 12 b.anchor_pq ++ bitsOfNat 12 b.anchor_power)

end ExtMetadataBlockLevel4

/-- Modelled from the spec: `ExtMetadataBlockLevel5` — active area offsets,
four 13-bit fields (52 bits, 7 bytes). -/
structure ExtMetadataBlockLevel5 where
  active_area_left_offset : Nat
  active_area_right_offset : Nat
  active_area_top_offset : Nat
  active_area_bottom_offset : Nat
  deriving DecidableEq, Repr

/-- Default L5 block: zero offsets. -/
def ExtMetadataBlockLevel5.default : ExtMetadataBlockLevel5 :=
  { active_area_left_offset := 0
    active_area_right_offset := 0
    active_area_top_offset := 0
    active_area_bottom_offset := 0 }

namespace ExtMetadataBlockLevel5

def required_bits : Nat := 52

def bytes_size : Nat := 7

def parse (r : BitReader) : Except RpuError (ExtMetadataBlockLevel5 × BitReader) := do
  let (l, r) ← r.getN 13
  let (rt, r) ← r.getN 13
  let (t, r) ← r.getN 13
  let (bt, r) ← r.getN 13
  .ok ({ active_area_left_offset := l, active_area_right_offset := rt,
         active_area_top_offset := t, active_area_bottom_offset := bt }, r)

def write (b : ExtMetadataBlockLevel5) : Except RpuError Bits :=
  .ok (bitsOfNat 13 b.active_area_left_offset ++
    bitsOfNat 13 b.active_area_right_offset ++
    bitsOfNat 13 b.active_area_top_offset ++
    bitsOfNat 13 b.active_area_bottom_offset)

end ExtMetadataBlockLevel5

/-- Modelled from the spec: `ExtMetadataBlockLevel6` — ST.2086 mastering
luminances, four 16-bit fields (64 bits, 8 bytes); the two display mastering
luminances are validated against `MAX_PQ_LUMINANCE` on write
(spec section 4.2.2). -/
structure ExtMetadataBlockLevel6 where
  max_display_mastering_luminance : Nat
  min_display_mastering_luminance : Nat
  max_content_light_level : Nat
  max_frame_average_light_level : Nat
  deriving DecidableEq, Repr

namespace ExtMetadataBlockLevel6

def required_bits : Nat := 64

def bytes_size : Nat := 8

def parse (r : BitReader) : Except RpuError (ExtMetadataBlockLevel6 × BitReader) := do
  let (maxl, r) ← r.getN 16
  let (minl, r) ← r.getN 16
  let (cll, r) ← r.getN 16
  let (fall, r) ← r.getN 16
  .ok ({ max_display_mastering_luminance := maxl,
         min_display_mastering_luminance := minl,
         max_content_light_level := cll,
         max_frame_average_light_level := fall }, r)

def validate (b : ExtMetadataBlockLevel6) : Except RpuError Unit :=
  if b.max_display_mastering_luminance ≤ MAX_PQ_LUMINANCE ∧
      b.min_display_mastering_luminance ≤ MAX_PQ_LUMINANCE
  then .ok () else .error .valueOutOfRange

def write (b : ExtMetadataBlockLevel6) : Except RpuError Bits := do
  let () ← b.validate
  .ok (bitsOfNat 16 b.max_display_mastering_luminance ++
    bitsOfNat 16 b.min_display_mastering_luminance ++
    bitsOfNat 16 b.max_content_light_level ++
    bitsOfNat 16 b.max_frame_average_light_level)

end ExtMetadataBlockLevel6

/-- Modelled from the spec: `ExtMetadataBlockLevel11` — content type
metadata (32 bits, 4 bytes): content_type and whitepoint bytes, the
reference-mode flag and six 2-bit settings, and 3 reserved bits carried
through verbatim. -/
structure ExtMetadataBlockLevel11 where
  content_type : Nat
  whitepoint : Nat
  reference_mode_flag : Bool
  sharpness : Nat
  noise_reduction : Nat
  mpeg_noise_reduction : Nat
  frame_rate_conversion : Nat
  brightness : Nat
  color : Nat
  reserved : Nat
  deriving DecidableEq, Repr

namespace ExtMetadataBlockLevel11

def required_bits : Nat := 32

def bytes_size : Nat := 4

def parse (r : BitReader) : Except RpuError (ExtMetadataBlockLevel11 × BitReader) := do
  let (ct, r) ← r.getN 8
  let (wp, r) ← r.getN 8
  let (rm, r) ← r.get
  let (sh, r) ← r.getN 2
  let (nr, r) ← r.getN 2
  let (mnr, r) ← r.getN 2
  let (frc, r) ← r.getN 2
  let (br, r) ← r.getN 2
  let (co, r) ← r.getN 2
  let (rsv, r) ← r.getN 3
  .ok ({ content_type := ct, whitepoint := wp, reference_mode_flag := rm,
         sharpness := sh, noise_reduction := nr, mpeg_noise_reduction := mnr,
         frame_rate_conversion := frc, brightness := br, color := co,
         reserved := rsv }, r)

def write (b : ExtMetadataBlockLevel11) : Except RpuError Bits :=
  .ok (bitsOfNat 8 b.content_type ++ bitsOfNat 8 b.whitepoint ++
    [b.reference_mode_flag] ++ bitsOfNat 2 b.sharpness ++
    bitsOfNat 2 b.noise_reduction ++ bitsOfNat 2 b.mpeg_noise_reduction ++
    bitsOfNat 2 b.frame_rate_conversion ++ bitsOfNat 2 b.brightness ++
    bitsOfNat 2 b.color ++ bitsOfNat 3 b.reserved)

end ExtMetadataBlockLevel11

/-- Modelled from the spec: `ExtMetadataBlockLevel254` — CM version marker,
`dm_mode` and `dm_version_index` bytes (16 bits, 2 bytes; the summary
table's `{5}/{32}` cannot hold the two listed byte fields). -/
structure ExtMetadataBlockLevel254 where
  dm_mode : Nat
  dm_version_index : Nat
  deriving DecidableEq, Repr

namespace ExtMetadataBlockLevel254

def required_bits : Nat := 16

def bytes_size : Nat := 2

def parse (r : BitReader) : Except RpuError (ExtMetadataBlockLevel254 × BitReader) := do
  let (mode, r) ← r.getN 8
  let (idx, r) ← r.getN 8
  .ok ({ dm_mode := mode, dm_version_index := idx }, r)

def write (b : ExtMetadataBlockLevel254) : Except RpuError Bits :=
  .ok (bitsOfNat 8 b.dm_mode ++ bitsOfNat 8 b.dm_version_index)

end ExtMetadataBlockLevel254

/-- Modelled from the spec: `ReservedExtMetadataBlock` (section 4.2.3) —
an unknown level code together with the raw bits of the declared length,
emitted unchanged on write. -/
structure ReservedExtMetadataBlock where
  level : Nat
  data : Bits
  deriving DecidableEq, Repr

namespace ReservedExtMetadataBlock

def required_bits (b : ReservedExtMetadataBlock) : Nat := b.data.length

def bytes_size (b : ReservedExtMetadataBlock) : Nat := b.data.length / 8

def parse (ext_block_length lvl : Nat) (r : BitReader) :
    Except RpuError (ReservedExtMetadataBlock × BitReader) := do
  let (raw, r) ← r.getBits (8 * ext_block_length)
  .ok ({ level := lvl, data := raw }, r)

def write (b : ReservedExtMetadataBlock) : Except RpuError Bits := .ok b.data

end ReservedExtMetadataBlock

/-- `ExtMetadataBlock` (blocks/mod.rs): the closed sum of all block levels
plus the reserved fallback. -/
inductive ExtMetadataBlock where
  | Level1 (b : ExtMetadataBlockLevel1)
  | Level2 (b : ExtMetadataBlockLevel2)
  | Level3 (b : ExtMetadataBlockLevel3)
  | Level4 (b : ExtMetadataBlockLevel4)
  | Level5 (b : ExtMetadataBlockLevel5)
  | Level6 (b : ExtMetadataBlockLevel6)
  | Level8 (b : ExtMetadataBlockLevel8)
  | Level9 (b : ExtMetadataBlockLevel9)
  | Level10 (b : ExtMetadataBlockLevel10)
  | Level11 (b : ExtMetadataBlockLevel11)
  | Level254 (b : ExtMetadataBlockLevel254)
  | Reserved (b : ReservedExtMetadataBlock)
  deriving DecidableEq, Repr

namespace ExtMetadataBlock

/-- `ExtMetadataBlock::level` (blocks/mod.rs dispatch; level numbers per
codec). -/
def level : ExtMetadataBlock → Nat
  | .Level1 _ => 1
  | .Level2 _ => 2
  | .Level3 _ => 3
  | .Level4 _ => 4
  | .Level5 _ => 5
  | .Level6 _ => 6
  | .Level8 _ => 8
  | .Level9 _ => 9
  | .Level10 _ => 10
  | .Level11 _ => 11
  | .Level254 _ => 254
  | .Reserved b => b.level

/-- `ExtMetadataBlock::length_bytes` (blocks/mod.rs). -/
def length_bytes : ExtMetadataBlock → Nat
  | .Level1 _ => ExtMetadataBlockLevel1.bytes_size
  | .Level2 _ => ExtMetadataBlockLevel2.bytes_size
  | .Level3 _ => ExtMetadataBlockLevel3.bytes_size
  | .Level4 _ => ExtMetadataBlockLevel4.bytes_size
  | .Level5 _ => ExtMetadataBlockLevel5.bytes_size
  | .Level6 _ => ExtMetadataBlockLevel6.bytes_size
  | .Level8 b => b.bytes_size
  | .Level9 b => b.bytes_size
  | .Level10 b => b.bytes_size
  | .Level11 _ => ExtMetadataBlockLevel11.bytes_size
  | .Level254 _ => ExtMetadataBlockLevel254.bytes_size
  | .Reserved b => b.bytes_size

/-- `ExtMetadataBlock::length_bits` (blocks/mod.rs): `bytes_size * 8`. -/
def length_bits (b : ExtMetadataBlock) : Nat := b.length_bytes * 8

/-- `ExtMetadataBlock::required_bits` (blocks/mod.rs). -/
def required_bits : ExtMetadataBlock → Nat
  | .Level1 _ => ExtMetadataBlockLevel1.required_bits
  | .Level2 _ => ExtMetadataBlockLevel2.required_bits
  | .Level3 _ => ExtMetadataBlockLevel3.required_bits
  | .Level4 _ => ExtMetadataBlockLevel4.required_bits
  | .Level5 _ => ExtMetadataBlockLevel5.required_bits
  | .Level6 _ => ExtMetadataBlockLevel6.required_bits
  | .Level8 b => b.required_bits
  | .Level9 b => b.required_bits
  | .Level10 b => b.required_bits
  | .Level11 _ => ExtMetadataBlockLevel11.required_bits
  | .Level254 _ => ExtMetadataBlockLevel254.required_bits
  | .Reserved b => b.required_bits

/-- `ExtMetadataBlock::possible_length_bytes` (blocks/mod.rs); fixed-length
levels expose their single legal size. -/
def possible_length_bytes : ExtMetadataBlock → List Nat
  | .Level1 _ => [ExtMetadataBlockLevel1.bytes_size]
  | .Level2 _ => [ExtMetadataBlockLevel2.bytes_size]
  | .Level3 _ => [ExtMetadataBlockLevel3.bytes_size]
  | .Level4 _ => [ExtMetadataBlockLevel4.bytes_size]
  | .Level5 _ => [ExtMetadataBlockLevel5.bytes_size]
  | .Level6 _ => [ExtMetadataBlockLevel6.bytes_size]
  | .Level8 _ => ExtMetadataBlockLevel8.possible_bytes_size
  | .Level9 _ => ExtMetadataBlockLevel9.possible_bytes_size
  | .Level10 _ => ExtMetadataBlockLevel10.possible_bytes_size
  | .Level11 _ => [ExtMetadataBlockLevel11.bytes_size]
  | .Level254 _ => [ExtMetadataBlockLevel254.bytes_size]
  | .Reserved b => [b.bytes_size]

/-- `ExtMetadataBlock::possible_length_bits` (blocks/mod.rs). -/
def possible_length_bits : ExtMetadataBlock → List Nat
  | .Level1 _ => [ExtMetadataBlockLevel1.bytes_size * 8]
  | .Level2 _ => [ExtMetadataBlockLevel2.bytes_size * 8]
  | .Level3 _ => [ExtMetadataBlockLevel3.bytes_size * 8]
  | .Level4 _ => [ExtMetadataBlockLevel4.bytes_size * 8]
  | .Level5 _ => [ExtMetadataBlockLevel5.bytes_size * 8]
  | .Level6 _ => [ExtMetadataBlockLevel6.bytes_size * 8]
  | .Level8 _ => ExtMetadataBlockLevel8.possible_bits_size
  | .Level9 _ => ExtMetadataBlockLevel9.possible_bits_size
  | .Level10 _ => ExtMetadataBlockLevel10.possible_bits_size
  | .Level11 _ => [ExtMetadataBlockLevel11.bytes_size * 8]
  | .Level254 _ => [ExtMetadataBlockLevel254.bytes_size * 8]
  | .Reserved b => [b.bytes_size * 8]

/-- `ExtMetadataBlock::possible_required_bits` (blocks/mod.rs). -/
def possible_required_bits : ExtMetadataBlock → List Nat
  | .Level1 _ => [ExtMetadataBlockLevel1.required_bits]
  | .Level2 _ => [ExtMetadataBlockLevel2.required_bits]
  | .Level3 _ => [ExtMetadataBlockLevel3.required_bits]
  | .Level4 _ => [ExtMetadataBlockLevel4.required_bits]
  | .Level5 _ => [ExtMetadataBlockLevel5.required_bits]
  | .Level6 _ => [ExtMetadataBlockLevel6.required_bits]
  | .Level8 _ => ExtMetadataBlockLevel8.possible_required_bits
  | .Level9 _ => ExtMetadataBlockLevel9.possible_required_bits
  | .Level10 _ => ExtMetadataBlockLevel10.possible_required_bits
  | .Level11 _ => [ExtMetadataBlockLevel11.required_bits]
  | .Level254 _ => [ExtMetadataBlockLevel254.required_bits]
  | .Reserved b => [b.required_bits]

/-- `ExtMetadataBlock::sort_key` (blocks/mod.rs): `(level, 0)` by default;
only L8 overrides the sub-key with its `target_display_index` in this fork. -/
def sort_key : ExtMetadataBlock → Nat × Nat
  | .Level8 b => b.sort_key
  | b => (b.level, 0)

/-- `ExtMetadataBlock::write` (blocks/mod.rs dispatch). -/
def write : ExtMetadataBlock → Except RpuError Bits
  | .Level1 b => b.write
  | .Level2 b => b.write
  | .Level3 b => b.write
  | .Level4 b => b.write
  | .Level5 b => b.write
  | .Level6 b => b.write
  | .Level8 b => b.write
  | .Level9 b => b.write
  | .Level10 b => b.write
  | .Level11 b => b.write
  | .Level254 b => b.write
  | .Reserved b => b.write

end ExtMetadataBlock

/-! ## Envelopes: CM v2.9 and CM v4.0

`mod.rs` under `rpu/extension_metadata` provides the generic trait
(`WithExtMetadataBlocks`) and `DmData::parse` / `write`.  The per-version
files `cmv29.rs` / `cmv40.rs` are not part of the provided sources; the
allowed/variable level lists and the per-version `parse_block` dispatch
below are modelled from the spec (sections 3.2, 4.3.1): select a codec by
(level, version), unknown level codes fall back to the reserved block
(section 4.2.3), and `validate_and_read_remaining` — which is present in
`blocks/mod.rs` and translated faithfully — then rejects illegal lengths,
disallowed levels and non-zero trailing padding. -/

/-- Modelled from the spec: `CmV29DmData::ALLOWED_BLOCK_LEVELS`. -/
def V29_ALLOWED_BLOCK_LEVELS : List Nat := [1, 2, 3, 4, 5, 6]

/-- Modelled from the spec: `CmV29DmData::VARIABLE_LENGTH_BLOCK_LEVELS`. -/
def V29_VARIABLE_LENGTH_BLOCK_LEVELS : List Nat := []

/-- Modelled from the spec: `CmV40DmData::ALLOWED_BLOCK_LEVELS`. -/
def V40_ALLOWED_BLOCK_LEVELS : List Nat := [3, 8, 9, 10, 11, 254]

/-- Modelled from the spec: `CmV40DmData::VARIABLE_LENGTH_BLOCK_LEVELS`. -/
def V40_VARIABLE_LENGTH_BLOCK_LEVELS : List Nat := [8, 9, 10]

/-- Modelled from the spec: `CmV29DmData` — block count and ordered block
list. -/
structure CmV29DmData where
  num_ext_blocks : Nat
  ext_metadata_blocks : List ExtMetadataBlock
  deriving DecidableEq, Repr

/-- Modelled from the spec: `CmV40DmData` — block count and ordered block
list. -/
structure CmV40DmData where
  num_ext_blocks : Nat
  ext_metadata_blocks : List ExtMetadataBlock
  deriving DecidableEq, Repr

/-- `ExtMetadataBlock::validate_correct_dm_data` (blocks/mod.rs): the level
must be allowed for the envelope version. -/
def validateCorrectDmData (allowedLevels : List Nat) (b : ExtMetadataBlock) :
    Except RpuError Unit :=
  if allowedLevels.contains b.level then .ok () else .error .blockLevelNotAllowed

/-- `ExtMetadataBlock::validate_and_read_remaining` (blocks/mod.rs):
check the declared length against the legal set, check the level is allowed,
then read the `ext_dm_alignment_zero_bit` padding — whose count is taken
from the per-legal-length tables at the declared length for variable-length
levels, and from the current configuration otherwise. -/
def validateAndReadRemaining (variableLevels allowedLevels : List Nat)
    (b : ExtMetadataBlock) (expectedLength : Nat) (r : BitReader) :
    Except RpuError BitReader := do
  let lvl := b.level
  if ¬ (if variableLevels.contains lvl then
      b.possible_length_bytes.contains expectedLength
    else expectedLength = b.length_bytes) then
    .error .invalidBlockLength
  else do
    let () ← validateCorrectDmData allowedLevels b
    let extBlockUseBits :=
      if variableLevels.contains lvl then
        if b.possible_length_bytes.contains expectedLength then
          let index := b.possible_length_bytes.indexOf expectedLength
          b.possible_length_bits.getD index 0 - b.possible_required_bits.getD index 0
        else 0
      else b.length_bits - b.required_bits
    r.readZeros extBlockUseBits .extPaddingNonZero

/-- Modelled from the spec: the CM v2.9 codec selection of `parse_block`
(cmv29.rs) — levels 1–6 go to their codecs, anything else to the reserved
block. -/
def blockDispatchV29 (lvl len : Nat) (r : BitReader) :
    Except RpuError (ExtMetadataBlock × BitReader) :=
  match lvl with
  | 1 => do let (b, r) ← ExtMetadataBlockLevel1.parse r; .ok (.Level1 b, r)
  | 2 => do let (b, r) ← ExtMetadataBlockLevel2.parse r; .ok (.Level2 b, r)
  | 3 => do let (b, r) ← ExtMetadataBlockLevel3.parse r; .ok (.Level3 b, r)
  | 4 => do let (b, r) ← ExtMetadataBlockLevel4.parse r; .ok (.Level4 b, r)
  | 5 => do let (b, r) ← ExtMetadataBlockLevel5.parse r; .ok (.Level5 b, r)
  | 6 => do let (b, r) ← ExtMetadataBlockLevel6.parse r; .ok (.Level6 b, r)
  | _ => do let (b, r) ← ReservedExtMetadataBlock.parse len lvl r; .ok (.Reserved b, r)

/-- Modelled from the spec: the CM v4.0 codec selection of `parse_block`
(cmv40.rs) — levels 3, 8, 9, 10, 11, 254 go to their codecs, anything else
to the reserved block. -/
def blockDispatchV40 (lvl len : Nat) (r : BitReader) :
    Except RpuError (ExtMetadataBlock × BitReader) :=
  match lvl with
  | 3 => do let (b, r) ← ExtMetadataBlockLevel3.parse r; .ok (.Level3 b, r)
  | 8 => do let (b, r) ← ExtMetadataBlockLevel8.parse len r; .ok (.Level8 b, r)
  | 9 => do let (b, r) ← ExtMetadataBlockLevel9.parse len r; .ok (.Level9 b, r)
  | 10 => do let (b, r) ← ExtMetadataBlockLevel10.parse len r; .ok (.Level10 b, r)
  | 11 => do let (b, r) ← ExtMetadataBlockLevel11.parse r; .ok (.Level11 b, r)
  | 254 => do let (b, r) ← ExtMetadataBlockLevel254.parse r; .ok (.Level254 b, r)
  | _ => do let (b, r) ← ReservedExtMetadataBlock.parse len lvl r; .ok (.Reserved b, r)

/-- Modelled from the spec: `CmV29DmData::parse_block` — read the declared
length (`ue`) and level byte, run the codec, then validate and consume the
padding.  The declared length is returned alongside the block so that
properties about it can be stated; the envelope drops it. -/
def parseBlockV29 (r : BitReader) :
    Except RpuError ((Nat × ExtMetadataBlock) × BitReader) := do
  let (len, r) ← r.getUe
  let (lvl, r) ← r.getN 8
  let (block, r) ← blockDispatchV29 lvl len r
  let r ← validateAndReadRemaining V29_VARIABLE_LENGTH_BLOCK_LEVELS
    V29_ALLOWED_BLOCK_LEVELS block len r
  .ok ((len, block), r)

/-- Modelled from the spec: `CmV40DmData::parse_block`. -/
def parseBlockV40 (r : BitReader) :
    Except RpuError ((Nat × ExtMetadataBlock) × BitReader) := do
  let (len, r) ← r.getUe
  let (lvl, r) ← r.getN 8
  let (block, r) ← blockDispatchV40 lvl len r
  let r ← validateAndReadRemaining V40_VARIABLE_LENGTH_BLOCK_LEVELS
    V40_ALLOWED_BLOCK_LEVELS block len r
  .ok ((len, block), r)

/-- The `for _ in 0..num_ext_blocks` loop of `DmData::parse`
(extension_metadata/mod.rs), collecting the blocks in stream order. -/
def parseBlocks (parseBlock : BitReader →
      Except RpuError ((Nat × ExtMetadataBlock) × BitReader)) :
    Nat → BitReader → Except RpuError (List (Nat × ExtMetadataBlock) × BitReader)
  | 0, r => .ok ([], r)
  | n + 1, r => do
    let (p, r) ← parseBlock r
    let (ps, r) ← parseBlocks parseBlock n r
    .ok (p :: ps, r)

/-- `DmData::parse::<CmV29DmData>` (extension_metadata/mod.rs): read
`num_ext_blocks` (`ue`), consume `dm_alignment_zero_bit`s up to the next
byte boundary (each must be 0), then parse that many blocks. -/
def DmData.parseV29 (r : BitReader) : Except RpuError (CmV29DmData × BitReader) := do
  let (n, r) ← r.getUe
  let r ← r.readZeros (alignCount r.pos) .dmAlignmentNonZero
  let (ps, r) ← parseBlocks parseBlockV29 n r
  .ok ({ num_ext_blocks := n, ext_metadata_blocks := ps.map (·.2) }, r)

/-- `DmData::parse::<CmV40DmData>` (extension_metadata/mod.rs). -/
def DmData.parseV40 (r : BitReader) : Except RpuError (CmV40DmData × BitReader) := do
  let (n, r) ← r.getUe
  let r ← r.readZeros (alignCount r.pos) .dmAlignmentNonZero
  let (ps, r) ← parseBlocks parseBlockV40 n r
  .ok ({ num_ext_blocks := n, ext_metadata_blocks := ps.map (·.2) }, r)

/-- The per-block emission of `WithExtMetadataBlocks::write`
(extension_metadata/mod.rs loop body): `length_bytes` as `ue`, the level
byte, the block payload, then `length_bits - required_bits` zero
`ext_dm_alignment_zero_bit`s. -/
def writeBlockSegment (b : ExtMetadataBlock) : Except RpuError Bits := do
  let remaining_bits := b.length_bits - b.required_bits
  let payload ← b.write
  .ok (ueBits b.length_bytes ++ bitsOfNat 8 b.level ++ payload ++
    List.replicate remaining_bits false)

/-- The `for` loop of `WithExtMetadataBlocks::write` over the block list. -/
def writeSegments : List ExtMetadataBlock → Except RpuError Bits
  | [] => .ok []
  | b :: t => do
    let s ← writeBlockSegment b
    let rest ← writeSegments t
    .ok (s ++ rest)

/-- `WithExtMetadataBlocks::write` (extension_metadata/mod.rs), started at
absolute bit position `pos`: the stored `num_ext_blocks` as `ue`,
`dm_alignment_zero_bit` padding to the next byte boundary, then each block's
segment. -/
def WithExtMetadataBlocks.write (pos num : Nat)
    (blocks : List ExtMetadataBlock) : Except RpuError Bits := do
  let head := ueBits num
  let pad : Bits := List.replicate (alignCount (pos + head.length)) false
  let segs ← writeSegments blocks
  .ok (head ++ pad ++ segs)

/-- `DmData::write` for a CM v2.9 envelope. -/
def DmData.writeV29 (pos : Nat) (m : CmV29DmData) : Except RpuError Bits :=
  WithExtMetadataBlocks.write pos m.num_ext_blocks m.ext_metadata_blocks

/-- `DmData::write` for a CM v4.0 envelope. -/
def DmData.writeV40 (pos : Nat) (m : CmV40DmData) : Except RpuError Bits :=
  WithExtMetadataBlocks.write pos m.num_ext_blocks m.ext_metadata_blocks

/-! ## Block set operations (`WithExtMetadataBlocks`, extension_metadata/mod.rs)

The trait methods operate on the pair (stored count, block list).  Rust's
`sort_by_key` is a stable sort by `(level, target_display_index)`; any stable
sort by a total preorder computes the same list, so it is embedded as
insertion sort over the lexicographic key order. -/

/-- The sort-key order used by `sort_blocks`: lexicographic on
`(level, sub-key)` pairs. -/
def keyLe (a b : ExtMetadataBlock) : Prop :=
  a.sort_key.1 < b.sort_key.1 ∨
    (a.sort_key.1 = b.sort_key.1 ∧ a.sort_key.2 ≤ b.sort_key.2)

instance : DecidableRel keyLe := fun a b => by
  unfold keyLe; infer_instance

instance : IsTotal ExtMetadataBlock keyLe where
  total a b := by unfold keyLe; omega

instance : IsTrans ExtMetadataBlock keyLe where
  trans a b c hab hbc := by unfold keyLe at hab hbc ⊢; omega

/-- `WithExtMetadataBlocks::sort_blocks`: stable sort by `sort_key`. -/
def WithExtMetadataBlocks.sortBlocks (blocks : List ExtMetadataBlock) :
    List ExtMetadataBlock :=
  List.insertionSort keyLe blocks

/-- `WithExtMetadataBlocks::update_extension_block_info`: store the list
length as `num_ext_blocks`, then re-sort. -/
def WithExtMetadataBlocks.updateExtensionBlockInfo
    (env : Nat × List ExtMetadataBlock) : Nat × List ExtMetadataBlock :=
  (env.2.length, WithExtMetadataBlocks.sortBlocks env.2)

/-- `WithExtMetadataBlocks::add_block`: reject levels not allowed for the
version, otherwise push and update (no deduplication). -/
def WithExtMetadataBlocks.addBlock (allowedLevels : List Nat)
    (meta : ExtMetadataBlock) (env : Nat × List ExtMetadataBlock) :
    Except RpuError (Nat × List ExtMetadataBlock) :=
  if allowedLevels.contains meta.level then
    .ok (WithExtMetadataBlocks.updateExtensionBlockInfo (env.1, env.2 ++ [meta]))
  else .error .blockLevelNotAllowed

/-- `WithExtMetadataBlocks::remove_level`: retain the other levels and
update. -/
def WithExtMetadataBlocks.removeLevel (lvl : Nat)
    (env : Nat × List ExtMetadataBlock) : Nat × List ExtMetadataBlock :=
  WithExtMetadataBlocks.updateExtensionBlockInfo
    (env.1, env.2.filter (fun b => b.level ≠ lvl))

/-! ## ST.2094-10 payload bridge (st2094_10/itu_t35/dm_data.rs) -/

/-- `ST2094_10DmData` (dm_data.rs). -/
structure ST2094_10DmData where
  app_identifier : Nat
  app_version : Nat
  metadata_refresh_flag : Bool
  dm_data : Option CmV29DmData
  deriving DecidableEq, Repr

/-- The `UserDataTypeStruct` variant produced by `ST2094_10DmData::parse`
(the enum itself lives outside the provided sources; only the `DMData`
variant is needed). -/
inductive UserDataTypeStruct where
  | DMData (d : ST2094_10DmData)
  deriving DecidableEq, Repr

/-- `ST2094_10DmData::parse` (dm_data.rs): `app_identifier` (`ue`),
`app_version` (`ue`), `metadata_refresh_flag` (one bit); the CM v2.9
envelope follows exactly when the flag is set, and its errors propagate
unchanged (`?`). -/
def ST2094_10DmData.parse (r : BitReader) :
    Except RpuError (UserDataTypeStruct × BitReader) := do
  let (aid, r) ← r.getUe
  let (aver, r) ← r.getUe
  let (flag, r) ← r.get
  if flag then do
    let (dm, r) ← DmData.parseV29 r
    .ok (.DMData { app_identifier := aid, app_version := aver,
                   metadata_refresh_flag := flag, dm_data := some dm }, r)
  else
    .ok (.DMData { app_identifier := aid, app_version := aver,
                   metadata_refresh_flag := flag, dm_data := none }, r)

/-! ## L5 aspect derivation (xml/parser.rs, `calculate_level5_metadata`)

The source computes in `f32`.  The embedding replays the same operations
over exact rationals: each `f32` operation is replaced by the exact one,
`f32::EPSILON` is `2^-23` exactly, `round` (half away from zero — equal to
`Mathlib`'s half-up `round` for the non-negative values arising here),
`trunc` is truncation toward zero, and `as u16` is the saturating cast. -/

/-- Truncation toward zero of a rational, as `f32::trunc`. -/
def ratTrunc (q : ℚ) : ℤ := q.num.tdiv q.den

/-- The saturating `as u16` cast of an (integer-valued) float. -/
def rustAsU16 (q : ℚ) : Nat := (min (max (ratTrunc q) 0) 65535).toNat

/-- `f32::EPSILON` = 2⁻²³. -/
def F32_EPSILON : ℚ := 1 / 2 ^ 23

/-- `CmXmlParser::calculate_level5_metadata` (xml/parser.rs): missing canvas
dimensions fail; equal aspect ratios give zero offsets; a wider image is
letterboxed (top/bottom offsets), a narrower one pillarboxed (left/right). -/
def CmXmlParser.calculate_level5_metadata
    (canvas_width canvas_height : Option Nat) (canvas_ar image_ar : ℚ) :
    Except RpuError ExtMetadataBlockLevel5 :=
  match canvas_width, canvas_height with
  | none, _ => .error .missingCanvasDimensions
  | some _, none => .error .missingCanvasDimensions
  | some cwN, some chN =>
    let cw : ℚ := cwN
    let ch : ℚ := chN
    if |canvas_ar - image_ar| < F32_EPSILON then
      .ok ExtMetadataBlockLevel5.default
    else if image_ar > canvas_ar then
      let image_h : ℚ := round (ch * (canvas_ar / image_ar))
      let diff : ℚ := ch - image_h
      let offset_top : ℚ := ratTrunc (diff / 2)
      let offset_bottom : ℚ := diff - offset_top
      .ok { ExtMetadataBlockLevel5.default with
            active_area_top_offset := rustAsU16 offset_top
            active_area_bottom_offset := rustAsU16 offset_bottom }
    else
      let image_w : ℚ := round (cw * (image_ar / canvas_ar))
      let diff : ℚ := cw - image_w
      let offset_left : ℚ := ratTrunc (diff / 2)
      let offset_right : ℚ := diff - offset_left
      .ok { ExtMetadataBlockLevel5.default with
            active_area_left_offset := rustAsU16 offset_left
            active_area_right_offset := rustAsU16 offset_right }

/-! ## Size characterization of the variable-length L8 block -/

/-- The hue-vector group of an L8 block differs from the defaults. -/
def l8HueModified (b : ExtMetadataBlockLevel8) : Prop :=
  b.hue_vector_field0 ≠ 128 ∨ b.hue_vector_field1 ≠ 128 ∨
  b.hue_vector_field2 ≠ 128 ∨ b.hue_vector_field3 ≠ 128 ∨
  b.hue_vector_field4 ≠ 128 ∨ b.hue_vector_field5 ≠ 128

/-- The saturation-vector group of an L8 block differs from the defaults. -/
def l8SatModified (b : ExtMetadataBlockLevel8) : Prop :=
  b.saturation_vector_field0 ≠ 128 ∨ b.saturation_vector_field1 ≠ 128 ∨
  b.saturation_vector_field2 ≠ 128 ∨ b.saturation_vector_field3 ≠ 128 ∨
  b.saturation_vector_field4 ≠ 128 ∨ b.saturation_vector_field5 ≠ 128

instance (b : ExtMetadataBlockLevel8) : Decidable (l8HueModified b) := by
  unfold l8HueModified; infer_instance

instance (b : ExtMetadataBlockLevel8) : Decidable (l8SatModified b) := by
  unfold l8SatModified; infer_instance

/-- In this fork, the byte size and required bits of an L8 block are decided
by which trailing field groups differ from the sentinel defaults
(128 for the vectors, 2048 for clip_trim / target_mid_contrast). -/
theorem l8_size_from_defaults (b : ExtMetadataBlockLevel8) :
    b.required_bits =
      (if l8HueModified b then 200
       else if l8SatModified b then 152
       else if b.clip_trim ≠ 2048 then 104
       else if b.target_mid_contrast ≠ 2048 then 92
       else 80) ∧
    b.bytes_size =
      (if l8HueModified b then 25
       else if l8SatModified b then 19
       else if b.clip_trim ≠ 2048 then 13
       else if b.target_mid_contrast ≠ 2048 then 12
       else 10) := by
  have hflag : b.modified_fields_flag =
      (if l8HueModified b then 8 else 0) + (if l8SatModified b then 4 else 0) +
      (if b.clip_trim ≠ 2048 then 2 else 0) +
      (if b.target_mid_contrast ≠ 2048 then 1 else 0) := by
    unfold ExtMetadataBlockLevel8.modified_fields_flag l8HueModified l8SatModified
    simp only [ExtMetadataBlockLevel8.default, ExtMetadataBlockLevel8.possible_required_bits]
    split_ifs <;> decide
  unfold ExtMetadataBlockLevel8.bytes_size ExtMetadataBlockLevel8.required_bits
  rw [hflag]
  split_ifs <;> decide

/-- C2: the claim's fully-populated L8 block (hue and saturation vectors all
128, clip_trim and target_mid_contrast 2048, trims and ms_weight 2048 —
i.e. exactly the default block) does NOT report `length_bytes = 25` /
`required_bits = 200` in this fork: all groups equal the sentinel defaults
and are therefore dropped, giving 10 bytes / 80 bits. -/
theorem claimC2_counterexample :
    (ExtMetadataBlockLevel8.default.hue_vector_field0 = 128 ∧
     ExtMetadataBlockLevel8.default.hue_vector_field1 = 128 ∧
     ExtMetadataBlockLevel8.default.hue_vector_field2 = 128 ∧
     ExtMetadataBlockLevel8.default.hue_vector_field3 = 128 ∧
     ExtMetadataBlockLevel8.default.hue_vector_field4 = 128 ∧
     ExtMetadataBlockLevel8.default.hue_vector_field5 = 128 ∧
     ExtMetadataBlockLevel8.default.saturation_vector_field0 = 128 ∧
     ExtMetadataBlockLevel8.default.saturation_vector_field1 = 128 ∧
     ExtMetadataBlockLevel8.default.saturation_vector_field2 = 128 ∧
     ExtMetadataBlockLevel8.default.saturation_vector_field3 = 128 ∧
     ExtMetadataBlockLevel8.default.saturation_vector_field4 = 128 ∧
     ExtMetadataBlockLevel8.default.saturation_vector_field5 = 128 ∧
     ExtMetadataBlockLevel8.default.clip_trim = 2048 ∧
     ExtMetadataBlockLevel8.default.target_mid_contrast = 2048 ∧
     ExtMetadataBlockLevel8.default.trim_slope = 2048 ∧
     ExtMetadataBlockLevel8.default.ms_weight = 2048) ∧
    ¬ (ExtMetadataBlockLevel8.default.bytes_size = 25 ∧
       ExtMetadataBlockLevel8.default.required_bits = 200) ∧
    ExtMetadataBlockLevel8.default.bytes_size = 10 ∧
    ExtMetadataBlockLevel8.default.required_bits = 80 := by
  decide

/-- C2 (amended): an L8 block whose hue and saturation vectors are all 128
and whose clip_trim and target_mid_contrast are 2048 reports
`length_bytes = 10` and `required_bits = 80`; in this fork the byte size of
a variable-length L8 block is a function of which optional field groups
DIFFER from the sentinel defaults — fields equal to the defaults are treated
as absent. -/
theorem claimC2_amended (b : ExtMetadataBlockLevel8)
    (hhue : ¬ l8HueModified b) (hsat : ¬ l8SatModified b)
    (hclip : b.clip_trim = 2048) (hmid : b.target_mid_contrast = 2048) :
    b.bytes_size = 10 ∧ b.required_bits = 80 ∧
    (∀ b' : ExtMetadataBlockLevel8,
      ((l8HueModified b' ↔ l8HueModified b) ∧ (l8SatModified b' ↔ l8SatModified b) ∧
       (b'.clip_trim ≠ 2048 ↔ b.clip_trim ≠ 2048) ∧
       (b'.target_mid_contrast ≠ 2048 ↔ b.target_mid_contrast ≠ 2048)) →
      b'.bytes_size = b.bytes_size ∧ b'.required_bits = b.required_bits) := by
  obtain ⟨hr, hs⟩ := l8_size_from_defaults b
  rw [if_neg hhue, if_neg hsat, if_neg (by simp [hclip]), if_neg (by simp [hmid])] at hr hs
  refine ⟨hs, hr, ?_⟩
  intro b' ⟨e1, e2, e3, e4⟩
  obtain ⟨hr', hs'⟩ := l8_size_from_defaults b'
  constructor
  · rw [hs', hs, if_neg (by rw [e1]; exact hhue), if_neg (by rw [e2]; exact hsat),
      if_neg (by rw [e3]; simp [hclip]), if_neg (by rw [e4]; simp [hmid])]
  · rw [hr', hr, if_neg (by rw [e1]; exact hhue), if_neg (by rw [e2]; exact hsat),
      if_neg (by rw [e3]; simp [hclip]), if_neg (by rw [e4]; simp [hmid])]

/-- Closed witness for `claimC2_amended` at the default block. -/
theorem claimC2_amended_witness :
    ExtMetadataBlockLevel8.default.bytes_size = 10 ∧
    ExtMetadataBlockLevel8.default.required_bits = 80 :=
  ⟨(claimC2_amended ExtMetadataBlockLevel8.default (by decide) (by decide)
      (by decide) (by decide)).1,
   (claimC2_amended ExtMetadataBlockLevel8.default (by decide) (by decide)
      (by decide) (by decide)).2.1⟩

instance {e a : Type} [DecidableEq e] [DecidableEq a] : DecidableEq (Except e a) :=
  fun x y =>
    match x, y with
    | .ok u, .ok v =>
      if h : u = v then isTrue (by rw [h]) else isFalse (by simp [h])
    | .error u, .error v =>
      if h : u = v then isTrue (by rw [h]) else isFalse (by simp [h])
    | .ok _, .error _ => isFalse (by simp)
    | .error _, .ok _ => isFalse (by simp)

/-- C6: `ExtMetadataBlockLevel10::validate` — which `write` invokes first —
errors exactly when the target display index is a preset ID or one of the PQ
bounds exceeds `MAX_PQ_LUMINANCE`; in particular index 1 always fails. -/
theorem claimC6_l10_validate (b : ExtMetadataBlockLevel10) :
    ((∃ e, b.validate = .error e) ↔
      (b.target_display_index ∈ PRESET_TARGET_DISPLAYS ∨
       b.target_max_pq > MAX_PQ_LUMINANCE ∨ b.target_min_pq > MAX_PQ_LUMINANCE)) ∧
    (∀ e, b.validate = .error e → b.write = .error e) ∧
    (b.target_display_index = 1 → b.validate = .error .valueOutOfRange) := by
  refine ⟨?_, ?_, ?_⟩
  · unfold ExtMetadataBlockLevel10.validate
    by_cases h1 : b.target_display_index ∈ PRESET_TARGET_DISPLAYS
    · rw [if_pos h1]
      simp [h1]
    · rw [if_neg h1]
      by_cases h2 : b.target_max_pq ≤ MAX_PQ_LUMINANCE
      · rw [if_neg (by simpa using h2)]
        by_cases h3 : b.target_min_pq ≤ MAX_PQ_LUMINANCE
        · rw [if_neg (by simpa using h3)]
          constructor
          · rintro ⟨e, he⟩
            simp at he
          · rintro (h | h | h)
            · exact absurd h h1
            · omega
            · omega
        · rw [if_pos (by simpa using h3)]
          exact ⟨fun _ => Or.inr (Or.inr (by omega)),
            fun _ => ⟨.valueOutOfRange, rfl⟩⟩
      · rw [if_pos (by simpa using h2)]
        exact ⟨fun _ => Or.inr (Or.inl (by omega)),
          fun _ => ⟨.valueOutOfRange, rfl⟩⟩
  · intro e he
    unfold ExtMetadataBlockLevel10.write
    simp only [bind, Except.bind, he]
  · intro h1
    unfold ExtMetadataBlockLevel10.validate
    rw [if_pos]
    rw [h1]
    decide

/-- Closed witness for `claimC6_l10_validate`: an L10 block with target
display index 1 is rejected by `validate` and by `write`. -/
theorem claimC6_l10_validate_witness :
    ({ ExtMetadataBlockLevel10.default with
       target_display_index := 1 } : ExtMetadataBlockLevel10).validate =
      .error .valueOutOfRange ∧
    ({ ExtMetadataBlockLevel10.default with
       target_display_index := 1 } : ExtMetadataBlockLevel10).write =
      .error .valueOutOfRange := by
  have h := claimC6_l10_validate
    { ExtMetadataBlockLevel10.default with target_display_index := 1 }
  have hv := h.2.2 (by decide)
  exact ⟨hv, h.2.1 _ hv⟩

/-- C9: the default `ExtMetadataBlockLevel10` has target display index 48,
which is a member of `PRESET_TARGET_DISPLAYS`, so `validate()` and `write()`
on a default L10 block always error: the type's own default violates its own
validation. -/
theorem claimC9_default_l10_invalid :
    ExtMetadataBlockLevel10.default.target_display_index = 48 ∧
    ExtMetadataBlockLevel10.default.target_display_index ∈ PRESET_TARGET_DISPLAYS ∧
    ExtMetadataBlockLevel10.default.validate = .error .valueOutOfRange ∧
    ExtMetadataBlockLevel10.default.write = .error .valueOutOfRange := by
  decide

/-- C10: an `ExtMetadataBlockLevel9` has `bytes_size = 17` exactly when all
eight optional primary coordinates are present (and `bytes_size = 1`
otherwise), and `ExtMetadataBlockLevel9::write` never hits an `unwrap` on
`None`: it succeeds on every L9 value. -/
theorem claimC10_l9_write_total (b : ExtMetadataBlockLevel9) :
    (b.bytes_size = 17 ↔
      (b.source_primary_red_x.isSome = true ∧ b.source_primary_red_y.isSome = true ∧
       b.source_primary_green_x.isSome = true ∧ b.source_primary_green_y.isSome = true ∧
       b.source_primary_blue_x.isSome = true ∧ b.source_primary_blue_y.isSome = true ∧
       b.source_primary_white_x.isSome = true ∧ b.source_primary_white_y.isSome = true)) ∧
    (b.bytes_size = 17 ∨ b.bytes_size = 1) ∧
    (∃ w, b.write = .ok w) := by
  by_cases h : b.source_primary_red_x.isNone ∨ b.source_primary_red_y.isNone ∨
      b.source_primary_green_x.isNone ∨ b.source_primary_green_y.isNone ∨
      b.source_primary_blue_x.isNone ∨ b.source_primary_blue_y.isNone ∨
      b.source_primary_white_x.isNone ∨ b.source_primary_white_y.isNone
  · have hreq : b.required_bits = 8 := by
      unfold ExtMetadataBlockLevel9.required_bits
      rw [if_pos h]
    have hsize : b.bytes_size = 1 := by
      unfold ExtMetadataBlockLevel9.bytes_size
      rw [hreq]
    refine ⟨?_, Or.inr hsize, ?_⟩
    · rw [hsize]
      constructor
      · intro h17; omega
      · rintro ⟨s1, s2, s3, s4, s5, s6, s7, s8⟩
        exfalso
        rcases h with h | h | h | h | h | h | h | h <;>
          simp_all [Option.isNone_iff_eq_none]
    · refine ⟨bitsOfNat 8 b.source_primary_index, ?_⟩
      unfold ExtMetadataBlockLevel9.write
      rw [hsize]
      simp
  · have n1 : b.source_primary_red_x.isSome = true := by
      cases hx : b.source_primary_red_x with
      | none => exact absurd (Or.inl (by simp [hx])) h
      | some v => simp
    have n2 : b.source_primary_red_y.isSome = true := by
      cases hx : b.source_primary_red_y with
      | none => exact absurd (Or.inr (Or.inl (by simp [hx]))) h
      | some v => simp
    have n3 : b.source_primary_green_x.isSome = true := by
      cases hx : b.source_primary_green_x with
      | none => exact absurd (Or.inr (Or.inr (Or.inl (by simp [hx])))) h
      | some v => simp
    have n4 : b.source_primary_green_y.isSome = true := by
      cases hx : b.source_primary_green_y with
      | none => exact absurd (Or.inr (Or.inr (Or.inr (Or.inl (by simp [hx]))))) h
      | some v => simp
    have n5 : b.source_primary_blue_x.isSome = true := by
      cases hx : b.source_primary_blue_x with
      | none =>
          exact absurd (Or.inr (Or.inr (Or.inr (Or.inr (Or.inl (by simp [hx])))))) h
      | some v => simp
    have n6 : b.source_primary_blue_y.isSome = true := by
      cases hx : b.source_primary_blue_y with
      | none =>
          exact absurd
            (Or.inr (Or.inr (Or.inr (Or.inr (Or.inr (Or.inl (by simp [hx]))))))) h
      | some v => simp
    have n7 : b.source_primary_white_x.isSome = true := by
      cases hx : b.source_primary_white_x with
      | none =>
          exact absurd
            (Or.inr (Or.inr (Or.inr (Or.inr (Or.inr (Or.inr (Or.inl (by simp [hx])))))))) h
      | some v => simp
    have n8 : b.source_primary_white_y.isSome = true := by
      cases hx : b.source_primary_white_y with
      | none =>
          exact absurd
            (Or.inr (Or.inr (Or.inr (Or.inr (Or.inr (Or.inr (Or.inr (by simp [hx])))))))) h
      | some v => simp
    have hreq : b.required_bits = 136 := by
      unfold ExtMetadataBlockLevel9.required_bits
      rw [if_neg]
      simp_all [Option.isSome_iff_ne_none, Option.isNone_iff_eq_none]
    have hsize : b.bytes_size = 17 := by
      unfold ExtMetadataBlockLevel9.bytes_size
      rw [hreq]
    obtain ⟨v1, hv1⟩ := Option.isSome_iff_exists.mp n1
    obtain ⟨v2, hv2⟩ := Option.isSome_iff_exists.mp n2
    obtain ⟨v3, hv3⟩ := Option.isSome_iff_exists.mp n3
    obtain ⟨v4, hv4⟩ := Option.isSome_iff_exists.mp n4
    obtain ⟨v5, hv5⟩ := Option.isSome_iff_exists.mp n5
    obtain ⟨v6, hv6⟩ := Option.isSome_iff_exists.mp n6
    obtain ⟨v7, hv7⟩ := Option.isSome_iff_exists.mp n7
    obtain ⟨v8, hv8⟩ := Option.isSome_iff_exists.mp n8
    refine ⟨by simp [hsize, n1, n2, n3, n4, n5, n6, n7, n8], Or.inl hsize, ?_⟩
    have hw : b.write = .ok (bitsOfNat 8 b.source_primary_index ++
        bitsOfNat 16 v1 ++ bitsOfNat 16 v2 ++ bitsOfNat 16 v3 ++ bitsOfNat 16 v4 ++
        bitsOfNat 16 v5 ++ bitsOfNat 16 v6 ++ bitsOfNat 16 v7 ++ bitsOfNat 16 v8) := by
      unfold ExtMetadataBlockLevel9.write
      rw [hsize]
      simp only [show ((17 : Nat) > 1) = True from by simp, if_true, hv1, hv2, hv3,
        hv4, hv5, hv6, hv7, hv8, ExtMetadataBlockLevel9.unwrap16, bind, Except.bind]
    exact ⟨_, hw⟩

/-! ## C8: the L5 aspect derivation -/

theorem ratTrunc_of_nonneg {q : ℚ} (h : 0 ≤ q) : ratTrunc q = ⌊q⌋ := by
  unfold ratTrunc
  rw [Int.tdiv_eq_ediv (Rat.num_nonneg.mpr h) (by positivity)]
  conv_rhs => rw [← Rat.num_div_den q]
  rw [Rat.floor_intCast_div_natCast]

theorem ratTrunc_intCast (z : ℤ) : ratTrunc (z : ℚ) = z := by
  unfold ratTrunc
  rw [Rat.num_intCast, Rat.den_intCast]
  exact Int.tdiv_one z

theorem rustAsU16_intCast {z : ℤ} (h0 : 0 ≤ z) (h1 : z ≤ 65535) :
    rustAsU16 (z : ℚ) = z.toNat := by
  unfold rustAsU16
  rw [ratTrunc_intCast, max_eq_left h0, min_eq_left h1]

/-- The letterbox branch of the L5 derivation, in closed form. -/
theorem calc5_letterbox (cw ch : Nat) (car iar : ℚ)
    (image_h diff top bottom : ℤ)
    (hpos : 0 < car) (hlt : car < iar)
    (heps : F32_EPSILON ≤ |car - iar|) (hch : ch ≤ 65535)
    (him : image_h = round ((ch : ℚ) * (car / iar)))
    (hdiff : diff = (ch : ℤ) - image_h)
    (htop : top = diff / 2) (hbot : bottom = diff - top) :
    CmXmlParser.calculate_level5_metadata (some cw) (some ch) car iar =
      .ok { active_area_left_offset := 0, active_area_right_offset := 0,
            active_area_top_offset := top.toNat,
            active_area_bottom_offset := bottom.toNat } ∧
    top.toNat + bottom.toNat = diff.toNat ∧
    (bottom - top = 0 ∨ bottom - top = 1) := by
  have hiar : 0 < iar := lt_trans hpos hlt
  have hx0 : 0 ≤ (ch : ℚ) * (car / iar) := by positivity
  have him0 : 0 ≤ image_h := by
    rw [him]
    have h1 := sub_half_lt_round ((ch : ℚ) * (car / iar))
    by_contra hneg
    push_neg at hneg
    have : ((round ((ch : ℚ) * (car / iar)) : ℤ) : ℚ) ≤ -1 := by
      exact_mod_cast Int.le_of_lt_add_one (by omega : round ((ch : ℚ) * (car / iar)) < -1 + 1)
    nlinarith
  have hratio : car / iar < 1 := (div_lt_one hiar).mpr hlt
  have hxle : (ch : ℚ) * (car / iar) ≤ (ch : ℚ) := by
    nlinarith [Nat.cast_nonneg (α := ℚ) ch]
  have himle : image_h ≤ (ch : ℤ) := by
    rw [him]
    have h2 := round_le_add_half ((ch : ℚ) * (car / iar))
    have : ((round ((ch : ℚ) * (car / iar)) : ℤ) : ℚ) < (ch : ℚ) + 1 := by linarith
    exact_mod_cast Int.lt_add_one_iff.mp (by exact_mod_cast this)
  have hd0 : 0 ≤ diff := by omega
  have hdle : diff ≤ 65535 := by
    have : (ch : ℤ) ≤ 65535 := by exact_mod_cast hch
    omega
  have htop0 : 0 ≤ top := by subst htop; positivity
  have htople : top ≤ diff := by subst htop; omega
  have hbot0 : 0 ≤ bottom := by subst hbot; subst htop; omega
  have hbotle : bottom ≤ 65535 := by omega
  have hcond1 : ¬ |car - iar| < F32_EPSILON := not_lt.mpr heps
  have hcond2 : iar > car := hlt
  have hdiffQ : (ch : ℚ) - ((round ((ch : ℚ) * (car / iar)) : ℤ) : ℚ) =
      ((diff : ℤ) : ℚ) := by
    rw [hdiff, him]
    push_cast
    ring
  have hkey1 : ratTrunc (((diff : ℤ) : ℚ) / 2) = top := by
    rw [ratTrunc_of_nonneg (by positivity)]
    rw [show ((2 : ℚ) = ((2 : ℕ) : ℚ)) from by norm_num,
      Rat.floor_intCast_div_natCast, htop]
    rfl
  constructor
  · simp only [CmXmlParser.calculate_level5_metadata]
    rw [if_neg hcond1, if_pos hcond2]
    simp only [Except.ok.injEq, ExtMetadataBlockLevel5.default]
    rw [hdiffQ, hkey1]
    have hbotQ : ((diff : ℤ) : ℚ) - ((top : ℤ) : ℚ) = ((bottom : ℤ) : ℚ) := by
      rw [hbot]; push_cast; ring
    rw [hbotQ, rustAsU16_intCast htop0 (le_trans htople hdle),
      rustAsU16_intCast hbot0 hbotle]
  · constructor
    · omega
    · subst hbot; subst htop; omega

/-- C8: the claim's concrete instance is wrong: at CW=3840, CH=2160,
CAR=16/9, IAR=2.39 the derivation computes image_h = 1607 (not 1606, since
2160·(16/9)/2.39 = 1606.69…), hence diff = 553, top = 276 and bottom = 277 —
not top = bottom = 277 as claimed. -/
theorem claimC8_counterexample :
    CmXmlParser.calculate_level5_metadata (some 3840) (some 2160)
        (16 / 9) (239 / 100) =
      .ok { active_area_left_offset := 0, active_area_right_offset := 0,
            active_area_top_offset := 276, active_area_bottom_offset := 277 } ∧
    round ((2160 : ℚ) * ((16 / 9) / (239 / 100))) = 1607 ∧
    ¬ CmXmlParser.calculate_level5_metadata (some 3840) (some 2160)
        (16 / 9) (239 / 100) =
      .ok { active_area_left_offset := 0, active_area_right_offset := 0,
            active_area_top_offset := 277, active_area_bottom_offset := 277 } := by
  have hround : round ((2160 : ℚ) * ((16 / 9) / (239 / 100))) = 1607 := by
    rw [round_eq]
    norm_num
  have h := calc5_letterbox 3840 2160 (16 / 9) (239 / 100) 1607 553 276 277
    (by norm_num) (by norm_num)
    (by rw [F32_EPSILON]; rw [abs_of_nonpos (by norm_num)]; norm_num)
    (by norm_num) hround.symm (by norm_num) (by norm_num) (by norm_num)
  refine ⟨h.1, hround, ?_⟩
  rw [h.1]
  intro hcontra
  simp only [Except.ok.injEq, ExtMetadataBlockLevel5.mk.injEq] at hcontra
  omega

/-- C8 (amended): with positive aspect ratios, `IAR > CAR`, a ratio
difference of at least `f32::EPSILON`, and a canvas height within `u16`
range, the derivation letterboxes: left = right = 0,
top = trunc(diff / 2) and bottom = diff − top where
diff = CH − round(CH·CAR/IAR); the two offsets sum to diff and differ by at
most one.  At CW=3840, CH=2160, CAR=16/9, IAR=2.39 this gives
image_h = 1607, diff = 553, top = 276, bottom = 277. -/
theorem claimC8_amended (cw ch : Nat) (car iar : ℚ)
    (image_h diff top bottom : ℤ)
    (hpos : 0 < car) (hlt : car < iar)
    (heps : F32_EPSILON ≤ |car - iar|) (hch : ch ≤ 65535)
    (him : image_h = round ((ch : ℚ) * (car / iar)))
    (hdiff : diff = (ch : ℤ) - image_h)
    (htop : top = diff / 2) (hbot : bottom = diff - top) :
    CmXmlParser.calculate_level5_metadata (some cw) (some ch) car iar =
      .ok { active_area_left_offset := 0, active_area_right_offset := 0,
            active_area_top_offset := top.toNat,
            active_area_bottom_offset := bottom.toNat } ∧
    top.toNat + bottom.toNat = diff.toNat ∧
    (bottom - top = 0 ∨ bottom - top = 1) :=
  calc5_letterbox cw ch car iar image_h diff top bottom hpos hlt heps hch
    him hdiff htop hbot

/-- Closed witness for `claimC8_amended` at the corrected concrete
instance. -/
theorem claimC8_amended_witness :
    CmXmlParser.calculate_level5_metadata (some 3840) (some 2160)
        (16 / 9) (239 / 100) =
      .ok { active_area_left_offset := 0, active_area_right_offset := 0,
            active_area_top_offset := 276, active_area_bottom_offset := 277 } :=
  (claimC8_amended 3840 2160 (16 / 9) (239 / 100) 1607 553 276 277
    (by norm_num) (by norm_num)
    (by rw [F32_EPSILON]; rw [abs_of_nonpos (by norm_num)]; norm_num)
    (by norm_num) (by rw [round_eq]; norm_num) (by norm_num) (by norm_num)
    (by norm_num)).1

/-! ## C7: the ST.2094-10 payload bridge -/

/-- C7: `ST2094_10DmData::parse` reads `app_identifier` (ue), `app_version`
(ue) and `metadata_refresh_flag` (one bit) in that order — the consumed
prefix is exactly their encodings — and parses a CM v2.9 envelope exactly
when the flag is 1 (`dm_data` stays `None` on 0), surfacing any inner parse
error unchanged. -/
theorem claimC7_st2094_10 (r r1 r2 r3 : BitReader) (aid aver : Nat) (flag : Bool)
    (h1 : r.getUe = .ok (aid, r1)) (h2 : r1.getUe = .ok (aver, r2))
    (h3 : r2.get = .ok (flag, r3)) :
    (flag = false → ST2094_10DmData.parse r =
      .ok (.DMData { app_identifier := aid, app_version := aver,
                     metadata_refresh_flag := false, dm_data := none }, r3)) ∧
    (∀ dm r4, flag = true → DmData.parseV29 r3 = .ok (dm, r4) →
      ST2094_10DmData.parse r =
        .ok (.DMData { app_identifier := aid, app_version := aver,
                       metadata_refresh_flag := true, dm_data := some dm }, r4)) ∧
    (∀ e, flag = true → DmData.parseV29 r3 = .error e →
      ST2094_10DmData.parse r = .error e) ∧
    r.bits = ueBits aid ++ ueBits aver ++ [flag] ++ r3.bits := by
  have hsplit : r.bits = ueBits aid ++ ueBits aver ++ [flag] ++ r3.bits := by
    obtain ⟨e1, _⟩ := BitReader.getUe_ok h1
    obtain ⟨e2, _⟩ := BitReader.getUe_ok h2
    obtain ⟨e3, _⟩ := BitReader.get_ok h3
    rw [e1, e2, e3]
    simp
  refine ⟨?_, ?_, ?_, hsplit⟩
  · intro hf
    subst hf
    unfold ST2094_10DmData.parse
    simp [bind, Except.bind, h1, h2, h3]
  · intro dm r4 hf hdm
    subst hf
    unfold ST2094_10DmData.parse
    simp [bind, Except.bind, h1, h2, h3, hdm]
  · intro e hf hdm
    subst hf
    unfold ST2094_10DmData.parse
    simp [bind, Except.bind, h1, h2, h3, hdm]

/-- Closed witness for `claimC7_st2094_10`: a three-bit stream
`1 1 0` parses as app_identifier 0, app_version 0, refresh flag 0, no DM
body. -/
theorem claimC7_st2094_10_witness :
    ST2094_10DmData.parse ⟨0, [true, true, false]⟩ =
      .ok (.DMData { app_identifier := 0, app_version := 0,
                     metadata_refresh_flag := false, dm_data := none },
           ⟨3, []⟩) :=
  (claimC7_st2094_10 ⟨0, [true, true, false]⟩ ⟨1, [true, false]⟩ ⟨2, [false]⟩
    ⟨3, []⟩ 0 0 false (by decide) (by decide) (by decide)).1 rfl

/-! ## C3 / C4: block length validation and padding -/

theorem possible_bits_eq_map (b : ExtMetadataBlock) :
    b.possible_length_bits = b.possible_length_bytes.map (· * 8) := by
  cases b <;>
    simp [ExtMetadataBlock.possible_length_bits, ExtMetadataBlock.possible_length_bytes,
      ExtMetadataBlockLevel8.possible_bits_size, ExtMetadataBlockLevel9.possible_bits_size,
      ExtMetadataBlockLevel9.possible_bytes_size, ExtMetadataBlockLevel10.possible_bits_size,
      ExtMetadataBlockLevel10.possible_bytes_size]

theorem extBlockUseBits_eq (b : ExtMetadataBlock) {len : Nat}
    (hmem : len ∈ b.possible_length_bytes) :
    b.possible_length_bits.getD (b.possible_length_bytes.indexOf len) 0 -
      b.possible_required_bits.getD (b.possible_length_bytes.indexOf len) 0 =
    8 * len - b.possible_required_bits.getD (b.possible_length_bytes.indexOf len) 0 := by
  have hidx : b.possible_length_bytes.indexOf len < b.possible_length_bytes.length :=
    List.indexOf_lt_length.mpr hmem
  have hbits : b.possible_length_bits.getD (b.possible_length_bytes.indexOf len) 0 =
      8 * len := by
    rw [possible_bits_eq_map,
      List.getD_eq_getElem _ _ (by simpa using hidx)]
    simp only [List.getElem_map]
    rw [List.getElem_indexOf hidx]
    exact Nat.mul_comm len 8
  rw [hbits]

/-- The padding loop returns `ok`, its own error kind, or `truncated` —
never any other error. -/
theorem readZeros_error_shape (n : Nat) (e : RpuError) (r : BitReader) :
    (∃ r', BitReader.readZeros n e r = .ok r') ∨
    BitReader.readZeros n e r = .error e ∨
    BitReader.readZeros n e r = .error .truncated := by
  induction n generalizing r with
  | zero => exact Or.inl ⟨r, rfl⟩
  | succ n ih =>
      obtain ⟨p, bits⟩ := r
      cases bits with
      | nil => exact Or.inr (Or.inr rfl)
      | cons b t =>
          cases b with
          | true => exact Or.inr (Or.inl (by simp [BitReader.readZeros]))
          | false =>
              have : BitReader.readZeros (n + 1) e ⟨p, false :: t⟩ =
                  BitReader.readZeros n e ⟨p + 1, t⟩ := by
                simp [BitReader.readZeros]
              rw [this]
              exact ih _

/-- C3: for a block with a legal declared length and an allowed level, the
envelope-side padding runs exactly `8·length_bytes − required_bits[length]`
trailing bits (the table entry at the declared length) and succeeds exactly
when every one of them is zero; and the writer emits, after the payload,
exactly `8·length_bytes − required_bits` zero bits for the block's current
configuration. -/
theorem claimC3_padding :
    (∀ (variableLevels allowedLevels : List Nat) (b : ExtMetadataBlock)
        (len : Nat) (r : BitReader) (rest : Bits)
        (hlen : if variableLevels.contains b.level then
            b.possible_length_bytes.contains len = true
          else len = b.length_bytes)
        (hallow : allowedLevels.contains b.level = true),
      (validateAndReadRemaining variableLevels allowedLevels b len r =
          .ok ⟨r.pos +
            (if variableLevels.contains b.level then
              8 * len - b.possible_required_bits.getD
                (b.possible_length_bytes.indexOf len) 0
            else 8 * b.length_bytes - b.required_bits), rest⟩ ↔
        r.bits = List.replicate
            (if variableLevels.contains b.level then
              8 * len - b.possible_required_bits.getD
                (b.possible_length_bytes.indexOf len) 0
            else 8 * b.length_bytes - b.required_bits) false ++ rest)) ∧
    (∀ (b : ExtMetadataBlock) (payload : Bits), b.write = .ok payload →
      writeBlockSegment b = .ok (ueBits b.length_bytes ++ bitsOfNat 8 b.level ++
        payload ++ List.replicate (8 * b.length_bytes - b.required_bits) false)) := by
  constructor
  · intro variableLevels allowedLevels b len r rest hlen hallow
    by_cases hvar : variableLevels.contains b.level = true
    · rw [if_pos hvar] at hlen ⊢
      have hmem : len ∈ b.possible_length_bytes := by simpa using hlen
      unfold validateAndReadRemaining
      rw [if_neg (by
        rw [if_pos (by simpa using hvar)]
        simpa using hlen)]
      simp only [bind, Except.bind]
      unfold validateCorrectDmData
      rw [if_pos (by simpa using hallow)]
      rw [if_pos (by simpa using hvar), if_pos (by simpa using hlen)]
      rw [extBlockUseBits_eq b hmem]
      set pad := 8 * len - b.possible_required_bits.getD
        (b.possible_length_bytes.indexOf len) 0 with hpad
      constructor
      · intro h
        exact (BitReader.readZeros_ok h).1
      · intro h
        rw [show r = ⟨r.pos, r.bits⟩ from rfl, h]
        exact BitReader.readZeros_of_replicate pad .extPaddingNonZero r.pos rest
    · rw [if_neg hvar] at hlen ⊢
      unfold validateAndReadRemaining
      rw [if_neg (by
        rw [if_neg (by simpa using hvar)]
        simpa using hlen)]
      simp only [bind, Except.bind]
      unfold validateCorrectDmData
      rw [if_pos (by simpa using hallow)]
      rw [if_neg (by simpa using hvar)]
      have hlb : b.length_bits = 8 * b.length_bytes := Nat.mul_comm _ _
      rw [hlb]
      constructor
      · intro h
        exact (BitReader.readZeros_ok h).1
      · intro h
        rw [show r = ⟨r.pos, r.bits⟩ from rfl, h]
        exact BitReader.readZeros_of_replicate _ .extPaddingNonZero r.pos rest
  · intro b payload hw
    unfold writeBlockSegment
    simp only [bind, Except.bind, hw]
    rw [show b.length_bits = 8 * b.length_bytes from Nat.mul_comm _ _]

/-- Closed witness for `claimC3_padding`: a fixed-length L1 block inside a
CM v2.9 envelope has 40 − 36 = 4 padding bits, read back from four zero
bits. -/
theorem claimC3_padding_witness :
    validateAndReadRemaining V29_VARIABLE_LENGTH_BLOCK_LEVELS
        V29_ALLOWED_BLOCK_LEVELS
        (.Level1 { min_pq := 0, max_pq := 0, avg_pq := 0 }) 5
        ⟨16, [false, false, false, false]⟩ =
      .ok ⟨20, []⟩ :=
  ((claimC3_padding.1 V29_VARIABLE_LENGTH_BLOCK_LEVELS V29_ALLOWED_BLOCK_LEVELS
      (.Level1 { min_pq := 0, max_pq := 0, avg_pq := 0 }) 5
      ⟨16, [false, false, false, false]⟩ [] (by decide) (by decide)).mpr
    (by decide))

/-- The invalid-length error of `validate_and_read_remaining` occurs exactly
when the declared length is illegal for the level. -/
theorem validateAndReadRemaining_invalid_iff (variableLevels allowedLevels : List Nat)
    (b : ExtMetadataBlock) (len : Nat) (r : BitReader) :
    (validateAndReadRemaining variableLevels allowedLevels b len r =
        .error .invalidBlockLength) ↔
    ¬ (if variableLevels.contains b.level then
        (b.possible_length_bytes.contains len : Prop)
      else len = b.length_bytes) := by
  unfold validateAndReadRemaining
  by_cases hcond : (if variableLevels.contains b.level then
      (b.possible_length_bytes.contains len : Prop)
    else len = b.length_bytes)
  · rw [if_neg (by simpa using hcond)]
    simp only [bind, Except.bind]
    unfold validateCorrectDmData
    by_cases ha : allowedLevels.contains b.level = true
    · rw [if_pos ha]
      rcases readZeros_error_shape
          (if variableLevels.contains b.level = true then
            if b.possible_length_bytes.contains len = true then
              b.possible_length_bits.getD (b.possible_length_bytes.indexOf len) 0 -
                b.possible_required_bits.getD (b.possible_length_bytes.indexOf len) 0
            else 0
          else b.length_bits - b.required_bits)
          .extPaddingNonZero r with h | h | h <;>
        [skip; rw [h]; rw [h]] <;> [obtain ⟨r4, h4⟩ := h; skip; skip] <;>
        [rw [h4]; skip; skip] <;> simp [hcond] <;> simpa using hcond
    · rw [if_neg ha]
      simp [hcond]
      simpa using hcond
  · rw [if_pos (by simpa using hcond)]
    exact iff_of_true rfl hcond

/-- C4: once the codec parse of a block body has succeeded, the envelope's
block parse fails with the invalid-block-length error exactly when the
declared `length_bytes` is illegal for that level: membership in the
codec's `possible_bytes_size` for variable-length levels, equality with the
single legal size otherwise.  Stated for both envelope versions. -/
theorem claimC4_invalid_length :
    (∀ (r r1 r2 r3 : BitReader) (len lvl : Nat) (block : ExtMetadataBlock),
      r.getUe = .ok (len, r1) → r1.getN 8 = .ok (lvl, r2) →
      blockDispatchV29 lvl len r2 = .ok (block, r3) →
      (parseBlockV29 r = .error .invalidBlockLength ↔
        ¬ (if V29_VARIABLE_LENGTH_BLOCK_LEVELS.contains block.level then
            (block.possible_length_bytes.contains len : Prop)
          else len = block.length_bytes))) ∧
    (∀ (r r1 r2 r3 : BitReader) (len lvl : Nat) (block : ExtMetadataBlock),
      r.getUe = .ok (len, r1) → r1.getN 8 = .ok (lvl, r2) →
      blockDispatchV40 lvl len r2 = .ok (block, r3) →
      (parseBlockV40 r = .error .invalidBlockLength ↔
        ¬ (if V40_VARIABLE_LENGTH_BLOCK_LEVELS.contains block.level then
            (block.possible_length_bytes.contains len : Prop)
          else len = block.length_bytes))) := by
  constructor
  · intro r r1 r2 r3 len lvl block h1 h2 h3
    have hstep : parseBlockV29 r =
        Except.bind (validateAndReadRemaining V29_VARIABLE_LENGTH_BLOCK_LEVELS
          V29_ALLOWED_BLOCK_LEVELS block len r3)
          (fun r4 => .ok ((len, block), r4)) := by
      unfold parseBlockV29
      simp [bind, Except.bind, h1, h2, h3]
    rw [hstep]
    have hiff := validateAndReadRemaining_invalid_iff V29_VARIABLE_LENGTH_BLOCK_LEVELS
      V29_ALLOWED_BLOCK_LEVELS block len r3
    cases hv : validateAndReadRemaining V29_VARIABLE_LENGTH_BLOCK_LEVELS
        V29_ALLOWED_BLOCK_LEVELS block len r3 with
    | ok r4 =>
        rw [hv] at hiff
        simp only [Except.bind]
        simp only [show ((Except.ok r4 : Except RpuError BitReader) =
          .error .invalidBlockLength) = False from by simp] at hiff
        constructor
        · intro hc
          simp at hc
        · intro hc
          exact (hiff.mpr hc).elim
    | error e =>
        rw [hv] at hiff
        simp only [Except.bind]
        constructor
        · intro hc
          simp only [Except.error.injEq] at hc
          subst hc
          exact hiff.mp rfl
        · intro hc
          have := hiff.mpr hc
          simp only [Except.error.injEq] at this
          rw [this]
  · intro r r1 r2 r3 len lvl block h1 h2 h3
    have hstep : parseBlockV40 r =
        Except.bind (validateAndReadRemaining V40_VARIABLE_LENGTH_BLOCK_LEVELS
          V40_ALLOWED_BLOCK_LEVELS block len r3)
          (fun r4 => .ok ((len, block), r4)) := by
      unfold parseBlockV40
      simp [bind, Except.bind, h1, h2, h3]
    rw [hstep]
    have hiff := validateAndReadRemaining_invalid_iff V40_VARIABLE_LENGTH_BLOCK_LEVELS
      V40_ALLOWED_BLOCK_LEVELS block len r3
    cases hv : validateAndReadRemaining V40_VARIABLE_LENGTH_BLOCK_LEVELS
        V40_ALLOWED_BLOCK_LEVELS block len r3 with
    | ok r4 =>
        rw [hv] at hiff
        simp only [Except.bind]
        simp only [show ((Except.ok r4 : Except RpuError BitReader) =
          .error .invalidBlockLength) = False from by simp] at hiff
        constructor
        · intro hc
          simp at hc
        · intro hc
          exact (hiff.mpr hc).elim
    | error e =>
        rw [hv] at hiff
        simp only [Except.bind]
        constructor
        · intro hc
          simp only [Except.error.injEq] at hc
          subst hc
          exact hiff.mp rfl
        · intro hc
          have := hiff.mpr hc
          simp only [Except.error.injEq] at this
          rw [this]

/-- Closed witness for `claimC4_invalid_length`: a CM v2.9 L1 block declared
with length 4 (instead of the legal 5) is rejected as an invalid block
length. -/
theorem claimC4_invalid_length_witness :
    parseBlockV29 ⟨0, [false, false, true, false, true] ++ bitsOfNat 8 1 ++
        List.replicate 36 false⟩ = .error .invalidBlockLength :=
  ((claimC4_invalid_length.1
      ⟨0, [false, false, true, false, true] ++ bitsOfNat 8 1 ++ List.replicate 36 false⟩
      ⟨5, bitsOfNat 8 1 ++ List.replicate 36 false⟩
      ⟨13, List.replicate 36 false⟩ ⟨49, []⟩ 4 1
      (.Level1 { min_pq := 0, max_pq := 0, avg_pq := 0 })
      (by decide) (by decide) (by decide)).mpr (by decide))

/-! ## C5: ordering invariants of the block set operations -/

/-- A mutation of the block set: `add_block` or `remove_level`. -/
inductive BlockSetOp where
  | add (b : ExtMetadataBlock)
  | remove (lvl : Nat)

/-- Apply one operation; a rejected `add_block` (disallowed level) leaves the
envelope unchanged, as the Rust method returns `Err` before pushing. -/
def applyOp (allowedLevels : List Nat) (env : Nat × List ExtMetadataBlock) :
    BlockSetOp → Nat × List ExtMetadataBlock
  | .add b =>
    match WithExtMetadataBlocks.addBlock allowedLevels b env with
    | .ok env' => env'
    | .error _ => env
  | .remove lvl => WithExtMetadataBlocks.removeLevel lvl env

/-- Apply a sequence of operations left to right. -/
def applyOps (allowedLevels : List Nat) (env : Nat × List ExtMetadataBlock)
    (ops : List BlockSetOp) : Nat × List ExtMetadataBlock :=
  ops.foldl (applyOp allowedLevels) env

/-- The key the claim asserts, following the spec's words (for comparison
with the source's `sort_key`): `(level, target_display_index)`, sub-key 0
for blocks without a target display.  In this fork's codecs, L8 and L10
both carry a `target_display_index` field. -/
def specSortKey : ExtMetadataBlock → Nat × Nat
  | .Level8 b => (8, b.target_display_index)
  | .Level10 b => (10, b.target_display_index)
  | b => (b.level, 0)

/-- Lexicographic order on the claimed keys, mirroring `keyLe`. -/
def specKeyLe (a b : ExtMetadataBlock) : Prop :=
  (specSortKey a).1 < (specSortKey b).1 ∨
    ((specSortKey a).1 = (specSortKey b).1 ∧ (specSortKey a).2 ≤ (specSortKey b).2)

instance : DecidableRel specKeyLe := fun a b => by
  unfold specKeyLe; infer_instance

theorem sortBlocks_sorted (l : List ExtMetadataBlock) :
    List.Sorted keyLe (WithExtMetadataBlocks.sortBlocks l) :=
  List.sorted_insertionSort keyLe l

theorem sortBlocks_length (l : List ExtMetadataBlock) :
    (WithExtMetadataBlocks.sortBlocks l).length = l.length :=
  List.length_insertionSort keyLe l

/-- Inserting the last element of an appended singleton into an already
sorted list is a stable insertion: the new element lands after every
element whose key is `≤` its own, in particular after equal keys. -/
theorem insertionSort_sorted_append_singleton
    {l : List ExtMetadataBlock} (hs : List.Sorted keyLe l) (b : ExtMetadataBlock) :
    List.insertionSort keyLe (l ++ [b]) =
      l.takeWhile (fun x => decide (keyLe x b)) ++ b ::
        l.dropWhile (fun x => decide (keyLe x b)) := by
  induction l with
  | nil => simp
  | cons x t ih =>
      have hx : ∀ y ∈ t, keyLe x y := List.rel_of_sorted_cons hs
      have ht : List.Sorted keyLe t := hs.of_cons
      have hstep : List.insertionSort keyLe ((x :: t) ++ [b]) =
          List.orderedInsert keyLe x (List.insertionSort keyLe (t ++ [b])) := rfl
      rw [hstep, ih ht]
      by_cases hxb : keyLe x b
      · rw [List.takeWhile_cons_of_pos (by simpa using hxb),
          List.dropWhile_cons_of_pos (by simpa using hxb)]
        cases htw : t.takeWhile (fun x => decide (keyLe x b)) with
        | nil =>
            simp only [htw, List.nil_append]
            exact List.orderedInsert_of_le keyLe _ hxb
        | cons y ys =>
            have hy : y ∈ t := by
              have hsub := List.takeWhile_prefix (l := t)
                (p := fun x => decide (keyLe x b))
              rw [htw] at hsub
              exact hsub.sublist.mem (List.mem_cons_self y ys)
            simp only [htw, List.cons_append]
            exact List.orderedInsert_of_le keyLe _ (hx y hy)
      · have hne : decide (keyLe x b) = false := by simpa using hxb
        rw [List.takeWhile_cons_of_neg (by simp [hne]),
          List.dropWhile_cons_of_neg (by simp [hne])]
        have htdw : t.takeWhile (fun x => decide (keyLe x b)) = [] ∧
            t.dropWhile (fun x => decide (keyLe x b)) = t := by
          cases t with
          | nil => simp
          | cons y ys =>
              have hyb : ¬ keyLe y b := fun hyb =>
                hxb (Trans.trans (hx y (List.mem_cons_self y ys)) hyb)
              exact ⟨List.takeWhile_cons_of_neg (by simpa using hyb),
                List.dropWhile_cons_of_neg (by simpa using hyb)⟩
        rw [htdw.1, htdw.2, List.nil_append]
        show List.orderedInsert keyLe x (b :: t) = b :: x :: t
        unfold List.orderedInsert
        rw [if_neg hxb]
        cases t with
        | nil => rfl
        | cons y ys =>
            rw [List.orderedInsert_of_le keyLe _ (hx y (List.mem_cons_self y ys))]

/-- C5 (amended): starting from any envelope whose block list is sorted by
the fork's `sort_key` order — in which only L8 contributes its
`target_display_index` as sub-key, and every other level (including L10,
which has a `target_display_index` field but no `sort_key` override) sorts
with sub-key 0 — any sequence of `add_block` / `remove_level` operations
preserves both that order and the count invariant; moreover a successful
`add_block` performs a stable insertion: the new block is placed after
every block with `sort_key` `≤` its own (equal keys keep their insertion
order) and the count grows by exactly one — nothing is deduplicated.
The claim's key `(level, target_display_index)` is NOT preserved: see
`claimC5_counterexample`. -/
theorem claimC5_ordering :
    (∀ (allowedLevels : List Nat) (ops : List BlockSetOp)
        (env : Nat × List ExtMetadataBlock),
      List.Sorted keyLe env.2 → env.1 = env.2.length →
      List.Sorted keyLe (applyOps allowedLevels env ops).2 ∧
        (applyOps allowedLevels env ops).1 =
          (applyOps allowedLevels env ops).2.length) ∧
    (∀ (allowedLevels : List Nat) (b : ExtMetadataBlock)
        (env : Nat × List ExtMetadataBlock),
      List.Sorted keyLe env.2 → allowedLevels.contains b.level = true →
      WithExtMetadataBlocks.addBlock allowedLevels b env =
        .ok (env.2.length + 1,
          env.2.takeWhile (fun x => decide (keyLe x b)) ++ b ::
            env.2.dropWhile (fun x => decide (keyLe x b)))) := by
  have hop : ∀ (allowedLevels : List Nat) (env : Nat × List ExtMetadataBlock)
      (op : BlockSetOp),
      List.Sorted keyLe env.2 → env.1 = env.2.length →
      List.Sorted keyLe (applyOp allowedLevels env op).2 ∧
        (applyOp allowedLevels env op).1 = (applyOp allowedLevels env op).2.length := by
    intro allowedLevels env op hs hn
    cases op with
    | add b =>
        simp only [applyOp, WithExtMetadataBlocks.addBlock]
        by_cases hallow : allowedLevels.contains b.level = true
        · rw [if_pos (by simpa using hallow)]
          unfold WithExtMetadataBlocks.updateExtensionBlockInfo
          exact ⟨sortBlocks_sorted _, (sortBlocks_length _).symm⟩
        · rw [if_neg (by simpa using hallow)]
          exact ⟨hs, hn⟩
    | remove lvl =>
        simp only [applyOp, WithExtMetadataBlocks.removeLevel,
          WithExtMetadataBlocks.updateExtensionBlockInfo]
        exact ⟨sortBlocks_sorted _, (sortBlocks_length _).symm⟩
  constructor
  · intro allowedLevels ops
    induction ops with
    | nil => intro env hs hn; exact ⟨hs, hn⟩
    | cons op rest ih =>
        intro env hs hn
        have h1 := hop allowedLevels env op hs hn
        exact ih (applyOp allowedLevels env op) h1.1 h1.2
  · intro allowedLevels b env hs hallow
    unfold WithExtMetadataBlocks.addBlock
    rw [if_pos (by simpa using hallow)]
    unfold WithExtMetadataBlocks.updateExtensionBlockInfo
      WithExtMetadataBlocks.sortBlocks
    rw [insertionSort_sorted_append_singleton hs b]
    simp

/-- Closed witness for `claimC5_ordering`: from the empty CM v2.9 envelope,
adding an L5, then an L1, then removing level 1 leaves a sorted
single-block list with a correct count; and adding an L1 block to a
one-block L5 envelope stably inserts it in front. -/
theorem claimC5_ordering_witness :
    (List.Sorted keyLe (applyOps V29_ALLOWED_BLOCK_LEVELS (0, [])
        [.add (.Level5 ExtMetadataBlockLevel5.default),
         .add (.Level1 { min_pq := 0, max_pq := 1, avg_pq := 2 }),
         .remove 1]).2 ∧
      (applyOps V29_ALLOWED_BLOCK_LEVELS (0, [])
        [.add (.Level5 ExtMetadataBlockLevel5.default),
         .add (.Level1 { min_pq := 0, max_pq := 1, avg_pq := 2 }),
         .remove 1]).1 =
      (applyOps V29_ALLOWED_BLOCK_LEVELS (0, [])
        [.add (.Level5 ExtMetadataBlockLevel5.default),
         .add (.Level1 { min_pq := 0, max_pq := 1, avg_pq := 2 }),
         .remove 1]).2.length) ∧
    WithExtMetadataBlocks.addBlock V29_ALLOWED_BLOCK_LEVELS
        (.Level1 { min_pq := 0, max_pq := 1, avg_pq := 2 })
        (1, [.Level5 ExtMetadataBlockLevel5.default]) =
      .ok (2, [.Level1 { min_pq := 0, max_pq := 1, avg_pq := 2 },
               .Level5 ExtMetadataBlockLevel5.default]) := by
  constructor
  · exact claimC5_ordering.1 V29_ALLOWED_BLOCK_LEVELS
      [.add (.Level5 ExtMetadataBlockLevel5.default),
       .add (.Level1 { min_pq := 0, max_pq := 1, avg_pq := 2 }),
       .remove 1] (0, []) (by simp) (by simp)
  · have h := claimC5_ordering.2 V29_ALLOWED_BLOCK_LEVELS
      (.Level1 { min_pq := 0, max_pq := 1, avg_pq := 2 })
      (1, [.Level5 ExtMetadataBlockLevel5.default])
      (by simp) (by decide)
    rw [h]
    decide

/-- C5: counterexample to the claimed ordering.  Only `level8.rs` overrides
`sort_key` in this fork; `level10.rs` (present in `src/`) does not, so
every L10 block sorts with sub-key 0 even though it has a
`target_display_index`.  Adding an L10 block with `target_display_index` 7
and then one with 3 to the empty CM v4.0 envelope succeeds and leaves them
in insertion order: the resulting list is sorted by the fork's `sort_key`
order but NOT by the claimed `(level, target_display_index)` key. -/
theorem claimC5_counterexample :
    applyOps V40_ALLOWED_BLOCK_LEVELS (0, [])
      [.add (.Level10 { ExtMetadataBlockLevel10.default with target_display_index := 7 }),
       .add (.Level10 { ExtMetadataBlockLevel10.default with target_display_index := 3 })] =
      (2, [.Level10 { ExtMetadataBlockLevel10.default with target_display_index := 7 },
           .Level10 { ExtMetadataBlockLevel10.default with target_display_index := 3 }]) ∧
    List.Sorted keyLe
      [.Level10 { ExtMetadataBlockLevel10.default with target_display_index := 7 },
       .Level10 { ExtMetadataBlockLevel10.default with target_display_index := 3 }] ∧
    ¬ List.Sorted specKeyLe
      [.Level10 { ExtMetadataBlockLevel10.default with target_display_index := 7 },
       .Level10 { ExtMetadataBlockLevel10.default with target_display_index := 3 }] := by
  refine ⟨by decide, by decide, by decide⟩

/-! ## C1: canonicality of the block codecs

For each level: a successful parse consumed exactly the bits a successful
write of the parsed block emits, and advanced the position by the payload's
required bits. -/


theorem ExtMetadataBlockLevel1_parse_canonical {r r' : BitReader} {b : ExtMetadataBlockLevel1} {w : Bits}
    (h : ExtMetadataBlockLevel1.parse r = .ok (b, r')) (hw : ExtMetadataBlockLevel1.write b = .ok w) :
    r.bits = w ++ r'.bits ∧ r'.pos = r.pos + 36 ∧ w.length = 36 := by
  unfold ExtMetadataBlockLevel1.parse at h
  simp only [bind, Except.bind] at h
  cases h1 : BitReader.getN 12 r with
  | error e => rw [h1] at h; exact absurd h (by simp)
  | ok p1 =>
  obtain ⟨v1, r1⟩ := p1
  rw [h1] at h
  dsimp only at h
  cases h2 : BitReader.getN 12 r1 with
  | error e => rw [h2] at h; exact absurd h (by simp)
  | ok p2 =>
  obtain ⟨v2, r2⟩ := p2
  rw [h2] at h
  dsimp only at h
  cases h3 : BitReader.getN 12 r2 with
  | error e => rw [h3] at h; exact absurd h (by simp)
  | ok p3 =>
  obtain ⟨v3, r3⟩ := p3
  rw [h3] at h
  dsimp only at h
  simp only [Except.ok.injEq, Prod.mk.injEq] at h
  obtain ⟨hb, hr⟩ := h
  subst hb; subst hr
  obtain ⟨e1, lt1, q1⟩ := BitReader.getN_ok h1
  obtain ⟨e2, lt2, q2⟩ := BitReader.getN_ok h2
  obtain ⟨e3, lt3, q3⟩ := BitReader.getN_ok h3
  unfold ExtMetadataBlockLevel1.write at hw
  simp only [Except.ok.injEq] at hw
  subst hw
  refine ⟨?_, ?_, ?_⟩
  · rw [e1, e2, e3]
    simp
  · omega
  · simp [bitsOfNat_length]

theorem ExtMetadataBlockLevel3_parse_canonical {r r' : BitReader} {b : ExtMetadataBlockLevel3} {w : Bits}
    (h : ExtMetadataBlockLevel3.parse r = .ok (b, r')) (hw : ExtMetadataBlockLevel3.write b = .ok w) :
    r.bits = w ++ r'.bits ∧ r'.pos = r.pos + 36 ∧ w.length = 36 := by
  unfold ExtMetadataBlockLevel3.parse at h
  simp only [bind, Except.bind] at h
  cases h1 : BitReader.getN 12 r with
  | error e => rw [h1] at h; exact absurd h (by simp)
  | ok p1 =>
  obtain ⟨v1, r1⟩ := p1
  rw [h1] at h
  dsimp only at h
  cases h2 : BitReader.getN 12 r1 with
  | error e => rw [h2] at h; exact absurd h (by simp)
  | ok p2 =>
  obtain ⟨v2, r2⟩ := p2
  rw [h2] at h
  dsimp only at h
  cases h3 : BitReader.getN 12 r2 with
  | error e => rw [h3] at h; exact absurd h (by simp)
  | ok p3 =>
  obtain ⟨v3, r3⟩ := p3
  rw [h3] at h
  dsimp only at h
  simp only [Except.ok.injEq, Prod.mk.injEq] at h
  obtain ⟨hb, hr⟩ := h
  subst hb; subst hr
  obtain ⟨e1, lt1, q1⟩ := BitReader.getN_ok h1
  obtain ⟨e2, lt2, q2⟩ := BitReader.getN_ok h2
  obtain ⟨e3, lt3, q3⟩ := BitReader.getN_ok h3
  unfold ExtMetadataBlockLevel3.write at hw
  simp only [Except.ok.injEq] at hw
  subst hw
  refine ⟨?_, ?_, ?_⟩
  · rw [e1, e2, e3]
    simp
  · omega
  · simp [bitsOfNat_length]

theorem ExtMetadataBlockLevel4_parse_canonical {r r' : BitReader} {b : ExtMetadataBlockLevel4} {w : Bits}
    (h : ExtMetadataBlockLevel4.parse r = .ok (b, r')) (hw : ExtMetadataBlockLevel4.write b = .ok w) :
    r.bits = w ++ r'.bits ∧ r'.pos = r.pos + 24 ∧ w.length = 24 := by
  unfold ExtMetadataBlockLevel4.parse at h
  simp only [bind, Except.bind] at h
  cases h1 : BitReader.getN 12 r with
  | error e => rw [h1] at h; exact absurd h (by simp)
  | ok p1 =>
  obtain ⟨v1, r1⟩ := p1
  rw [h1] at h
  dsimp only at h
  cases h2 : BitReader.getN 12 r1 with
  | error e => rw [h2] at h; exact absurd h (by simp)
  | ok p2 =>
  obtain ⟨v2, r2⟩ := p2
  rw [h2] at h
  dsimp only at h
  simp only [Except.ok.injEq, Prod.mk.injEq] at h
  obtain ⟨hb, hr⟩ := h
  subst hb; subst hr
  obtain ⟨e1, lt1, q1⟩ := BitReader.getN_ok h1
  obtain ⟨e2, lt2, q2⟩ := BitReader.getN_ok h2
  unfold ExtMetadataBlockLevel4.write at hw
  simp only [Except.ok.injEq] at hw
  subst hw
  refine ⟨?_, ?_, ?_⟩
  · rw [e1, e2]
    simp
  · omega
  · simp [bitsOfNat_length]

theorem ExtMetadataBlockLevel5_parse_canonical {r r' : BitReader} {b : ExtMetadataBlockLevel5} {w : Bits}
    (h : ExtMetadataBlockLevel5.parse r = .ok (b, r')) (hw : ExtMetadataBlockLevel5.write b = .ok w) :
    r.bits = w ++ r'.bits ∧ r'.pos = r.pos + 52 ∧ w.length = 52 := by
  unfold ExtMetadataBlockLevel5.parse at h
  simp only [bind, Except.bind] at h
  cases h1 : BitReader.getN 13 r with
  | error e => rw [h1] at h; exact absurd h (by simp)
  | ok p1 =>
  obtain ⟨v1, r1⟩ := p1
  rw [h1] at h
  dsimp only at h
  cases h2 : BitReader.getN 13 r1 with
  | error e => rw [h2] at h; exact absurd h (by simp)
  | ok p2 =>
  obtain ⟨v2, r2⟩ := p2
  rw [h2] at h
  dsimp only at h
  cases h3 : BitReader.getN 13 r2 with
  | error e => rw [h3] at h; exact absurd h (by simp)
  | ok p3 =>
  obtain ⟨v3, r3⟩ := p3
  rw [h3] at h
  dsimp only at h
  cases h4 : BitReader.getN 13 r3 with
  | error e => rw [h4] at h; exact absurd h (by simp)
  | ok p4 =>
  obtain ⟨v4, r4⟩ := p4
  rw [h4] at h
  dsimp only at h
  simp only [Except.ok.injEq, Prod.mk.injEq] at h
  obtain ⟨hb, hr⟩ := h
  subst hb; subst hr
  obtain ⟨e1, lt1, q1⟩ := BitReader.getN_ok h1
  obtain ⟨e2, lt2, q2⟩ := BitReader.getN_ok h2
  obtain ⟨e3, lt3, q3⟩ := BitReader.getN_ok h3
  obtain ⟨e4, lt4, q4⟩ := BitReader.getN_ok h4
  unfold ExtMetadataBlockLevel5.write at hw
  simp only [Except.ok.injEq] at hw
  subst hw
  refine ⟨?_, ?_, ?_⟩
  · rw [e1, e2, e3, e4]
    simp
  · omega
  · simp [bitsOfNat_length]

theorem ExtMetadataBlockLevel254_parse_canonical {r r' : BitReader} {b : ExtMetadataBlockLevel254} {w : Bits}
    (h : ExtMetadataBlockLevel254.parse r = .ok (b, r')) (hw : ExtMetadataBlockLevel254.write b = .ok w) :
    r.bits = w ++ r'.bits ∧ r'.pos = r.pos + 16 ∧ w.length = 16 := by
  unfold ExtMetadataBlockLevel254.parse at h
  simp only [bind, Except.bind] at h
  cases h1 : BitReader.getN 8 r with
  | error e => rw [h1] at h; exact absurd h (by simp)
  | ok p1 =>
  obtain ⟨v1, r1⟩ := p1
  rw [h1] at h
  dsimp only at h
  cases h2 : BitReader.getN 8 r1 with
  | error e => rw [h2] at h; exact absurd h (by simp)
  | ok p2 =>
  obtain ⟨v2, r2⟩ := p2
  rw [h2] at h
  dsimp only at h
  simp only [Except.ok.injEq, Prod.mk.injEq] at h
  obtain ⟨hb, hr⟩ := h
  subst hb; subst hr
  obtain ⟨e1, lt1, q1⟩ := BitReader.getN_ok h1
  obtain ⟨e2, lt2, q2⟩ := BitReader.getN_ok h2
  unfold ExtMetadataBlockLevel254.write at hw
  simp only [Except.ok.injEq] at hw
  subst hw
  refine ⟨?_, ?_, ?_⟩
  · rw [e1, e2]
    simp
  · omega
  · simp [bitsOfNat_length]

theorem ExtMetadataBlockLevel11_parse_canonical {r r' : BitReader} {b : ExtMetadataBlockLevel11} {w : Bits}
    (h : ExtMetadataBlockLevel11.parse r = .ok (b, r')) (hw : ExtMetadataBlockLevel11.write b = .ok w) :
    r.bits = w ++ r'.bits ∧ r'.pos = r.pos + 32 ∧ w.length = 32 := by
  unfold ExtMetadataBlockLevel11.parse at h
  simp only [bind, Except.bind] at h
  cases h1 : BitReader.getN 8 r with
  | error e => rw [h1] at h; exact absurd h (by simp)
  | ok p1 =>
  obtain ⟨v1, r1⟩ := p1
  rw [h1] at h
  dsimp only at h
  cases h2 : BitReader.getN 8 r1 with
  | error e => rw [h2] at h; exact absurd h (by simp)
  | ok p2 =>
  obtain ⟨v2, r2⟩ := p2
  rw [h2] at h
  dsimp only at h
  cases h3 : BitReader.get r2 with
  | error e => rw [h3] at h; exact absurd h (by simp)
  | ok p3 =>
  obtain ⟨v3, r3⟩ := p3
  rw [h3] at h
  dsimp only at h
  cases h4 : BitReader.getN 2 r3 with
  | error e => rw [h4] at h; exact absurd h (by simp)
  | ok p4 =>
  obtain ⟨v4, r4⟩ := p4
  rw [h4] at h
  dsimp only at h
  cases h5 : BitReader.getN 2 r4 with
  | error e => rw [h5] at h; exact absurd h (by simp)
  | ok p5 =>
  obtain ⟨v5, r5⟩ := p5
  rw [h5] at h
  dsimp only at h
  cases h6 : BitReader.getN 2 r5 with
  | error e => rw [h6] at h; exact absurd h (by simp)
  | ok p6 =>
  obtain ⟨v6, r6⟩ := p6
  rw [h6] at h
  dsimp only at h
  cases h7 : BitReader.getN 2 r6 with
  | error e => rw [h7] at h; exact absurd h (by simp)
  | ok p7 =>
  obtain ⟨v7, r7⟩ := p7
  rw [h7] at h
  dsimp only at h
  cases h8 : BitReader.getN 2 r7 with
  | error e => rw [h8] at h; exact absurd h (by simp)
  | ok p8 =>
  obtain ⟨v8, r8⟩ := p8
  rw [h8] at h
  dsimp only at h
  cases h9 : BitReader.getN 2 r8 with
  | error e => rw [h9] at h; exact absurd h (by simp)
  | ok p9 =>
  obtain ⟨v9, r9⟩ := p9
  rw [h9] at h
  dsimp only at h
  cases h10 : BitReader.getN 3 r9 with
  | error e => rw [h10] at h; exact absurd h (by simp)
  | ok p10 =>
  obtain ⟨v10, r10⟩ := p10
  rw [h10] at h
  dsimp only at h
  simp only [Except.ok.injEq, Prod.mk.injEq] at h
  obtain ⟨hb, hr⟩ := h
  subst hb; subst hr
  obtain ⟨e1, lt1, q1⟩ := BitReader.getN_ok h1
  obtain ⟨e2, lt2, q2⟩ := BitReader.getN_ok h2
  obtain ⟨e3, q3⟩ := BitReader.get_ok h3
  obtain ⟨e4, lt4, q4⟩ := BitReader.getN_ok h4
  obtain ⟨e5, lt5, q5⟩ := BitReader.getN_ok h5
  obtain ⟨e6, lt6, q6⟩ := BitReader.getN_ok h6
  obtain ⟨e7, lt7, q7⟩ := BitReader.getN_ok h7
  obtain ⟨e8, lt8, q8⟩ := BitReader.getN_ok h8
  obtain ⟨e9, lt9, q9⟩ := BitReader.getN_ok h9
  obtain ⟨e10, lt10, q10⟩ := BitReader.getN_ok h10
  unfold ExtMetadataBlockLevel11.write at hw
  simp only [Except.ok.injEq] at hw
  subst hw
  refine ⟨?_, ?_, ?_⟩
  · rw [e1, e2, e3, e4, e5, e6, e7, e8, e9, e10]
    simp
  · omega
  · simp [bitsOfNat_length]
theorem ExtMetadataBlockLevel2_parse_canonical {r r' : BitReader} {b : ExtMetadataBlockLevel2} {w : Bits}
    (h : ExtMetadataBlockLevel2.parse r = .ok (b, r')) (hw : ExtMetadataBlockLevel2.write b = .ok w) :
    r.bits = w ++ r'.bits ∧ r'.pos = r.pos + 85 ∧ w.length = 85 := by
  unfold ExtMetadataBlockLevel2.parse at h
  simp only [bind, Except.bind] at h
  cases h1 : BitReader.getN 12 r with
  | error e => rw [h1] at h; exact absurd h (by simp)
  | ok p1 =>
  obtain ⟨v1, r1⟩ := p1
  rw [h1] at h
  dsimp only at h
  cases h2 : BitReader.getN 12 r1 with
  | error e => rw [h2] at h; exact absurd h (by simp)
  | ok p2 =>
  obtain ⟨v2, r2⟩ := p2
  rw [h2] at h
  dsimp only at h
  cases h3 : BitReader.getN 12 r2 with
  | error e => rw [h3] at h; exact absurd h (by simp)
  | ok p3 =>
  obtain ⟨v3, r3⟩ := p3
  rw [h3] at h
  dsimp only at h
  cases h4 : BitReader.getN 12 r3 with
  | error e => rw [h4] at h; exact absurd h (by simp)
  | ok p4 =>
  obtain ⟨v4, r4⟩ := p4
  rw [h4] at h
  dsimp only at h
  cases h5 : BitReader.getN 12 r4 with
  | error e => rw [h5] at h; exact absurd h (by simp)
  | ok p5 =>
  obtain ⟨v5, r5⟩ := p5
  rw [h5] at h
  dsimp only at h
  cases h6 : BitReader.getN 12 r5 with
  | error e => rw [h6] at h; exact absurd h (by simp)
  | ok p6 =>
  obtain ⟨v6, r6⟩ := p6
  rw [h6] at h
  dsimp only at h
  cases h7 : BitReader.getN 13 r6 with
  | error e => rw [h7] at h; exact absurd h (by simp)
  | ok p7 =>
  obtain ⟨v7, r7⟩ := p7
  rw [h7] at h
  dsimp only at h
  simp only [Except.ok.injEq, Prod.mk.injEq] at h
  obtain ⟨hb, hr⟩ := h
  subst hb; subst hr
  obtain ⟨e1, lt1, q1⟩ := BitReader.getN_ok h1
  obtain ⟨e2, lt2, q2⟩ := BitReader.getN_ok h2
  obtain ⟨e3, lt3, q3⟩ := BitReader.getN_ok h3
  obtain ⟨e4, lt4, q4⟩ := BitReader.getN_ok h4
  obtain ⟨e5, lt5, q5⟩ := BitReader.getN_ok h5
  obtain ⟨e6, lt6, q6⟩ := BitReader.getN_ok h6
  obtain ⟨e7, lt7, q7⟩ := BitReader.getN_ok h7
  unfold ExtMetadataBlockLevel2.write at hw
  simp only [bind, Except.bind] at hw
  cases hv : ExtMetadataBlockLevel2.validate _ with
  | error e => rw [hv] at hw; exact absurd hw (by simp)
  | ok u =>
  rw [hv] at hw
  dsimp only at hw
  simp only [Except.ok.injEq] at hw
  subst hw
  refine ⟨?_, ?_, ?_⟩
  · rw [e1, e2, e3, e4, e5, e6, e7]
    simp
  · omega
  · simp [bitsOfNat_length]

theorem ExtMetadataBlockLevel6_parse_canonical {r r' : BitReader} {b : ExtMetadataBlockLevel6} {w : Bits}
    (h : ExtMetadataBlockLevel6.parse r = .ok (b, r')) (hw : ExtMetadataBlockLevel6.write b = .ok w) :
    r.bits = w ++ r'.bits ∧ r'.pos = r.pos + 64 ∧ w.length = 64 := by
  unfold ExtMetadataBlockLevel6.parse at h
  simp only [bind, Except.bind] at h
  cases h1 : BitReader.getN 16 r with
  | error e => rw [h1] at h; exact absurd h (by simp)
  | ok p1 =>
  obtain ⟨v1, r1⟩ := p1
  rw [h1] at h
  dsimp only at h
  cases h2 : BitReader.getN 16 r1 with
  | error e => rw [h2] at h; exact absurd h (by simp)
  | ok p2 =>
  obtain ⟨v2, r2⟩ := p2
  rw [h2] at h
  dsimp only at h
  cases h3 : BitReader.getN 16 r2 with
  | error e => rw [h3] at h; exact absurd h (by simp)
  | ok p3 =>
  obtain ⟨v3, r3⟩ := p3
  rw [h3] at h
  dsimp only at h
  cases h4 : BitReader.getN 16 r3 with
  | error e => rw [h4] at h; exact absurd h (by simp)
  | ok p4 =>
  obtain ⟨v4, r4⟩ := p4
  rw [h4] at h
  dsimp only at h
  simp only [Except.ok.injEq, Prod.mk.injEq] at h
  obtain ⟨hb, hr⟩ := h
  subst hb; subst hr
  obtain ⟨e1, lt1, q1⟩ := BitReader.getN_ok h1
  obtain ⟨e2, lt2, q2⟩ := BitReader.getN_ok h2
  obtain ⟨e3, lt3, q3⟩ := BitReader.getN_ok h3
  obtain ⟨e4, lt4, q4⟩ := BitReader.getN_ok h4
  unfold ExtMetadataBlockLevel6.write at hw
  simp only [bind, Except.bind] at hw
  cases hv : ExtMetadataBlockLevel6.validate _ with
  | error e => rw [hv] at hw; exact absurd hw (by simp)
  | ok u =>
  rw [hv] at hw
  dsimp only at hw
  simp only [Except.ok.injEq] at hw
  subst hw
  refine ⟨?_, ?_, ?_⟩
  · rw [e1, e2, e3, e4]
    simp
  · omega
  · simp [bitsOfNat_length]

theorem ExtMetadataBlockLevel9_parse_canonical {len : Nat} {r r' : BitReader}
    {b : ExtMetadataBlockLevel9} {w : Bits}
    (h : ExtMetadataBlockLevel9.parse len r = .ok (b, r'))
    (hw : ExtMetadataBlockLevel9.write b = .ok w) :
    r.bits = w ++ r'.bits ∧ r'.pos = r.pos + b.required_bits ∧
      w.length = b.required_bits ∧
      b.bytes_size = (if 1 < len then 17 else 1) := by
  by_cases hlen : 1 < len
  · unfold ExtMetadataBlockLevel9.parse at h
    simp only [bind, Except.bind] at h
    cases h1 : BitReader.getN 8 r with
    | error e => rw [h1] at h; exact absurd h (by simp)
    | ok p1 =>
    obtain ⟨v1, r1⟩ := p1
    rw [h1] at h
    dsimp only at h
    rw [if_pos (by omega : len > 1)] at h
    cases h2 : BitReader.getN 16 r1 with
    | error e => rw [h2] at h; exact absurd h (by simp)
    | ok p2 =>
    obtain ⟨v2, r2⟩ := p2
    rw [h2] at h
    dsimp only at h
    cases h3 : BitReader.getN 16 r2 with
    | error e => rw [h3] at h; exact absurd h (by simp)
    | ok p3 =>
    obtain ⟨v3, r3⟩ := p3
    rw [h3] at h
    dsimp only at h
    cases h4 : BitReader.getN 16 r3 with
    | error e => rw [h4] at h; exact absurd h (by simp)
    | ok p4 =>
    obtain ⟨v4, r4⟩ := p4
    rw [h4] at h
    dsimp only at h
    cases h5 : BitReader.getN 16 r4 with
    | error e => rw [h5] at h; exact absurd h (by simp)
    | ok p5 =>
    obtain ⟨v5, r5⟩ := p5
    rw [h5] at h
    dsimp only at h
    cases h6 : BitReader.getN 16 r5 with
    | error e => rw [h6] at h; exact absurd h (by simp)
    | ok p6 =>
    obtain ⟨v6, r6⟩ := p6
    rw [h6] at h
    dsimp only at h
    cases h7 : BitReader.getN 16 r6 with
    | error e => rw [h7] at h; exact absurd h (by simp)
    | ok p7 =>
    obtain ⟨v7, r7⟩ := p7
    rw [h7] at h
    dsimp only at h
    cases h8 : BitReader.getN 16 r7 with
    | error e => rw [h8] at h; exact absurd h (by simp)
    | ok p8 =>
    obtain ⟨v8, r8⟩ := p8
    rw [h8] at h
    dsimp only at h
    cases h9 : BitReader.getN 16 r8 with
    | error e => rw [h9] at h; exact absurd h (by simp)
    | ok p9 =>
    obtain ⟨v9, r9⟩ := p9
    rw [h9] at h
    dsimp only at h
    simp only [Except.ok.injEq, Prod.mk.injEq] at h
    obtain ⟨hb, hr⟩ := h
    subst hb; subst hr
    have hreq : ExtMetadataBlockLevel9.required_bits
        { ExtMetadataBlockLevel9.default with
          source_primary_index := v1
          source_primary_red_x := some v2, source_primary_red_y := some v3
          source_primary_green_x := some v4, source_primary_green_y := some v5
          source_primary_blue_x := some v6, source_primary_blue_y := some v7
          source_primary_white_x := some v8, source_primary_white_y := some v9 } = 136 := by
      unfold ExtMetadataBlockLevel9.required_bits
      rw [if_neg]
      simp
    have hsize : ExtMetadataBlockLevel9.bytes_size
        { ExtMetadataBlockLevel9.default with
          source_primary_index := v1
          source_primary_red_x := some v2, source_primary_red_y := some v3
          source_primary_green_x := some v4, source_primary_green_y := some v5
          source_primary_blue_x := some v6, source_primary_blue_y := some v7
          source_primary_white_x := some v8, source_primary_white_y := some v9 } = 17 := by
      unfold ExtMetadataBlockLevel9.bytes_size
      rw [hreq]
    unfold ExtMetadataBlockLevel9.write at hw
    rw [hsize] at hw
    rw [if_pos (by omega)] at hw
    simp only [ExtMetadataBlockLevel9.unwrap16, bind, Except.bind] at hw
    simp only [Except.ok.injEq] at hw
    subst hw
    obtain ⟨e1, lt1, q1⟩ := BitReader.getN_ok h1
    obtain ⟨e2, lt2, q2⟩ := BitReader.getN_ok h2
    obtain ⟨e3, lt3, q3⟩ := BitReader.getN_ok h3
    obtain ⟨e4, lt4, q4⟩ := BitReader.getN_ok h4
    obtain ⟨e5, lt5, q5⟩ := BitReader.getN_ok h5
    obtain ⟨e6, lt6, q6⟩ := BitReader.getN_ok h6
    obtain ⟨e7, lt7, q7⟩ := BitReader.getN_ok h7
    obtain ⟨e8, lt8, q8⟩ := BitReader.getN_ok h8
    obtain ⟨e9, lt9, q9⟩ := BitReader.getN_ok h9
    rw [if_pos hlen]
    refine ⟨?_, ?_, ?_, hsize⟩
    · rw [e1, e2, e3, e4, e5, e6, e7, e8, e9]
      simp
    · rw [hreq]; omega
    · rw [hreq]; simp [bitsOfNat_length]
  · unfold ExtMetadataBlockLevel9.parse at h
    simp only [bind, Except.bind] at h
    cases h1 : BitReader.getN 8 r with
    | error e => rw [h1] at h; exact absurd h (by simp)
    | ok p1 =>
    obtain ⟨v1, r1⟩ := p1
    rw [h1] at h
    dsimp only at h
    rw [if_neg (by omega : ¬ len > 1)] at h
    simp only [Except.ok.injEq, Prod.mk.injEq] at h
    obtain ⟨hb, hr⟩ := h
    subst hb; subst hr
    have hreq : ExtMetadataBlockLevel9.required_bits
        { ExtMetadataBlockLevel9.default with source_primary_index := v1 } = 8 := by
      unfold ExtMetadataBlockLevel9.required_bits
      rw [if_pos]
      simp [ExtMetadataBlockLevel9.default]
    have hsize : ExtMetadataBlockLevel9.bytes_size
        { ExtMetadataBlockLevel9.default with source_primary_index := v1 } = 1 := by
      unfold ExtMetadataBlockLevel9.bytes_size
      rw [hreq]
    unfold ExtMetadataBlockLevel9.write at hw
    rw [hsize] at hw
    rw [if_neg (by omega)] at hw
    simp only [Except.ok.injEq] at hw
    subst hw
    obtain ⟨e1, lt1, q1⟩ := BitReader.getN_ok h1
    rw [if_neg hlen]
    refine ⟨?_, ?_, ?_, hsize⟩
    · rw [e1]
    · rw [hreq]; omega
    · rw [hreq]; simp [bitsOfNat_length]

theorem ExtMetadataBlockLevel10_parse_canonical {len : Nat} {r r' : BitReader}
    {b : ExtMetadataBlockLevel10} {w : Bits}
    (h : ExtMetadataBlockLevel10.parse len r = .ok (b, r'))
    (hw : ExtMetadataBlockLevel10.write b = .ok w) :
    r.bits = w ++ r'.bits ∧ r'.pos = r.pos + b.required_bits ∧
      w.length = b.required_bits ∧
      b.bytes_size = (if 5 < len then 21 else 5) := by
  unfold ExtMetadataBlockLevel10.parse at h
  simp only [bind, Except.bind] at h
  cases h1 : BitReader.getN 8 r with
  | error e => rw [h1] at h; exact absurd h (by simp)
  | ok p1 =>
  obtain ⟨v1, r1⟩ := p1
  rw [h1] at h
  dsimp only at h
  cases h2 : BitReader.getN 12 r1 with
  | error e => rw [h2] at h; exact absurd h (by simp)
  | ok p2 =>
  obtain ⟨v2, r2⟩ := p2
  rw [h2] at h
  dsimp only at h
  cases h3 : BitReader.getN 12 r2 with
  | error e => rw [h3] at h; exact absurd h (by simp)
  | ok p3 =>
  obtain ⟨v3, r3⟩ := p3
  rw [h3] at h
  dsimp only at h
  cases h4 : BitReader.getN 8 r3 with
  | error e => rw [h4] at h; exact absurd h (by simp)
  | ok p4 =>
  obtain ⟨v4, r4⟩ := p4
  rw [h4] at h
  dsimp only at h
  by_cases hlen : 5 < len
  · rw [if_pos (by omega : len > 5)] at h
    cases h5 : BitReader.getN 16 r4 with
    | error e => rw [h5] at h; exact absurd h (by simp)
    | ok p5 =>
    obtain ⟨v5, r5⟩ := p5
    rw [h5] at h
    dsimp only at h
    cases h6 : BitReader.getN 16 r5 with
    | error e => rw [h6] at h; exact absurd h (by simp)
    | ok p6 =>
    obtain ⟨v6, r6⟩ := p6
    rw [h6] at h
    dsimp only at h
    cases h7 : BitReader.getN 16 r6 with
    | error e => rw [h7] at h; exact absurd h (by simp)
    | ok p7 =>
    obtain ⟨v7, r7⟩ := p7
    rw [h7] at h
    dsimp only at h
    cases h8 : BitReader.getN 16 r7 with
    | error e => rw [h8] at h; exact absurd h (by simp)
    | ok p8 =>
    obtain ⟨v8, r8⟩ := p8
    rw [h8] at h
    dsimp only at h
    cases h9 : BitReader.getN 16 r8 with
    | error e => rw [h9] at h; exact absurd h (by simp)
    | ok p9 =>
    obtain ⟨v9, r9⟩ := p9
    rw [h9] at h
    dsimp only at h
    cases h10 : BitReader.getN 16 r9 with
    | error e => rw [h10] at h; exact absurd h (by simp)
    | ok p10 =>
    obtain ⟨v10, r10⟩ := p10
    rw [h10] at h
    dsimp only at h
    cases h11 : BitReader.getN 16 r10 with
    | error e => rw [h11] at h; exact absurd h (by simp)
    | ok p11 =>
    obtain ⟨v11, r11⟩ := p11
    rw [h11] at h
    dsimp only at h
    cases h12 : BitReader.getN 16 r11 with
    | error e => rw [h12] at h; exact absurd h (by simp)
    | ok p12 =>
    obtain ⟨v12, r12⟩ := p12
    rw [h12] at h
    dsimp only at h
    simp only [Except.ok.injEq, Prod.mk.injEq] at h
    obtain ⟨hb, hr⟩ := h
    subst hb; subst hr
    have hreq : ExtMetadataBlockLevel10.required_bits
        { ExtMetadataBlockLevel10.default with
          target_display_index := v1, target_max_pq := v2, target_min_pq := v3
          target_primary_index := v4
          target_primary_red_x := some v5, target_primary_red_y := some v6
          target_primary_green_x := some v7, target_primary_green_y := some v8
          target_primary_blue_x := some v9, target_primary_blue_y := some v10
          target_primary_white_x := some v11, target_primary_white_y := some v12 } = 168 := by
      unfold ExtMetadataBlockLevel10.required_bits
      rw [if_neg]
      simp
    have hsize : ExtMetadataBlockLevel10.bytes_size
        { ExtMetadataBlockLevel10.default with
          target_display_index := v1, target_max_pq := v2, target_min_pq := v3
          target_primary_index := v4
          target_primary_red_x := some v5, target_primary_red_y := some v6
          target_primary_green_x := some v7, target_primary_green_y := some v8
          target_primary_blue_x := some v9, target_primary_blue_y := some v10
          target_primary_white_x := some v11, target_primary_white_y := some v12 } = 21 := by
      unfold ExtMetadataBlockLevel10.bytes_size
      rw [hreq]
    unfold ExtMetadataBlockLevel10.write at hw
    simp only [bind, Except.bind] at hw
    cases hv : ExtMetadataBlockLevel10.validate _ with
    | error e => rw [hv] at hw; exact absurd hw (by simp)
    | ok u =>
    rw [hv] at hw
    dsimp only at hw
    rw [hsize] at hw
    rw [if_pos (by omega)] at hw
    simp only [ExtMetadataBlockLevel9.unwrap16] at hw
    simp only [Except.ok.injEq] at hw
    subst hw
    obtain ⟨e1, lt1, q1⟩ := BitReader.getN_ok h1
    obtain ⟨e2, lt2, q2⟩ := BitReader.getN_ok h2
    obtain ⟨e3, lt3, q3⟩ := BitReader.getN_ok h3
    obtain ⟨e4, lt4, q4⟩ := BitReader.getN_ok h4
    obtain ⟨e5, lt5, q5⟩ := BitReader.getN_ok h5
    obtain ⟨e6, lt6, q6⟩ := BitReader.getN_ok h6
    obtain ⟨e7, lt7, q7⟩ := BitReader.getN_ok h7
    obtain ⟨e8, lt8, q8⟩ := BitReader.getN_ok h8
    obtain ⟨e9, lt9, q9⟩ := BitReader.getN_ok h9
    obtain ⟨e10, lt10, q10⟩ := BitReader.getN_ok h10
    obtain ⟨e11, lt11, q11⟩ := BitReader.getN_ok h11
    obtain ⟨e12, lt12, q12⟩ := BitReader.getN_ok h12
    rw [if_pos hlen]
    refine ⟨?_, ?_, ?_, hsize⟩
    · rw [e1, e2, e3, e4, e5, e6, e7, e8, e9, e10, e11, e12]
      simp
    · rw [hreq]; omega
    · rw [hreq]; simp [bitsOfNat_length]
  · rw [if_neg (by omega : ¬ len > 5)] at h
    simp only [Except.ok.injEq, Prod.mk.injEq] at h
    obtain ⟨hb, hr⟩ := h
    subst hb; subst hr
    have hreq : ExtMetadataBlockLevel10.required_bits
        { ExtMetadataBlockLevel10.default with
          target_display_index := v1, target_max_pq := v2, target_min_pq := v3
          target_primary_index := v4 } = 40 := by
      unfold ExtMetadataBlockLevel10.required_bits
      rw [if_pos]
      simp [ExtMetadataBlockLevel10.default]
    have hsize : ExtMetadataBlockLevel10.bytes_size
        { ExtMetadataBlockLevel10.default with
          target_display_index := v1, target_max_pq := v2, target_min_pq := v3
          target_primary_index := v4 } = 5 := by
      unfold ExtMetadataBlockLevel10.bytes_size
      rw [hreq]
    unfold ExtMetadataBlockLevel10.write at hw
    simp only [bind, Except.bind] at hw
    cases hv : ExtMetadataBlockLevel10.validate _ with
    | error e => rw [hv] at hw; exact absurd hw (by simp)
    | ok u =>
    rw [hv] at hw
    dsimp only at hw
    rw [hsize] at hw
    rw [if_neg (by omega)] at hw
    simp only [Except.ok.injEq] at hw
    subst hw
    obtain ⟨e1, lt1, q1⟩ := BitReader.getN_ok h1
    obtain ⟨e2, lt2, q2⟩ := BitReader.getN_ok h2
    obtain ⟨e3, lt3, q3⟩ := BitReader.getN_ok h3
    obtain ⟨e4, lt4, q4⟩ := BitReader.getN_ok h4
    rw [if_neg hlen]
    refine ⟨?_, ?_, ?_, hsize⟩
    · rw [e1, e2, e3, e4]
      simp
    · rw [hreq]; omega
    · rw [hreq]; simp [bitsOfNat_length]

/-- `ExtMetadataBlockLevel8::parse` followed by `write` reproduces the input
bits, provided the declared block length matches the byte size recomputed
from the parsed fields (i.e. the payload is canonical for this fork's
sentinel-default sizing). -/
theorem ExtMetadataBlockLevel8_parse_canonical {len : Nat} {r r' : BitReader}
    {b : ExtMetadataBlockLevel8} {w : Bits}
    (h : ExtMetadataBlockLevel8.parse len r = .ok (b, r'))
    (hsize : len = b.bytes_size)
    (hw : ExtMetadataBlockLevel8.write b = .ok w) :
    r.bits = w ++ r'.bits ∧ r'.pos = r.pos + b.required_bits ∧
      w.length = b.required_bits := by
  unfold ExtMetadataBlockLevel8.parse at h
  simp only [bind, Except.bind, pure, Except.pure] at h
  cases h1 : BitReader.getN 8 r with
  | error e => rw [h1] at h; exact absurd h (by simp)
  | ok p1 =>
  obtain ⟨v1, r1⟩ := p1
  rw [h1] at h
  try dsimp only at h
  cases h2 : BitReader.getN 12 r1 with
  | error e => rw [h2] at h; exact absurd h (by simp)
  | ok p2 =>
  obtain ⟨v2, r2⟩ := p2
  rw [h2] at h
  try dsimp only at h
  cases h3 : BitReader.getN 12 r2 with
  | error e => rw [h3] at h; exact absurd h (by simp)
  | ok p3 =>
  obtain ⟨v3, r3⟩ := p3
  rw [h3] at h
  try dsimp only at h
  cases h4 : BitReader.getN 12 r3 with
  | error e => rw [h4] at h; exact absurd h (by simp)
  | ok p4 =>
  obtain ⟨v4, r4⟩ := p4
  rw [h4] at h
  try dsimp only at h
  cases h5 : BitReader.getN 12 r4 with
  | error e => rw [h5] at h; exact absurd h (by simp)
  | ok p5 =>
  obtain ⟨v5, r5⟩ := p5
  rw [h5] at h
  try dsimp only at h
  cases h6 : BitReader.getN 12 r5 with
  | error e => rw [h6] at h; exact absurd h (by simp)
  | ok p6 =>
  obtain ⟨v6, r6⟩ := p6
  rw [h6] at h
  try dsimp only at h
  cases h7 : BitReader.getN 12 r6 with
  | error e => rw [h7] at h; exact absurd h (by simp)
  | ok p7 =>
  obtain ⟨v7, r7⟩ := p7
  rw [h7] at h
  try dsimp only at h
  obtain ⟨e1, lt1, q1⟩ := BitReader.getN_ok h1
  obtain ⟨e2, lt2, q2⟩ := BitReader.getN_ok h2
  obtain ⟨e3, lt3, q3⟩ := BitReader.getN_ok h3
  obtain ⟨e4, lt4, q4⟩ := BitReader.getN_ok h4
  obtain ⟨e5, lt5, q5⟩ := BitReader.getN_ok h5
  obtain ⟨e6, lt6, q6⟩ := BitReader.getN_ok h6
  obtain ⟨e7, lt7, q7⟩ := BitReader.getN_ok h7
  by_cases c1 : len > 10
  case neg =>
    -- 10-byte form: no optional group is read
    rw [if_neg c1] at h
    try dsimp only at h
    rw [if_neg (by omega : ¬ len > 12)] at h
    try dsimp only at h
    rw [if_neg (by omega : ¬ len > 13)] at h
    try dsimp only at h
    rw [if_neg (by omega : ¬ len > 19)] at h
    try dsimp only at h
    simp only [Except.ok.injEq, Prod.mk.injEq] at h
    obtain ⟨hb, hr⟩ := h
    subst hb; subst hr
    obtain ⟨hr8, hs8⟩ := l8_size_from_defaults
      { ExtMetadataBlockLevel8.default with
        target_display_index := v1, trim_slope := v2, trim_offset := v3
        trim_power := v4, trim_chroma_weight := v5, trim_saturation_gain := v6
        ms_weight := v7 }
    rw [if_neg (by unfold l8HueModified; simp [ExtMetadataBlockLevel8.default]),
      if_neg (by unfold l8SatModified; simp [ExtMetadataBlockLevel8.default]),
      if_neg (by simp [ExtMetadataBlockLevel8.default]),
      if_neg (by simp [ExtMetadataBlockLevel8.default])] at hr8 hs8
    unfold ExtMetadataBlockLevel8.write at hw
    simp only [bind, Except.bind] at hw
    rw [show ExtMetadataBlockLevel8.validate
        { ExtMetadataBlockLevel8.default with
          target_display_index := v1, trim_slope := v2, trim_offset := v3
          trim_power := v4, trim_chroma_weight := v5, trim_saturation_gain := v6
          ms_weight := v7 } = .ok () from by
      unfold ExtMetadataBlockLevel8.validate MAX_12_BIT_VALUE
      rw [if_pos]
      refine ⟨?_, ?_, ?_, ?_, ?_, ?_, ?_, ?_⟩ <;>
        simp only [ExtMetadataBlockLevel8.default] <;> omega] at hw
    dsimp only at hw
    rw [hs8] at hw
    rw [if_neg (by omega), if_neg (by omega), if_neg (by omega),
      if_neg (by omega)] at hw
    simp only [Except.ok.injEq] at hw
    subst hw
    rw [hr8]
    refine ⟨?_, ?_, ?_⟩
    · rw [e1, e2, e3, e4, e5, e6, e7]
      simp
    · omega
    · simp [bitsOfNat_length]
  case pos =>
    rw [if_pos c1] at h
    cases h8 : BitReader.getN 12 r7 with
    | error e => rw [h8] at h; exact absurd h (by simp)
    | ok p8 =>
    obtain ⟨v8, r8⟩ := p8
    rw [h8] at h
    try dsimp only at h
    obtain ⟨e8, lt8, q8⟩ := BitReader.getN_ok h8
    by_cases c2 : len > 12
    case neg =>
      -- 12-byte form: only target_mid_contrast is read
      rw [if_neg c2] at h
      try dsimp only at h
      rw [if_neg (by omega : ¬ len > 13)] at h
      try dsimp only at h
      rw [if_neg (by omega : ¬ len > 19)] at h
      try dsimp only at h
      simp only [Except.ok.injEq, Prod.mk.injEq] at h
      obtain ⟨hb, hr⟩ := h
      subst hb; subst hr
      obtain ⟨hr8, hs8⟩ := l8_size_from_defaults
        { ExtMetadataBlockLevel8.default with
          target_display_index := v1, trim_slope := v2, trim_offset := v3
          trim_power := v4, trim_chroma_weight := v5, trim_saturation_gain := v6
          ms_weight := v7, target_mid_contrast := v8 }
      rw [if_neg (by unfold l8HueModified; simp [ExtMetadataBlockLevel8.default]),
        if_neg (by unfold l8SatModified; simp [ExtMetadataBlockLevel8.default]),
        if_neg (by simp [ExtMetadataBlockLevel8.default])] at hr8 hs8
      have hmid : v8 ≠ 2048 := by
        intro hv
        rw [hs8, if_neg (by simp [hv])] at hsize
        omega
      rw [if_pos (by simpa using hmid)] at hr8 hs8
      unfold ExtMetadataBlockLevel8.write at hw
      simp only [bind, Except.bind] at hw
      rw [show ExtMetadataBlockLevel8.validate
          { ExtMetadataBlockLevel8.default with
            target_display_index := v1, trim_slope := v2, trim_offset := v3
            trim_power := v4, trim_chroma_weight := v5, trim_saturation_gain := v6
            ms_weight := v7, target_mid_contrast := v8 } = .ok () from by
        unfold ExtMetadataBlockLevel8.validate MAX_12_BIT_VALUE
        rw [if_pos]
        refine ⟨?_, ?_, ?_, ?_, ?_, ?_, ?_, ?_⟩ <;>
          simp only [ExtMetadataBlockLevel8.default] <;> omega] at hw
      dsimp only at hw
      rw [hs8] at hw
      rw [if_neg (by omega), if_neg (by omega), if_neg (by omega),
        if_pos (by omega)] at hw
      simp only [Except.ok.injEq] at hw
      subst hw
      rw [hr8]
      refine ⟨?_, ?_, ?_⟩
      · rw [e1, e2, e3, e4, e5, e6, e7, e8]
        simp
      · omega
      · simp [bitsOfNat_length]
    case pos =>
      rw [if_pos c2] at h
      cases h9 : BitReader.getN 12 r8 with
      | error e => rw [h9] at h; exact absurd h (by simp)
      | ok p9 =>
      obtain ⟨v9, r9⟩ := p9
      rw [h9] at h
      try dsimp only at h
      obtain ⟨e9, lt9, q9⟩ := BitReader.getN_ok h9
      by_cases c3 : len > 13
      case neg =>
        -- 13-byte form: target_mid_contrast and clip_trim are read
        rw [if_neg c3] at h
        try dsimp only at h
        rw [if_neg (by omega : ¬ len > 19)] at h
        try dsimp only at h
        simp only [Except.ok.injEq, Prod.mk.injEq] at h
        obtain ⟨hb, hr⟩ := h
        subst hb; subst hr
        obtain ⟨hr8, hs8⟩ := l8_size_from_defaults
          { ExtMetadataBlockLevel8.default with
            target_display_index := v1, trim_slope := v2, trim_offset := v3
            trim_power := v4, trim_chroma_weight := v5, trim_saturation_gain := v6
            ms_weight := v7, target_mid_contrast := v8, clip_trim := v9 }
        rw [if_neg (by unfold l8HueModified; simp [ExtMetadataBlockLevel8.default]),
          if_neg (by unfold l8SatModified; simp [ExtMetadataBlockLevel8.default])] at hr8 hs8
        have hclip : v9 ≠ 2048 := by
          intro hv
          rw [if_neg (by simp [hv])] at hs8
          rw [hs8] at hsize
          split_ifs at hsize <;> omega
        rw [if_pos (by simpa using hclip)] at hr8 hs8
        unfold ExtMetadataBlockLevel8.write at hw
        simp only [bind, Except.bind] at hw
        rw [show ExtMetadataBlockLevel8.validate
            { ExtMetadataBlockLevel8.default with
              target_display_index := v1, trim_slope := v2, trim_offset := v3
              trim_power := v4, trim_chroma_weight := v5, trim_saturation_gain := v6
              ms_weight := v7, target_mid_contrast := v8, clip_trim := v9 } = .ok () from by
          unfold ExtMetadataBlockLevel8.validate MAX_12_BIT_VALUE
          rw [if_pos]
          refine ⟨?_, ?_, ?_, ?_, ?_, ?_, ?_, ?_⟩ <;>
            simp only [ExtMetadataBlockLevel8.default] <;> omega] at hw
        dsimp only at hw
        rw [hs8] at hw
        rw [if_neg (by omega), if_neg (by omega), if_pos (by omega),
          if_pos (by omega)] at hw
        simp only [Except.ok.injEq] at hw
        subst hw
        rw [hr8]
        refine ⟨?_, ?_, ?_⟩
        · rw [e1, e2, e3, e4, e5, e6, e7, e8, e9]
          simp
        · omega
        · simp [bitsOfNat_length]
      case pos =>
        rw [if_pos c3] at h
        cases h10 : BitReader.getN 8 r9 with
        | error e => rw [h10] at h; exact absurd h (by simp)
        | ok p10 =>
        obtain ⟨v10, r10⟩ := p10
        rw [h10] at h
        try dsimp only at h
        cases h11 : BitReader.getN 8 r10 with
        | error e => rw [h11] at h; exact absurd h (by simp)
        | ok p11 =>
        obtain ⟨v11, r11⟩ := p11
        rw [h11] at h
        try dsimp only at h
        cases h12 : BitReader.getN 8 r11 with
        | error e => rw [h12] at h; exact absurd h (by simp)
        | ok p12 =>
        obtain ⟨v12, r12⟩ := p12
        rw [h12] at h
        try dsimp only at h
        cases h13 : BitReader.getN 8 r12 with
        | error e => rw [h13] at h; exact absurd h (by simp)
        | ok p13 =>
        obtain ⟨v13, r13⟩ := p13
        rw [h13] at h
        try dsimp only at h
        cases h14 : BitReader.getN 8 r13 with
        | error e => rw [h14] at h; exact absurd h (by simp)
        | ok p14 =>
        obtain ⟨v14, r14⟩ := p14
        rw [h14] at h
        try dsimp only at h
        cases h15 : BitReader.getN 8 r14 with
        | error e => rw [h15] at h; exact absurd h (by simp)
        | ok p15 =>
        obtain ⟨v15, r15⟩ := p15
        rw [h15] at h
        try dsimp only at h
        obtain ⟨e10, lt10, q10⟩ := BitReader.getN_ok h10
        obtain ⟨e11, lt11, q11⟩ := BitReader.getN_ok h11
        obtain ⟨e12, lt12, q12⟩ := BitReader.getN_ok h12
        obtain ⟨e13, lt13, q13⟩ := BitReader.getN_ok h13
        obtain ⟨e14, lt14, q14⟩ := BitReader.getN_ok h14
        obtain ⟨e15, lt15, q15⟩ := BitReader.getN_ok h15
        by_cases c4 : len > 19
        case neg =>
          -- 19-byte form: the saturation vector group is read
          rw [if_neg c4] at h
          try dsimp only at h
          simp only [Except.ok.injEq, Prod.mk.injEq] at h
          obtain ⟨hb, hr⟩ := h
          subst hb; subst hr
          obtain ⟨hr8, hs8⟩ := l8_size_from_defaults
            { ExtMetadataBlockLevel8.default with
              target_display_index := v1, trim_slope := v2, trim_offset := v3
              trim_power := v4, trim_chroma_weight := v5, trim_saturation_gain := v6
              ms_weight := v7, target_mid_contrast := v8, clip_trim := v9
              saturation_vector_field0 := v10, saturation_vector_field1 := v11
              saturation_vector_field2 := v12, saturation_vector_field3 := v13
              saturation_vector_field4 := v14, saturation_vector_field5 := v15 }
          rw [if_neg (by unfold l8HueModified; simp [ExtMetadataBlockLevel8.default])] at hr8 hs8
          have hsat : l8SatModified
              { ExtMetadataBlockLevel8.default with
                target_display_index := v1, trim_slope := v2, trim_offset := v3
                trim_power := v4, trim_chroma_weight := v5, trim_saturation_gain := v6
                ms_weight := v7, target_mid_contrast := v8, clip_trim := v9
                saturation_vector_field0 := v10, saturation_vector_field1 := v11
                saturation_vector_field2 := v12, saturation_vector_field3 := v13
                saturation_vector_field4 := v14, saturation_vector_field5 := v15 } := by
            by_contra hns
            rw [if_neg hns] at hs8
            rw [hs8] at hsize
            split_ifs at hsize <;> omega
          rw [if_pos hsat] at hr8 hs8
          unfold ExtMetadataBlockLevel8.write at hw
          simp only [bind, Except.bind] at hw
          rw [show ExtMetadataBlockLevel8.validate
              { ExtMetadataBlockLevel8.default with
                target_display_index := v1, trim_slope := v2, trim_offset := v3
                trim_power := v4, trim_chroma_weight := v5, trim_saturation_gain := v6
                ms_weight := v7, target_mid_contrast := v8, clip_trim := v9
                saturation_vector_field0 := v10, saturation_vector_field1 := v11
                saturation_vector_field2 := v12, saturation_vector_field3 := v13
                saturation_vector_field4 := v14, saturation_vector_field5 := v15 } =
              .ok () from by
            unfold ExtMetadataBlockLevel8.validate MAX_12_BIT_VALUE
            rw [if_pos]
            refine ⟨?_, ?_, ?_, ?_, ?_, ?_, ?_, ?_⟩ <;>
              simp only [ExtMetadataBlockLevel8.default] <;> omega] at hw
          dsimp only at hw
          rw [hs8] at hw
          rw [if_neg (by omega), if_pos (by omega), if_pos (by omega),
            if_pos (by omega)] at hw
          simp only [Except.ok.injEq] at hw
          subst hw
          rw [hr8]
          refine ⟨?_, ?_, ?_⟩
          · rw [e1, e2, e3, e4, e5, e6, e7, e8, e9, e10, e11, e12, e13, e14, e15]
            simp
          · omega
          · simp [bitsOfNat_length]
        case pos =>
          rw [if_pos c4] at h
          cases h16 : BitReader.getN 8 r15 with
          | error e => rw [h16] at h; exact absurd h (by simp)
          | ok p16 =>
          obtain ⟨v16, r16⟩ := p16
          rw [h16] at h
          try dsimp only at h
          cases h17 : BitReader.getN 8 r16 with
          | error e => rw [h17] at h; exact absurd h (by simp)
          | ok p17 =>
          obtain ⟨v17, r17⟩ := p17
          rw [h17] at h
          try dsimp only at h
          cases h18 : BitReader.getN 8 r17 with
          | error e => rw [h18] at h; exact absurd h (by simp)
          | ok p18 =>
          obtain ⟨v18, r18⟩ := p18
          rw [h18] at h
          try dsimp only at h
          cases h19 : BitReader.getN 8 r18 with
          | error e => rw [h19] at h; exact absurd h (by simp)
          | ok p19 =>
          obtain ⟨v19, r19⟩ := p19
          rw [h19] at h
          try dsimp only at h
          cases h20 : BitReader.getN 8 r19 with
          | error e => rw [h20] at h; exact absurd h (by simp)
          | ok p20 =>
          obtain ⟨v20, r20⟩ := p20
          rw [h20] at h
          try dsimp only at h
          cases h21 : BitReader.getN 8 r20 with
          | error e => rw [h21] at h; exact absurd h (by simp)
          | ok p21 =>
          obtain ⟨v21, r21⟩ := p21
          rw [h21] at h
          try dsimp only at h
          obtain ⟨e16, lt16, q16⟩ := BitReader.getN_ok h16
          obtain ⟨e17, lt17, q17⟩ := BitReader.getN_ok h17
          obtain ⟨e18, lt18, q18⟩ := BitReader.getN_ok h18
          obtain ⟨e19, lt19, q19⟩ := BitReader.getN_ok h19
          obtain ⟨e20, lt20, q20⟩ := BitReader.getN_ok h20
          obtain ⟨e21, lt21, q21⟩ := BitReader.getN_ok h21
          simp only [Except.ok.injEq, Prod.mk.injEq] at h
          obtain ⟨hb, hr⟩ := h
          subst hb; subst hr
          obtain ⟨hr8, hs8⟩ := l8_size_from_defaults
            { ExtMetadataBlockLevel8.default with
              target_display_index := v1, trim_slope := v2, trim_offset := v3
              trim_power := v4, trim_chroma_weight := v5, trim_saturation_gain := v6
              ms_weight := v7, target_mid_contrast := v8, clip_trim := v9
              saturation_vector_field0 := v10, saturation_vector_field1 := v11
              saturation_vector_field2 := v12, saturation_vector_field3 := v13
              saturation_vector_field4 := v14, saturation_vector_field5 := v15
              hue_vector_field0 := v16, hue_vector_field1 := v17
              hue_vector_field2 := v18, hue_vector_field3 := v19
              hue_vector_field4 := v20, hue_vector_field5 := v21 }
          have hhue : l8HueModified
              { ExtMetadataBlockLevel8.default with
                target_display_index := v1, trim_slope := v2, trim_offset := v3
                trim_power := v4, trim_chroma_weight := v5, trim_saturation_gain := v6
                ms_weight := v7, target_mid_contrast := v8, clip_trim := v9
                saturation_vector_field0 := v10, saturation_vector_field1 := v11
                saturation_vector_field2 := v12, saturation_vector_field3 := v13
                saturation_vector_field4 := v14, saturation_vector_field5 := v15
                hue_vector_field0 := v16, hue_vector_field1 := v17
                hue_vector_field2 := v18, hue_vector_field3 := v19
                hue_vector_field4 := v20, hue_vector_field5 := v21 } := by
            by_contra hnh
            rw [if_neg hnh] at hs8
            rw [hs8] at hsize
            split_ifs at hsize <;> omega
          rw [if_pos hhue] at hr8 hs8
          unfold ExtMetadataBlockLevel8.write at hw
          simp only [bind, Except.bind] at hw
          rw [show ExtMetadataBlockLevel8.validate
              { ExtMetadataBlockLevel8.default with
                target_display_index := v1, trim_slope := v2, trim_offset := v3
                trim_power := v4, trim_chroma_weight := v5, trim_saturation_gain := v6
                ms_weight := v7, target_mid_contrast := v8, clip_trim := v9
                saturation_vector_field0 := v10, saturation_vector_field1 := v11
                saturation_vector_field2 := v12, saturation_vector_field3 := v13
                saturation_vector_field4 := v14, saturation_vector_field5 := v15
                hue_vector_field0 := v16, hue_vector_field1 := v17
                hue_vector_field2 := v18, hue_vector_field3 := v19
                hue_vector_field4 := v20, hue_vector_field5 := v21 } =
              .ok () from by
            unfold ExtMetadataBlockLevel8.validate MAX_12_BIT_VALUE
            rw [if_pos]
            refine ⟨?_, ?_, ?_, ?_, ?_, ?_, ?_, ?_⟩ <;>
              simp only [ExtMetadataBlockLevel8.default] <;> omega] at hw
          dsimp only at hw
          rw [hs8] at hw
          rw [if_pos (by omega), if_pos (by omega), if_pos (by omega),
            if_pos (by omega)] at hw
          simp only [Except.ok.injEq] at hw
          subst hw
          rw [hr8]
          refine ⟨?_, ?_, ?_⟩
          · rw [e1, e2, e3, e4, e5, e6, e7, e8, e9, e10, e11, e12, e13, e14, e15,
              e16, e17, e18, e19, e20, e21]
            simp
          · omega
          · simp [bitsOfNat_length]

/-! ## C1: parse/write canonicality of the envelopes -/


/-- For every L8 block, the recomputed byte size is a legal length and the
per-length tables at its index return the block's own bit and required-bit
counts (`possible_*` tables, level8.rs / blocks/mod.rs). -/
theorem l8_table (b : ExtMetadataBlockLevel8) :
    ExtMetadataBlockLevel8.possible_bytes_size.contains b.bytes_size = true ∧
    ExtMetadataBlockLevel8.possible_bits_size.getD
      (ExtMetadataBlockLevel8.possible_bytes_size.indexOf b.bytes_size) 0 =
      b.bytes_size * 8 ∧
    ExtMetadataBlockLevel8.possible_required_bits.getD
      (ExtMetadataBlockLevel8.possible_bytes_size.indexOf b.bytes_size) 0 =
      b.required_bits := by
  obtain ⟨hr, hs⟩ := l8_size_from_defaults b
  rw [hr, hs]
  split_ifs <;> decide

/-- Table lookup agreement for L9 blocks (level9.rs). -/
theorem l9_table (b : ExtMetadataBlockLevel9) :
    ExtMetadataBlockLevel9.possible_bytes_size.contains b.bytes_size = true ∧
    ExtMetadataBlockLevel9.possible_bits_size.getD
      (ExtMetadataBlockLevel9.possible_bytes_size.indexOf b.bytes_size) 0 =
      b.bytes_size * 8 ∧
    ExtMetadataBlockLevel9.possible_required_bits.getD
      (ExtMetadataBlockLevel9.possible_bytes_size.indexOf b.bytes_size) 0 =
      b.required_bits := by
  unfold ExtMetadataBlockLevel9.bytes_size ExtMetadataBlockLevel9.required_bits
  split_ifs <;> decide

/-- Table lookup agreement for L10 blocks (level10.rs). -/
theorem l10_table (b : ExtMetadataBlockLevel10) :
    ExtMetadataBlockLevel10.possible_bytes_size.contains b.bytes_size = true ∧
    ExtMetadataBlockLevel10.possible_bits_size.getD
      (ExtMetadataBlockLevel10.possible_bytes_size.indexOf b.bytes_size) 0 =
      b.bytes_size * 8 ∧
    ExtMetadataBlockLevel10.possible_required_bits.getD
      (ExtMetadataBlockLevel10.possible_bytes_size.indexOf b.bytes_size) 0 =
      b.required_bits := by
  unfold ExtMetadataBlockLevel10.bytes_size ExtMetadataBlockLevel10.required_bits
  split_ifs <;> decide

/-- A CM v2.9 `parse_block` that succeeds consumed exactly one
`writeBlockSegment` of the parsed block, provided the declared length is the
block's recomputed length and the block's payload writes successfully. -/
theorem parseBlockV29_canonical {r r' : BitReader} {len : Nat}
    {block : ExtMetadataBlock} {w : Bits}
    (hp : parseBlockV29 r = .ok ((len, block), r'))
    (hlen : len = block.length_bytes)
    (hw : ExtMetadataBlock.write block = .ok w) :
    ∃ seg, writeBlockSegment block = .ok seg ∧ r.bits = seg ++ r'.bits ∧
      r'.pos = r.pos + seg.length := by
  unfold parseBlockV29 at hp
  simp only [bind, Except.bind] at hp
  cases hue : BitReader.getUe r with
  | error e => rw [hue] at hp; exact absurd hp (by simp)
  | ok pu =>
  obtain ⟨len0, r1⟩ := pu
  rw [hue] at hp
  try dsimp only at hp
  cases hlv : BitReader.getN 8 r1 with
  | error e => rw [hlv] at hp; exact absurd hp (by simp)
  | ok pl =>
  obtain ⟨lvl, r2⟩ := pl
  rw [hlv] at hp
  try dsimp only at hp
  cases hbd : blockDispatchV29 lvl len0 r2 with
  | error e => rw [hbd] at hp; exact absurd hp (by simp)
  | ok pb =>
  obtain ⟨block0, r3⟩ := pb
  rw [hbd] at hp
  try dsimp only at hp
  cases hvr : validateAndReadRemaining V29_VARIABLE_LENGTH_BLOCK_LEVELS
      V29_ALLOWED_BLOCK_LEVELS block0 len0 r3 with
  | error e => rw [hvr] at hp; exact absurd hp (by simp)
  | ok r4 =>
  rw [hvr] at hp
  try dsimp only at hp
  simp only [Except.ok.injEq, Prod.mk.injEq] at hp
  obtain ⟨⟨hl0, hb0⟩, hr4⟩ := hp
  subst hl0
  subst hb0
  subst hr4
  unfold blockDispatchV29 at hbd
  split at hbd
  · -- level 1
    simp only [bind, Except.bind] at hbd
    cases hc : ExtMetadataBlockLevel1.parse r2 with
    | error e => rw [hc] at hbd; exact absurd hbd (by simp)
    | ok pc =>
    obtain ⟨bb, rc⟩ := pc
    rw [hc] at hbd
    try dsimp only at hbd
    simp only [Except.ok.injEq, Prod.mk.injEq] at hbd
    obtain ⟨hb0, hr3⟩ := hbd
    subst hb0
    subst hr3
    unfold validateAndReadRemaining validateCorrectDmData at hvr
    dsimp only at hvr
    rw [show V29_VARIABLE_LENGTH_BLOCK_LEVELS.contains (ExtMetadataBlock.Level1 bb).level = false from rfl,
      show V29_ALLOWED_BLOCK_LEVELS.contains (ExtMetadataBlock.Level1 bb).level = true from rfl] at hvr
    simp only [Bool.false_eq_true, if_false, if_true, decide_eq_true_eq] at hvr
    rw [if_neg (not_not_intro hlen)] at hvr
    obtain ⟨hz, hzpos⟩ := BitReader.readZeros_ok hvr
    obtain ⟨hueb, huep⟩ := BitReader.getUe_ok hue
    obtain ⟨hlvb, hlvlt, hlvp⟩ := BitReader.getN_ok hlv
    obtain ⟨hbits, hpos, hwlen⟩ := ExtMetadataBlockLevel1_parse_canonical hc hw
    refine ⟨ueBits len0 ++ bitsOfNat 8 1 ++ w ++
      List.replicate ((ExtMetadataBlock.Level1 bb).length_bits -
        (ExtMetadataBlock.Level1 bb).required_bits) false, ?_, ?_, ?_⟩
    · unfold writeBlockSegment
      simp only [bind, Except.bind]
      rw [hw]
      try dsimp only
      rw [hlen]
      rfl
    · rw [hueb, hlvb, hbits, hz]
      simp
    · simp only [List.length_append, bitsOfNat_length, List.length_replicate]
      omega
  · -- level 2
    simp only [bind, Except.bind] at hbd
    cases hc : ExtMetadataBlockLevel2.parse r2 with
    | error e => rw [hc] at hbd; exact absurd hbd (by simp)
    | ok pc =>
    obtain ⟨bb, rc⟩ := pc
    rw [hc] at hbd
    try dsimp only at hbd
    simp only [Except.ok.injEq, Prod.mk.injEq] at hbd
    obtain ⟨hb0, hr3⟩ := hbd
    subst hb0
    subst hr3
    unfold validateAndReadRemaining validateCorrectDmData at hvr
    dsimp only at hvr
    rw [show V29_VARIABLE_LENGTH_BLOCK_LEVELS.contains (ExtMetadataBlock.Level2 bb).level = false from rfl,
      show V29_ALLOWED_BLOCK_LEVELS.contains (ExtMetadataBlock.Level2 bb).level = true from rfl] at hvr
    simp only [Bool.false_eq_true, if_false, if_true, decide_eq_true_eq] at hvr
    rw [if_neg (not_not_intro hlen)] at hvr
    obtain ⟨hz, hzpos⟩ := BitReader.readZeros_ok hvr
    obtain ⟨hueb, huep⟩ := BitReader.getUe_ok hue
    obtain ⟨hlvb, hlvlt, hlvp⟩ := BitReader.getN_ok hlv
    obtain ⟨hbits, hpos, hwlen⟩ := ExtMetadataBlockLevel2_parse_canonical hc hw
    refine ⟨ueBits len0 ++ bitsOfNat 8 2 ++ w ++
      List.replicate ((ExtMetadataBlock.Level2 bb).length_bits -
        (ExtMetadataBlock.Level2 bb).required_bits) false, ?_, ?_, ?_⟩
    · unfold writeBlockSegment
      simp only [bind, Except.bind]
      rw [hw]
      try dsimp only
      rw [hlen]
      rfl
    · rw [hueb, hlvb, hbits, hz]
      simp
    · simp only [List.length_append, bitsOfNat_length, List.length_replicate]
      omega
  · -- level 3
    simp only [bind, Except.bind] at hbd
    cases hc : ExtMetadataBlockLevel3.parse r2 with
    | error e => rw [hc] at hbd; exact absurd hbd (by simp)
    | ok pc =>
    obtain ⟨bb, rc⟩ := pc
    rw [hc] at hbd
    try dsimp only at hbd
    simp only [Except.ok.injEq, Prod.mk.injEq] at hbd
    obtain ⟨hb0, hr3⟩ := hbd
    subst hb0
    subst hr3
    unfold validateAndReadRemaining validateCorrectDmData at hvr
    dsimp only at hvr
    rw [show V29_VARIABLE_LENGTH_BLOCK_LEVELS.contains (ExtMetadataBlock.Level3 bb).level = false from rfl,
      show V29_ALLOWED_BLOCK_LEVELS.contains (ExtMetadataBlock.Level3 bb).level = true from rfl] at hvr
    simp only [Bool.false_eq_true, if_false, if_true, decide_eq_true_eq] at hvr
    rw [if_neg (not_not_intro hlen)] at hvr
    obtain ⟨hz, hzpos⟩ := BitReader.readZeros_ok hvr
    obtain ⟨hueb, huep⟩ := BitReader.getUe_ok hue
    obtain ⟨hlvb, hlvlt, hlvp⟩ := BitReader.getN_ok hlv
    obtain ⟨hbits, hpos, hwlen⟩ := ExtMetadataBlockLevel3_parse_canonical hc hw
    refine ⟨ueBits len0 ++ bitsOfNat 8 3 ++ w ++
      List.replicate ((ExtMetadataBlock.Level3 bb).length_bits -
        (ExtMetadataBlock.Level3 bb).required_bits) false, ?_, ?_, ?_⟩
    · unfold writeBlockSegment
      simp only [bind, Except.bind]
      rw [hw]
      try dsimp only
      rw [hlen]
      rfl
    · rw [hueb, hlvb, hbits, hz]
      simp
    · simp only [List.length_append, bitsOfNat_length, List.length_replicate]
      omega
  · -- level 4
    simp only [bind, Except.bind] at hbd
    cases hc : ExtMetadataBlockLevel4.parse r2 with
    | error e => rw [hc] at hbd; exact absurd hbd (by simp)
    | ok pc =>
    obtain ⟨bb, rc⟩ := pc
    rw [hc] at hbd
    try dsimp only at hbd
    simp only [Except.ok.injEq, Prod.mk.injEq] at hbd
    obtain ⟨hb0, hr3⟩ := hbd
    subst hb0
    subst hr3
    unfold validateAndReadRemaining validateCorrectDmData at hvr
    dsimp only at hvr
    rw [show V29_VARIABLE_LENGTH_BLOCK_LEVELS.contains (ExtMetadataBlock.Level4 bb).level = false from rfl,
      show V29_ALLOWED_BLOCK_LEVELS.contains (ExtMetadataBlock.Level4 bb).level = true from rfl] at hvr
    simp only [Bool.false_eq_true, if_false, if_true, decide_eq_true_eq] at hvr
    rw [if_neg (not_not_intro hlen)] at hvr
    obtain ⟨hz, hzpos⟩ := BitReader.readZeros_ok hvr
    obtain ⟨hueb, huep⟩ := BitReader.getUe_ok hue
    obtain ⟨hlvb, hlvlt, hlvp⟩ := BitReader.getN_ok hlv
    obtain ⟨hbits, hpos, hwlen⟩ := ExtMetadataBlockLevel4_parse_canonical hc hw
    refine ⟨ueBits len0 ++ bitsOfNat 8 4 ++ w ++
      List.replicate ((ExtMetadataBlock.Level4 bb).length_bits -
        (ExtMetadataBlock.Level4 bb).required_bits) false, ?_, ?_, ?_⟩
    · unfold writeBlockSegment
      simp only [bind, Except.bind]
      rw [hw]
      try dsimp only
      rw [hlen]
      rfl
    · rw [hueb, hlvb, hbits, hz]
      simp
    · simp only [List.length_append, bitsOfNat_length, List.length_replicate]
      omega
  · -- level 5
    simp only [bind, Except.bind] at hbd
    cases hc : ExtMetadataBlockLevel5.parse r2 with
    | error e => rw [hc] at hbd; exact absurd hbd (by simp)
    | ok pc =>
    obtain ⟨bb, rc⟩ := pc
    rw [hc] at hbd
    try dsimp only at hbd
    simp only [Except.ok.injEq, Prod.mk.injEq] at hbd
    obtain ⟨hb0, hr3⟩ := hbd
    subst hb0
    subst hr3
    unfold validateAndReadRemaining validateCorrectDmData at hvr
    dsimp only at hvr
    rw [show V29_VARIABLE_LENGTH_BLOCK_LEVELS.contains (ExtMetadataBlock.Level5 bb).level = false from rfl,
      show V29_ALLOWED_BLOCK_LEVELS.contains (ExtMetadataBlock.Level5 bb).level = true from rfl] at hvr
    simp only [Bool.false_eq_true, if_false, if_true, decide_eq_true_eq] at hvr
    rw [if_neg (not_not_intro hlen)] at hvr
    obtain ⟨hz, hzpos⟩ := BitReader.readZeros_ok hvr
    obtain ⟨hueb, huep⟩ := BitReader.getUe_ok hue
    obtain ⟨hlvb, hlvlt, hlvp⟩ := BitReader.getN_ok hlv
    obtain ⟨hbits, hpos, hwlen⟩ := ExtMetadataBlockLevel5_parse_canonical hc hw
    refine ⟨ueBits len0 ++ bitsOfNat 8 5 ++ w ++
      List.replicate ((ExtMetadataBlock.Level5 bb).length_bits -
        (ExtMetadataBlock.Level5 bb).required_bits) false, ?_, ?_, ?_⟩
    · unfold writeBlockSegment
      simp only [bind, Except.bind]
      rw [hw]
      try dsimp only
      rw [hlen]
      rfl
    · rw [hueb, hlvb, hbits, hz]
      simp
    · simp only [List.length_append, bitsOfNat_length, List.length_replicate]
      omega
  · -- level 6
    simp only [bind, Except.bind] at hbd
    cases hc : ExtMetadataBlockLevel6.parse r2 with
    | error e => rw [hc] at hbd; exact absurd hbd (by simp)
    | ok pc =>
    obtain ⟨bb, rc⟩ := pc
    rw [hc] at hbd
    try dsimp only at hbd
    simp only [Except.ok.injEq, Prod.mk.injEq] at hbd
    obtain ⟨hb0, hr3⟩ := hbd
    subst hb0
    subst hr3
    unfold validateAndReadRemaining validateCorrectDmData at hvr
    dsimp only at hvr
    rw [show V29_VARIABLE_LENGTH_BLOCK_LEVELS.contains (ExtMetadataBlock.Level6 bb).level = false from rfl,
      show V29_ALLOWED_BLOCK_LEVELS.contains (ExtMetadataBlock.Level6 bb).level = true from rfl] at hvr
    simp only [Bool.false_eq_true, if_false, if_true, decide_eq_true_eq] at hvr
    rw [if_neg (not_not_intro hlen)] at hvr
    obtain ⟨hz, hzpos⟩ := BitReader.readZeros_ok hvr
    obtain ⟨hueb, huep⟩ := BitReader.getUe_ok hue
    obtain ⟨hlvb, hlvlt, hlvp⟩ := BitReader.getN_ok hlv
    obtain ⟨hbits, hpos, hwlen⟩ := ExtMetadataBlockLevel6_parse_canonical hc hw
    refine ⟨ueBits len0 ++ bitsOfNat 8 6 ++ w ++
      List.replicate ((ExtMetadataBlock.Level6 bb).length_bits -
        (ExtMetadataBlock.Level6 bb).required_bits) false, ?_, ?_, ?_⟩
    · unfold writeBlockSegment
      simp only [bind, Except.bind]
      rw [hw]
      try dsimp only
      rw [hlen]
      rfl
    · rw [hueb, hlvb, hbits, hz]
      simp
    · simp only [List.length_append, bitsOfNat_length, List.length_replicate]
      omega
  · -- reserved fallback: the level is not allowed, so validation must fail
    simp only [bind, Except.bind] at hbd
    cases hc : ReservedExtMetadataBlock.parse len0 lvl r2 with
    | error e => rw [hc] at hbd; exact absurd hbd (by simp)
    | ok pc =>
    obtain ⟨bb, rc⟩ := pc
    rw [hc] at hbd
    try dsimp only at hbd
    simp only [Except.ok.injEq, Prod.mk.injEq] at hbd
    obtain ⟨hb0, hr3⟩ := hbd
    subst hb0
    subst hr3
    exfalso
    unfold ReservedExtMetadataBlock.parse at hc
    simp only [bind, Except.bind] at hc
    cases hg : BitReader.getBits (8 * len0) r2 with
    | error e => rw [hg] at hc; exact absurd hc (by simp)
    | ok pg =>
    obtain ⟨raw, rg⟩ := pg
    rw [hg] at hc
    try dsimp only at hc
    simp only [Except.ok.injEq, Prod.mk.injEq] at hc
    obtain ⟨hbb, hrc⟩ := hc
    subst hbb
    rename_i hn1 hn2 hn3 hn4 hn5 hn6
    have hA : V29_ALLOWED_BLOCK_LEVELS.contains
        (ExtMetadataBlock.Reserved { level := lvl, data := raw }).level = false := by
      simp [V29_ALLOWED_BLOCK_LEVELS, ExtMetadataBlock.level, ReservedExtMetadataBlock.level]
      exact ⟨hn1, hn2, hn3, hn4, hn5, hn6⟩
    unfold validateAndReadRemaining validateCorrectDmData at hvr
    dsimp only at hvr
    rw [show V29_VARIABLE_LENGTH_BLOCK_LEVELS.contains
      (ExtMetadataBlock.Reserved { level := lvl, data := raw }).level = false from rfl,
      hA] at hvr
    simp only [Bool.false_eq_true, if_false, bind, Except.bind] at hvr
    split at hvr
    · exact absurd hvr (by simp)
    · exact absurd hvr (by simp)

/-- A CM v4.0 `parse_block` that succeeds consumed exactly one
`writeBlockSegment` of the parsed block, under the same conditions. -/
theorem parseBlockV40_canonical {r r' : BitReader} {len : Nat}
    {block : ExtMetadataBlock} {w : Bits}
    (hp : parseBlockV40 r = .ok ((len, block), r'))
    (hlen : len = block.length_bytes)
    (hw : ExtMetadataBlock.write block = .ok w) :
    ∃ seg, writeBlockSegment block = .ok seg ∧ r.bits = seg ++ r'.bits ∧
      r'.pos = r.pos + seg.length := by
  unfold parseBlockV40 at hp
  simp only [bind, Except.bind] at hp
  cases hue : BitReader.getUe r with
  | error e => rw [hue] at hp; exact absurd hp (by simp)
  | ok pu =>
  obtain ⟨len0, r1⟩ := pu
  rw [hue] at hp
  try dsimp only at hp
  cases hlv : BitReader.getN 8 r1 with
  | error e => rw [hlv] at hp; exact absurd hp (by simp)
  | ok pl =>
  obtain ⟨lvl, r2⟩ := pl
  rw [hlv] at hp
  try dsimp only at hp
  cases hbd : blockDispatchV40 lvl len0 r2 with
  | error e => rw [hbd] at hp; exact absurd hp (by simp)
  | ok pb =>
  obtain ⟨block0, r3⟩ := pb
  rw [hbd] at hp
  try dsimp only at hp
  cases hvr : validateAndReadRemaining V40_VARIABLE_LENGTH_BLOCK_LEVELS
      V40_ALLOWED_BLOCK_LEVELS block0 len0 r3 with
  | error e => rw [hvr] at hp; exact absurd hp (by simp)
  | ok r4 =>
  rw [hvr] at hp
  try dsimp only at hp
  simp only [Except.ok.injEq, Prod.mk.injEq] at hp
  obtain ⟨⟨hl0, hb0⟩, hr4⟩ := hp
  subst hl0
  subst hb0
  subst hr4
  unfold blockDispatchV40 at hbd
  split at hbd
  · -- level 3
    simp only [bind, Except.bind] at hbd
    cases hc : ExtMetadataBlockLevel3.parse r2 with
    | error e => rw [hc] at hbd; exact absurd hbd (by simp)
    | ok pc =>
    obtain ⟨bb, rc⟩ := pc
    rw [hc] at hbd
    try dsimp only at hbd
    simp only [Except.ok.injEq, Prod.mk.injEq] at hbd
    obtain ⟨hb0, hr3⟩ := hbd
    subst hb0
    subst hr3
    unfold validateAndReadRemaining validateCorrectDmData at hvr
    dsimp only at hvr
    rw [show V40_VARIABLE_LENGTH_BLOCK_LEVELS.contains (ExtMetadataBlock.Level3 bb).level = false from rfl,
      show V40_ALLOWED_BLOCK_LEVELS.contains (ExtMetadataBlock.Level3 bb).level = true from rfl] at hvr
    simp only [Bool.false_eq_true, if_false, if_true, decide_eq_true_eq] at hvr
    rw [if_neg (not_not_intro hlen)] at hvr
    obtain ⟨hz, hzpos⟩ := BitReader.readZeros_ok hvr
    obtain ⟨hueb, huep⟩ := BitReader.getUe_ok hue
    obtain ⟨hlvb, hlvlt, hlvp⟩ := BitReader.getN_ok hlv
    obtain ⟨hbits, hpos, hwlen⟩ := ExtMetadataBlockLevel3_parse_canonical hc hw
    refine ⟨ueBits len0 ++ bitsOfNat 8 3 ++ w ++
      List.replicate ((ExtMetadataBlock.Level3 bb).length_bits -
        (ExtMetadataBlock.Level3 bb).required_bits) false, ?_, ?_, ?_⟩
    · unfold writeBlockSegment
      simp only [bind, Except.bind]
      rw [hw]
      try dsimp only
      rw [hlen]
      rfl
    · rw [hueb, hlvb, hbits, hz]
      simp
    · simp only [List.length_append, bitsOfNat_length, List.length_replicate]
      omega
  · -- level 8 (variable length)
    simp only [bind, Except.bind] at hbd
    cases hc : ExtMetadataBlockLevel8.parse len0 r2 with
    | error e => rw [hc] at hbd; exact absurd hbd (by simp)
    | ok pc =>
    obtain ⟨bb, rc⟩ := pc
    rw [hc] at hbd
    try dsimp only at hbd
    simp only [Except.ok.injEq, Prod.mk.injEq] at hbd
    obtain ⟨hb0, hr3⟩ := hbd
    subst hb0
    subst hr3
    obtain ⟨hcont, hbits_t, hreq_t⟩ := l8_table bb
    have hlenv : len0 = bb.bytes_size := hlen
    unfold validateAndReadRemaining validateCorrectDmData at hvr
    dsimp only at hvr
    rw [show V40_VARIABLE_LENGTH_BLOCK_LEVELS.contains (ExtMetadataBlock.Level8 bb).level = true from rfl,
      show V40_ALLOWED_BLOCK_LEVELS.contains (ExtMetadataBlock.Level8 bb).level = true from rfl] at hvr
    simp only [Bool.false_eq_true, if_false, if_true, decide_eq_true_eq] at hvr
    have hcc : (ExtMetadataBlock.Level8 bb).possible_length_bytes.contains len0 = true := by
      rw [hlenv]; exact hcont
    rw [hcc] at hvr
    rw [if_neg (by simp)] at hvr
    rw [if_pos rfl] at hvr
    rw [hlenv] at hvr
    rw [show (ExtMetadataBlock.Level8 bb).possible_length_bytes = ExtMetadataBlockLevel8.possible_bytes_size from rfl,
      show (ExtMetadataBlock.Level8 bb).possible_length_bits = ExtMetadataBlockLevel8.possible_bits_size from rfl,
      show (ExtMetadataBlock.Level8 bb).possible_required_bits = ExtMetadataBlockLevel8.possible_required_bits from rfl] at hvr
    rw [hbits_t, hreq_t] at hvr
    obtain ⟨hz, hzpos⟩ := BitReader.readZeros_ok hvr
    obtain ⟨hueb, huep⟩ := BitReader.getUe_ok hue
    obtain ⟨hlvb, hlvlt, hlvp⟩ := BitReader.getN_ok hlv
    obtain ⟨hbits, hpos, hwlen⟩ := ExtMetadataBlockLevel8_parse_canonical hc hlenv hw
    refine ⟨ueBits len0 ++ bitsOfNat 8 8 ++ w ++
      List.replicate (bb.bytes_size * 8 - bb.required_bits) false, ?_, ?_, ?_⟩
    · unfold writeBlockSegment
      simp only [bind, Except.bind]
      rw [hw]
      try dsimp only
      rw [hlen]
      rfl
    · rw [hueb, hlvb, hbits, hz]
      simp
    · simp only [List.length_append, bitsOfNat_length, List.length_replicate]
      omega
  · -- level 9 (variable length)
    simp only [bind, Except.bind] at hbd
    cases hc : ExtMetadataBlockLevel9.parse len0 r2 with
    | error e => rw [hc] at hbd; exact absurd hbd (by simp)
    | ok pc =>
    obtain ⟨bb, rc⟩ := pc
    rw [hc] at hbd
    try dsimp only at hbd
    simp only [Except.ok.injEq, Prod.mk.injEq] at hbd
    obtain ⟨hb0, hr3⟩ := hbd
    subst hb0
    subst hr3
    obtain ⟨hcont, hbits_t, hreq_t⟩ := l9_table bb
    have hlenv : len0 = bb.bytes_size := hlen
    unfold validateAndReadRemaining validateCorrectDmData at hvr
    dsimp only at hvr
    rw [show V40_VARIABLE_LENGTH_BLOCK_LEVELS.contains (ExtMetadataBlock.Level9 bb).level = true from rfl,
      show V40_ALLOWED_BLOCK_LEVELS.contains (ExtMetadataBlock.Level9 bb).level = true from rfl] at hvr
    simp only [Bool.false_eq_true, if_false, if_true, decide_eq_true_eq] at hvr
    have hcc : (ExtMetadataBlock.Level9 bb).possible_length_bytes.contains len0 = true := by
      rw [hlenv]; exact hcont
    rw [hcc] at hvr
    rw [if_neg (by simp)] at hvr
    rw [if_pos rfl] at hvr
    rw [hlenv] at hvr
    rw [show (ExtMetadataBlock.Level9 bb).possible_length_bytes = ExtMetadataBlockLevel9.possible_bytes_size from rfl,
      show (ExtMetadataBlock.Level9 bb).possible_length_bits = ExtMetadataBlockLevel9.possible_bits_size from rfl,
      show (ExtMetadataBlock.Level9 bb).possible_required_bits = ExtMetadataBlockLevel9.possible_required_bits from rfl] at hvr
    rw [hbits_t, hreq_t] at hvr
    obtain ⟨hz, hzpos⟩ := BitReader.readZeros_ok hvr
    obtain ⟨hueb, huep⟩ := BitReader.getUe_ok hue
    obtain ⟨hlvb, hlvlt, hlvp⟩ := BitReader.getN_ok hlv
    obtain ⟨hbits, hpos, hwlen, hbs⟩ := ExtMetadataBlockLevel9_parse_canonical hc hw
    refine ⟨ueBits len0 ++ bitsOfNat 8 9 ++ w ++
      List.replicate (bb.bytes_size * 8 - bb.required_bits) false, ?_, ?_, ?_⟩
    · unfold writeBlockSegment
      simp only [bind, Except.bind]
      rw [hw]
      try dsimp only
      rw [hlen]
      rfl
    · rw [hueb, hlvb, hbits, hz]
      simp
    · simp only [List.length_append, bitsOfNat_length, List.length_replicate]
      omega
  · -- level 10 (variable length)
    simp only [bind, Except.bind] at hbd
    cases hc : ExtMetadataBlockLevel10.parse len0 r2 with
    | error e => rw [hc] at hbd; exact absurd hbd (by simp)
    | ok pc =>
    obtain ⟨bb, rc⟩ := pc
    rw [hc] at hbd
    try dsimp only at hbd
    simp only [Except.ok.injEq, Prod.mk.injEq] at hbd
    obtain ⟨hb0, hr3⟩ := hbd
    subst hb0
    subst hr3
    obtain ⟨hcont, hbits_t, hreq_t⟩ := l10_table bb
    have hlenv : len0 = bb.bytes_size := hlen
    unfold validateAndReadRemaining validateCorrectDmData at hvr
    dsimp only at hvr
    rw [show V40_VARIABLE_LENGTH_BLOCK_LEVELS.contains (ExtMetadataBlock.Level10 bb).level = true from rfl,
      show V40_ALLOWED_BLOCK_LEVELS.contains (ExtMetadataBlock.Level10 bb).level = true from rfl] at hvr
    simp only [Bool.false_eq_true, if_false, if_true, decide_eq_true_eq] at hvr
    have hcc : (ExtMetadataBlock.Level10 bb).possible_length_bytes.contains len0 = true := by
      rw [hlenv]; exact hcont
    rw [hcc] at hvr
    rw [if_neg (by simp)] at hvr
    rw [if_pos rfl] at hvr
    rw [hlenv] at hvr
    rw [show (ExtMetadataBlock.Level10 bb).possible_length_bytes = ExtMetadataBlockLevel10.possible_bytes_size from rfl,
      show (ExtMetadataBlock.Level10 bb).possible_length_bits = ExtMetadataBlockLevel10.possible_bits_size from rfl,
      show (ExtMetadataBlock.Level10 bb).possible_required_bits = ExtMetadataBlockLevel10.possible_required_bits from rfl] at hvr
    rw [hbits_t, hreq_t] at hvr
    obtain ⟨hz, hzpos⟩ := BitReader.readZeros_ok hvr
    obtain ⟨hueb, huep⟩ := BitReader.getUe_ok hue
    obtain ⟨hlvb, hlvlt, hlvp⟩ := BitReader.getN_ok hlv
    obtain ⟨hbits, hpos, hwlen, hbs⟩ := ExtMetadataBlockLevel10_parse_canonical hc hw
    refine ⟨ueBits len0 ++ bitsOfNat 8 10 ++ w ++
      List.replicate (bb.bytes_size * 8 - bb.required_bits) false, ?_, ?_, ?_⟩
    · unfold writeBlockSegment
      simp only [bind, Except.bind]
      rw [hw]
      try dsimp only
      rw [hlen]
      rfl
    · rw [hueb, hlvb, hbits, hz]
      simp
    · simp only [List.length_append, bitsOfNat_length, List.length_replicate]
      omega
  · -- level 11
    simp only [bind, Except.bind] at hbd
    cases hc : ExtMetadataBlockLevel11.parse r2 with
    | error e => rw [hc] at hbd; exact absurd hbd (by simp)
    | ok pc =>
    obtain ⟨bb, rc⟩ := pc
    rw [hc] at hbd
    try dsimp only at hbd
    simp only [Except.ok.injEq, Prod.mk.injEq] at hbd
    obtain ⟨hb0, hr3⟩ := hbd
    subst hb0
    subst hr3
    unfold validateAndReadRemaining validateCorrectDmData at hvr
    dsimp only at hvr
    rw [show V40_VARIABLE_LENGTH_BLOCK_LEVELS.contains (ExtMetadataBlock.Level11 bb).level = false from rfl,
      show V40_ALLOWED_BLOCK_LEVELS.contains (ExtMetadataBlock.Level11 bb).level = true from rfl] at hvr
    simp only [Bool.false_eq_true, if_false, if_true, decide_eq_true_eq] at hvr
    rw [if_neg (not_not_intro hlen)] at hvr
    obtain ⟨hz, hzpos⟩ := BitReader.readZeros_ok hvr
    obtain ⟨hueb, huep⟩ := BitReader.getUe_ok hue
    obtain ⟨hlvb, hlvlt, hlvp⟩ := BitReader.getN_ok hlv
    obtain ⟨hbits, hpos, hwlen⟩ := ExtMetadataBlockLevel11_parse_canonical hc hw
    refine ⟨ueBits len0 ++ bitsOfNat 8 11 ++ w ++
      List.replicate ((ExtMetadataBlock.Level11 bb).length_bits -
        (ExtMetadataBlock.Level11 bb).required_bits) false, ?_, ?_, ?_⟩
    · unfold writeBlockSegment
      simp only [bind, Except.bind]
      rw [hw]
      try dsimp only
      rw [hlen]
      rfl
    · rw [hueb, hlvb, hbits, hz]
      simp
    · simp only [List.length_append, bitsOfNat_length, List.length_replicate]
      omega
  · -- level 254
    simp only [bind, Except.bind] at hbd
    cases hc : ExtMetadataBlockLevel254.parse r2 with
    | error e => rw [hc] at hbd; exact absurd hbd (by simp)
    | ok pc =>
    obtain ⟨bb, rc⟩ := pc
    rw [hc] at hbd
    try dsimp only at hbd
    simp only [Except.ok.injEq, Prod.mk.injEq] at hbd
    obtain ⟨hb0, hr3⟩ := hbd
    subst hb0
    subst hr3
    unfold validateAndReadRemaining validateCorrectDmData at hvr
    dsimp only at hvr
    rw [show V40_VARIABLE_LENGTH_BLOCK_LEVELS.contains (ExtMetadataBlock.Level254 bb).level = false from rfl,
      show V40_ALLOWED_BLOCK_LEVELS.contains (ExtMetadataBlock.Level254 bb).level = true from rfl] at hvr
    simp only [Bool.false_eq_true, if_false, if_true, decide_eq_true_eq] at hvr
    rw [if_neg (not_not_intro hlen)] at hvr
    obtain ⟨hz, hzpos⟩ := BitReader.readZeros_ok hvr
    obtain ⟨hueb, huep⟩ := BitReader.getUe_ok hue
    obtain ⟨hlvb, hlvlt, hlvp⟩ := BitReader.getN_ok hlv
    obtain ⟨hbits, hpos, hwlen⟩ := ExtMetadataBlockLevel254_parse_canonical hc hw
    refine ⟨ueBits len0 ++ bitsOfNat 8 254 ++ w ++
      List.replicate ((ExtMetadataBlock.Level254 bb).length_bits -
        (ExtMetadataBlock.Level254 bb).required_bits) false, ?_, ?_, ?_⟩
    · unfold writeBlockSegment
      simp only [bind, Except.bind]
      rw [hw]
      try dsimp only
      rw [hlen]
      rfl
    · rw [hueb, hlvb, hbits, hz]
      simp
    · simp only [List.length_append, bitsOfNat_length, List.length_replicate]
      omega
  · -- reserved fallback: the level is not allowed, so validation must fail
    simp only [bind, Except.bind] at hbd
    cases hc : ReservedExtMetadataBlock.parse len0 lvl r2 with
    | error e => rw [hc] at hbd; exact absurd hbd (by simp)
    | ok pc =>
    obtain ⟨bb, rc⟩ := pc
    rw [hc] at hbd
    try dsimp only at hbd
    simp only [Except.ok.injEq, Prod.mk.injEq] at hbd
    obtain ⟨hb0, hr3⟩ := hbd
    subst hb0
    subst hr3
    exfalso
    unfold ReservedExtMetadataBlock.parse at hc
    simp only [bind, Except.bind] at hc
    cases hg : BitReader.getBits (8 * len0) r2 with
    | error e => rw [hg] at hc; exact absurd hc (by simp)
    | ok pg =>
    obtain ⟨raw, rg⟩ := pg
    rw [hg] at hc
    try dsimp only at hc
    simp only [Except.ok.injEq, Prod.mk.injEq] at hc
    obtain ⟨hbb, hrc⟩ := hc
    subst hbb
    rename_i hn1 hn2 hn3 hn4 hn5 hn6
    have hA : V40_ALLOWED_BLOCK_LEVELS.contains
        (ExtMetadataBlock.Reserved { level := lvl, data := raw }).level = false := by
      simp [V40_ALLOWED_BLOCK_LEVELS, ExtMetadataBlock.level, ReservedExtMetadataBlock.level]
      exact ⟨hn1, hn2, hn3, hn4, hn5, hn6⟩
    have hV : V40_VARIABLE_LENGTH_BLOCK_LEVELS.contains
        (ExtMetadataBlock.Reserved { level := lvl, data := raw }).level = false := by
      simp [V40_VARIABLE_LENGTH_BLOCK_LEVELS, ExtMetadataBlock.level, ReservedExtMetadataBlock.level]
      exact ⟨hn2, hn3, hn4⟩
    unfold validateAndReadRemaining validateCorrectDmData at hvr
    dsimp only at hvr
    rw [hV, hA] at hvr
    simp only [Bool.false_eq_true, if_false, bind, Except.bind] at hvr
    split at hvr
    · exact absurd hvr (by simp)
    · exact absurd hvr (by simp)

/-- The block-parsing loop of `DmData::parse` consumed exactly the output of
the block-writing loop of `WithExtMetadataBlocks::write`, given the per-block
canonicality property of `parse_block`. -/
theorem parseBlocks_canonical
    {pb : BitReader → Except RpuError ((Nat × ExtMetadataBlock) × BitReader)}
    (canon : ∀ (r r' : BitReader) (len : Nat) (block : ExtMetadataBlock) (w : Bits),
      pb r = .ok ((len, block), r') → len = block.length_bytes →
      ExtMetadataBlock.write block = .ok w →
      ∃ seg, writeBlockSegment block = .ok seg ∧ r.bits = seg ++ r'.bits ∧
        r'.pos = r.pos + seg.length)
    {n : Nat} {r r' : BitReader} {ps : List (Nat × ExtMetadataBlock)}
    (hp : parseBlocks pb n r = .ok (ps, r'))
    (hlen : ∀ p ∈ ps, Prod.fst p = (Prod.snd p : ExtMetadataBlock).length_bytes)
    (hw : ∀ p ∈ ps, ∃ w, ExtMetadataBlock.write (Prod.snd p) = .ok w) :
    ∃ out, writeSegments (ps.map (·.2)) = .ok out ∧ r.bits = out ++ r'.bits ∧
      r'.pos = r.pos + out.length := by
  induction n generalizing r ps with
  | zero =>
      simp only [parseBlocks, Except.ok.injEq, Prod.mk.injEq] at hp
      obtain ⟨h1, h2⟩ := hp
      subst h1
      subst h2
      exact ⟨[], rfl, by simp, by simp⟩
  | succ n ih =>
      unfold parseBlocks at hp
      simp only [bind, Except.bind] at hp
      cases hb : pb r with
      | error e => rw [hb] at hp; exact absurd hp (by simp)
      | ok pq =>
      obtain ⟨q, r1⟩ := pq
      obtain ⟨len, block⟩ := q
      rw [hb] at hp
      try dsimp only at hp
      cases hrest : parseBlocks pb n r1 with
      | error e => rw [hrest] at hp; exact absurd hp (by simp)
      | ok pr =>
      obtain ⟨ps1, r2⟩ := pr
      rw [hrest] at hp
      try dsimp only at hp
      simp only [Except.ok.injEq, Prod.mk.injEq] at hp
      obtain ⟨h1, h2⟩ := hp
      subst h1
      subst h2
      obtain ⟨w, hww⟩ := hw (len, block) (by simp)
      obtain ⟨seg, hseg, hsb, hsp⟩ := canon r r1 len block w hb
        (hlen (len, block) (by simp)) hww
      obtain ⟨out1, ho1, hb1, hp1⟩ := ih hrest
        (fun p hm => hlen p (by simp [hm]))
        (fun p hm => hw p (by simp [hm]))
      refine ⟨seg ++ out1, ?_, ?_, ?_⟩
      · show writeSegments (block :: ps1.map (·.2)) = Except.ok (seg ++ out1)
        unfold writeSegments
        simp only [bind, Except.bind]
        rw [hseg]
        try dsimp only
        rw [ho1]
      · rw [hsb, hb1]
        simp
      · simp only [List.length_append]
        omega

/-- C1 (amended): for both CM v2.9 and CM v4.0 envelopes, parsing a payload
and re-serializing the parsed metadata (`DmData::parse` then
`DmData::write` started at the same bit position) reproduces the consumed
bits exactly, PROVIDED every parsed block's declared `ext_block_length`
equals the byte size recomputed from the parsed field values and every
block's payload passes its write-time validation.  Without the proviso the
claim is false — see `claimC1_counterexample`. -/
theorem claimC1_amended :
    (∀ (r r1 r2 r' : BitReader) (n : Nat) (ps : List (Nat × ExtMetadataBlock)),
      BitReader.getUe r = .ok (n, r1) →
      BitReader.readZeros (alignCount r1.pos) .dmAlignmentNonZero r1 = .ok r2 →
      parseBlocks parseBlockV29 n r2 = .ok (ps, r') →
      (∀ p ∈ ps, Prod.fst p = (Prod.snd p : ExtMetadataBlock).length_bytes) →
      (∀ p ∈ ps, ∃ w, ExtMetadataBlock.write (Prod.snd p) = .ok w) →
      ∃ out,
        DmData.parseV29 r = .ok (⟨n, ps.map (·.2)⟩, r') ∧
        DmData.writeV29 r.pos ⟨n, ps.map (·.2)⟩ = .ok out ∧
        r.bits = out ++ r'.bits) ∧
    (∀ (r r1 r2 r' : BitReader) (n : Nat) (ps : List (Nat × ExtMetadataBlock)),
      BitReader.getUe r = .ok (n, r1) →
      BitReader.readZeros (alignCount r1.pos) .dmAlignmentNonZero r1 = .ok r2 →
      parseBlocks parseBlockV40 n r2 = .ok (ps, r') →
      (∀ p ∈ ps, Prod.fst p = (Prod.snd p : ExtMetadataBlock).length_bytes) →
      (∀ p ∈ ps, ∃ w, ExtMetadataBlock.write (Prod.snd p) = .ok w) →
      ∃ out,
        DmData.parseV40 r = .ok (⟨n, ps.map (·.2)⟩, r') ∧
        DmData.writeV40 r.pos ⟨n, ps.map (·.2)⟩ = .ok out ∧
        r.bits = out ++ r'.bits) := by
  constructor
  · intro r r1 r2 r' n ps hue hz hp hlen hw
    obtain ⟨hueb, huep⟩ := BitReader.getUe_ok hue
    obtain ⟨hzb, hzp⟩ := BitReader.readZeros_ok hz
    obtain ⟨out1, ho1, hb1, hp1⟩ := parseBlocks_canonical
      (fun a b c d e hx hy hzz => parseBlockV29_canonical hx hy hzz) hp hlen hw
    refine ⟨ueBits n ++ List.replicate (alignCount r1.pos) false ++ out1, ?_, ?_, ?_⟩
    · unfold DmData.parseV29
      simp only [bind, Except.bind]
      rw [hue]
      try dsimp only
      rw [hz]
      try dsimp only
      rw [hp]
    · unfold DmData.writeV29 WithExtMetadataBlocks.write
      simp only [bind, Except.bind]
      try dsimp only
      rw [ho1]
      try dsimp only
      rw [← huep]
    · rw [hueb, hzb, hb1]
      simp
  · intro r r1 r2 r' n ps hue hz hp hlen hw
    obtain ⟨hueb, huep⟩ := BitReader.getUe_ok hue
    obtain ⟨hzb, hzp⟩ := BitReader.readZeros_ok hz
    obtain ⟨out1, ho1, hb1, hp1⟩ := parseBlocks_canonical
      (fun a b c d e hx hy hzz => parseBlockV40_canonical hx hy hzz) hp hlen hw
    refine ⟨ueBits n ++ List.replicate (alignCount r1.pos) false ++ out1, ?_, ?_, ?_⟩
    · unfold DmData.parseV40
      simp only [bind, Except.bind]
      rw [hue]
      try dsimp only
      rw [hz]
      try dsimp only
      rw [hp]
    · unfold DmData.writeV40 WithExtMetadataBlocks.write
      simp only [bind, Except.bind]
      try dsimp only
      rw [ho1]
      try dsimp only
      rw [← huep]
    · rw [hueb, hzb, hb1]
      simp

/-- Closed witness for `claimC1_amended`: a one-block CM v2.9 payload with
an L1 block round-trips bit-for-bit. -/
theorem claimC1_amended_witness :
    ∃ out,
      DmData.parseV29 ⟨0, [false, true, false, false, false, false, false, false, false, false, true, true, false, false, false, false, false, false, false, false, true, false, false, false, false, false, false, false, false, false, false, false, false, true, true, true, true, true, true, true, true, true, true, true, true, false, true, false, false, false, false, false, false, false, false, false, false, false, false, false, false]⟩ =
        .ok (⟨1, [ExtMetadataBlock.Level1 ⟨0, 4095, 1024⟩]⟩, ⟨61, []⟩) ∧
      DmData.writeV29 0 ⟨1, [ExtMetadataBlock.Level1 ⟨0, 4095, 1024⟩]⟩ = .ok out ∧
      ([false, true, false, false, false, false, false, false, false, false, true, true, false, false, false, false, false, false, false, false, true, false, false, false, false, false, false, false, false, false, false, false, false, true, true, true, true, true, true, true, true, true, true, true, true, false, true, false, false, false, false, false, false, false, false, false, false, false, false, false, false] : Bits) = out ++ [] := by
  exact claimC1_amended.1 ⟨0, [false, true, false, false, false, false, false, false, false, false, true, true, false, false, false, false, false, false, false, false, true, false, false, false, false, false, false, false, false, false, false, false, false, true, true, true, true, true, true, true, true, true, true, true, true, false, true, false, false, false, false, false, false, false, false, false, false, false, false, false, false]⟩ ⟨3, [false, false, false, false, false, false, false, true, true, false, false, false, false, false, false, false, false, true, false, false, false, false, false, false, false, false, false, false, false, false, true, true, true, true, true, true, true, true, true, true, true, true, false, true, false, false, false, false, false, false, false, false, false, false, false, false, false, false]⟩
    ⟨8, [false, false, true, true, false, false, false, false, false, false, false, false, true, false, false, false, false, false, false, false, false, false, false, false, false, true, true, true, true, true, true, true, true, true, true, true, true, false, true, false, false, false, false, false, false, false, false, false, false, false, false, false, false]⟩ ⟨61, []⟩ 1
    [(5, ExtMetadataBlock.Level1 ⟨0, 4095, 1024⟩)]
    (by decide) (by decide) (by decide) (by decide)
    (by
      intro p hm
      simp only [List.mem_singleton] at hm
      subst hm
      exact ⟨bitsOfNat 12 0 ++ bitsOfNat 12 4095 ++ bitsOfNat 12 1024, by decide⟩)


/-- Evaluation of the Exp-Golomb code for 1. -/
theorem ueBits_one : ueBits 1 = [false, true, false] := by
  simp [ueBits, Nat.log2, bitsOfNat]

/-- Evaluation of the Exp-Golomb code for 10. -/
theorem ueBits_ten : ueBits 10 = [false, false, false, true, false, true, true] := by
  simp [ueBits, Nat.log2, bitsOfNat]

/-- C1: counterexample to the literal round-trip claim.  A CM v4.0 payload
declaring an L8 block of length 12 whose trims and `target_mid_contrast`
all carry the sentinel default 2048 parses successfully, but the parsed
block recomputes to 10 bytes and re-serializes to a different, shorter
payload (103 bits instead of 119). -/
theorem claimC1_counterexample :
    DmData.parseV40 ⟨0, [false, true, false, false, false, false, false, false, false, false, false, true, true, false, true, false, false, false, false, true, false, false, false, false, false, false, false, false, false, false, true, true, false, false, false, false, false, false, false, false, false, false, false, true, false, false, false, false, false, false, false, false, false, false, false, true, false, false, false, false, false, false, false, false, false, false, false, true, false, false, false, false, false, false, false, false, false, false, false, true, false, false, false, false, false, false, false, false, false, false, false, true, false, false, false, false, false, false, false, false, false, false, false, true, false, false, false, false, false, false, false, false, false, false, false, false, false, false, false]⟩ =
      .ok (⟨1, [ExtMetadataBlock.Level8 ExtMetadataBlockLevel8.default]⟩, ⟨119, []⟩) ∧
    DmData.writeV40 0 ⟨1, [ExtMetadataBlock.Level8 ExtMetadataBlockLevel8.default]⟩ =
      .ok [false, true, false, false, false, false, false, false, false, false, false, true, false, true, true, false, false, false, false, true, false, false, false, false, false, false, false, false, false, false, true, true, false, false, false, false, false, false, false, false, false, false, false, true, false, false, false, false, false, false, false, false, false, false, false, true, false, false, false, false, false, false, false, false, false, false, false, true, false, false, false, false, false, false, false, false, false, false, false, true, false, false, false, false, false, false, false, false, false, false, false, true, false, false, false, false, false, false, false, false, false, false, false] ∧
    [false, true, false, false, false, false, false, false, false, false, false, true, false, true, true, false, false, false, false, true, false, false, false, false, false, false, false, false, false, false, true, true, false, false, false, false, false, false, false, false, false, false, false, true, false, false, false, false, false, false, false, false, false, false, false, true, false, false, false, false, false, false, false, false, false, false, false, true, false, false, false, false, false, false, false, false, false, false, false, true, false, false, false, false, false, false, false, false, false, false, false, true, false, false, false, false, false, false, false, false, false, false, false] ≠ [false, true, false, false, false, false, false, false, false, false, false, true, true, false, true, false, false, false, false, true, false, false, false, false, false, false, false, false, false, false, true, true, false, false, false, false, false, false, false, false, false, false, false, true, false, false, false, false, false, false, false, false, false, false, false, true, false, false, false, false, false, false, false, false, false, false, false, true, false, false, false, false, false, false, false, false, false, false, false, true, false, false, false, false, false, false, false, false, false, false, false, true, false, false, false, false, false, false, false, false, false, false, false, true, false, false, false, false, false, false, false, false, false, false, false, false, false, false, false] := by
  refine ⟨by decide, ?_, by decide⟩
  have hlb : (ExtMetadataBlock.Level8 ExtMetadataBlockLevel8.default).length_bytes = 10 := by
    decide
  have hseg : writeBlockSegment (ExtMetadataBlock.Level8 ExtMetadataBlockLevel8.default) =
      .ok [false, false, false, true, false, true, true, false, false, false, false, true, false, false, false, false, false, false, false, false, false, false, true, true, false, false, false, false, false, false, false, false, false, false, false, true, false, false, false, false, false, false, false, false, false, false, false, true, false, false, false, false, false, false, false, false, false, false, false, true, false, false, false, false, false, false, false, false, false, false, false, true, false, false, false, false, false, false, false, false, false, false, false, true, false, false, false, false, false, false, false, false, false, false, false] := by
    unfold writeBlockSegment
    simp only [bind, Except.bind]
    rw [show ExtMetadataBlock.write (ExtMetadataBlock.Level8 ExtMetadataBlockLevel8.default) =
      .ok [false, false, false, false, false, false, false, true, true, false, false, false, false, false, false, false, false, false, false, false, true, false, false, false, false, false, false, false, false, false, false, false, true, false, false, false, false, false, false, false, false, false, false, false, true, false, false, false, false, false, false, false, false, false, false, false, true, false, false, false, false, false, false, false, false, false, false, false, true, false, false, false, false, false, false, false, false, false, false, false] from by decide]
    try dsimp only
    rw [hlb, ueBits_ten]
    decide
  unfold DmData.writeV40 WithExtMetadataBlocks.write
  simp only [bind, Except.bind]
  try dsimp only
  rw [show writeSegments [ExtMetadataBlock.Level8 ExtMetadataBlockLevel8.default] =
      .ok [false, false, false, true, false, true, true, false, false, false, false, true, false, false, false, false, false, false, false, false, false, false, true, true, false, false, false, false, false, false, false, false, false, false, false, true, false, false, false, false, false, false, false, false, false, false, false, true, false, false, false, false, false, false, false, false, false, false, false, true, false, false, false, false, false, false, false, false, false, false, false, true, false, false, false, false, false, false, false, false, false, false, false, true, false, false, false, false, false, false, false, false, false, false, false] from by
    unfold writeSegments
    simp only [bind, Except.bind]
    rw [hseg]
    try dsimp only
    unfold writeSegments
    try dsimp only
    simp]
  try dsimp only
  rw [ueBits_one]
  decide
